import Mathlib

set_option maxHeartbeats 1000000

/-!
Shallow embedding of `numpy/core/_dtype.py`: string rendering of numpy
data-type descriptors (`__str__`, `__repr__`, `_construction_repr`,
`_byte_order_str`, `_datetime_metadata_str`, `_is_packed`,
`_struct_dict_str`, `_struct_list_str`, `_struct_str`, `_subarray_str`,
`_struct_repr`).

The descriptor object (`np.dtype`) itself is external C code; we model the
attributes the python file reads (`kind`-like scalar type identity via
`dtype.type`, `byteorder`, `itemsize`, `name`, `str`, `fields`/`names` in
declaration order, `subdtype`, `isalignedstruct`, `isbuiltin`) as a Lean
inductive.  Python exceptions (`RuntimeError`) are modelled with
`Except String`.  Python's `%d` formatting, `repr` of strings, and tuple
`str` are runtime builtins; they are modelled by `decRepr`, `pyStrRepr`
and `tupleRepr` below.
-/

/-- The platform's native byte order.  `_byte_order_str` determines the
concrete native/swapped order characters at run time via the double
`newbyteorder('s')` hack; we model the platform as an explicit parameter. -/
inductive Endianness where
  | little
  | big
deriving DecidableEq

/-- The concrete order character of an endianness, as numpy prints it. -/
def Endianness.char : Endianness → Char
  | .little => '<'
  | .big => '>'

/-- The opposite byte order (what `newbyteorder('s')` produces). -/
def Endianness.swap : Endianness → Endianness
  | .little => .big
  | .big => .little

/-- Scalar type identity, mirroring the `dtype.type` checks of
`_construction_repr`: `np.bool_`, `np.object_`, `np.string_`,
`np.unicode_`, `np.void`, `np.datetime64`, `np.timedelta64`, the numeric
types (`np.issubdtype(dtype, np.number)`, carrying `dtype.kind`), and the
fallback for any other registered scalar type (carrying
`dtype.type.__name__` and `dtype.isbuiltin`). -/
inductive SKind where
  | boolK
  | objectK
  | bytesK
  | unicodeK
  | voidK
  | datetimeK
  | timedeltaK
  | numK (kind : Char)
  | otherK (tyname : String) (isbuiltin : Nat)
deriving DecidableEq

mutual
/-- A numpy data-type descriptor, as read by `_dtype.py`: a scalar leaf
(with `byteorder`, `itemsize` and the externally computed `name`/`str`
attributes), a subarray (`dtype.subdtype = (base, shape)`), or a
structured record (`dtype.fields` in `dtype.names` declaration order,
plus `itemsize`, `isalignedstruct`, and the scalar type identity used by
the `dtype.type != np.void` check, with `__module__`/`__name__`). -/
inductive Dtype where
  | scalar (k : SKind) (byteorder : Char) (itemsize : Nat) (name : String) (str : String)
  | subarray (base : Dtype) (shape : List Nat) (itemsize : Nat)
  | struct (fields : Fields) (itemsize : Nat) (aligned : Bool) (tyIsVoid : Bool)
      (tyModule : String) (tyName : String)
deriving DecidableEq

/-- The fields of a structured descriptor in declaration order; each
entry is `(name, field dtype, byte offset, optional title)`, i.e. the
result of `_unpack_field(*dtype.fields[name])` for `name` in
`dtype.names`. -/
inductive Fields where
  | nil
  | cons (fname : String) (fd : Dtype) (offset : Nat) (title : Option String) (rest : Fields)
deriving DecidableEq
end

/-- `dtype.itemsize`. -/
def Dtype.itemsize : Dtype → Nat
  | .scalar _ _ isz _ _ => isz
  | .subarray _ _ isz => isz
  | .struct _ isz _ _ _ _ => isz

/-- `dtype.byteorder`; structured and subarray descriptors carry `'|'`. -/
def Dtype.byteorder : Dtype → Char
  | .scalar _ b _ _ _ => b
  | _ => '|'

/-- `dtype.name` (externally computed attribute, carried on scalars). -/
def Dtype.pyname : Dtype → String
  | .scalar _ _ _ nm _ => nm
  | _ => ""

/-- `dtype.isalignedstruct`. -/
def Dtype.isalignedstruct : Dtype → Bool
  | .struct _ _ al _ _ _ => al
  | _ => false

/-- Field names in declaration order (`dtype.names`). -/
def Fields.names : Fields → List String
  | .nil => []
  | .cons nm _ _ _ rest => nm :: rest.names

/-- Field dtypes in declaration order. -/
def Fields.dtypes : Fields → List Dtype
  | .nil => []
  | .cons _ fd _ _ rest => fd :: rest.dtypes

/-- Field byte offsets in declaration order. -/
def Fields.offsets : Fields → List Nat
  | .nil => []
  | .cons _ _ off _ rest => off :: rest.offsets

/-- Field titles in declaration order. -/
def Fields.titles : Fields → List (Option String)
  | .nil => []
  | .cons _ _ _ t rest => t :: rest.titles

/-- Field itemsizes in declaration order. -/
def Fields.itemsizes : Fields → List Nat
  | .nil => []
  | .cons _ fd _ _ rest => fd.itemsize :: rest.itemsizes

/-- A decimal digit character. -/
def decDigit : Nat → Char
  | 0 => '0'
  | 1 => '1'
  | 2 => '2'
  | 3 => '3'
  | 4 => '4'
  | 5 => '5'
  | 6 => '6'
  | 7 => '7'
  | 8 => '8'
  | _ => '9'

/-- Decimal digits of a natural number, most significant first, with a
structural fuel argument (any `fuel ≥ n` gives the true digits).  Models
Python's `'%d' % n` formatting of the non-negative integers appearing in
`_dtype.py`. -/
def decReprChars : Nat → Nat → List Char
  | 0, n => [decDigit n]
  | fuel + 1, n =>
    if n < 10 then [decDigit n]
    else decReprChars fuel (n / 10) ++ [decDigit (n % 10)]

/-- Decimal rendering of a natural number (model of Python `'%d' % n`). -/
def decRepr (n : Nat) : String := ⟨decReprChars n n⟩

/-- Escape one character for quoting.  Modelled from the spec: Python's
`repr` of a string (an external builtin) is shown single-quoted in the
spec's examples; we quote with `'` and escape backslash and quote. -/
def escChar (c : Char) : List Char :=
  if c = '\\' then ['\\', '\\']
  else if c = '\x27' then ['\\', '\x27']
  else [c]

/-- Escaped character list of a string. -/
def escList : List Char → List Char
  | [] => []
  | c :: cs => escChar c ++ escList cs

/-- Modelled from the spec: Python's `repr` of a `str` (external
builtin), used by `_dtype.py` via `repr(...)` and `{!r}`. -/
def pyStrRepr (s : String) : String := ⟨'\x27' :: escList s.data ++ ['\x27']⟩

/-- Modelled from the spec: Python's `repr` of an optional title —
`repr(None)` is `None`, otherwise the string repr. -/
def pyOptStrRepr : Option String → String
  | none => "None"
  | some t => pyStrRepr t

/-- Model of Python's `sep.join(items)`. -/
def joinSep (sep : String) : List String → String
  | [] => ""
  | [x] => x
  | x :: xs => x ++ sep ++ joinSep sep xs

/-- Model of Python's `str` of a tuple of ints (`'{}'.format(shape)`):
`()`, `(2,)`, `(2, 3)`. -/
def tupleRepr : List Nat → String
  | [] => "()"
  | [n] => "(" ++ decRepr n ++ ",)"
  | n :: ns => "(" ++ joinSep ", " ((n :: ns).map decRepr) ++ ")"

/-- Index of the last occurrence of a character, if any (Python
`str.rfind`, with `none` for `-1`). -/
def rfindIdx : List Char → Char → Option Nat
  | [], _ => none
  | x :: xs, c =>
    match rfindIdx xs c with
    | some i => some (i + 1)
    | none => if x = c then some 0 else none

/-- Model of the Python slice `s[s.rfind(c):]`: from the last occurrence
of `c`, or — when `rfind` returns `-1` — the Python slice `s[-1:]`, the
last character. -/
def pyTailSlice (l : List Char) (c : Char) : List Char :=
  match rfindIdx l c with
  | some i => l.drop i
  | none => l.drop (l.length - 1)

/-- `_datetime_metadata_str`: `dtype.name[dtype.name.rfind('['):]`. -/
def datetime_metadata_str (d : Dtype) : String :=
  ⟨pyTailSlice d.pyname.data '['⟩

/-- Core of `_byte_order_str` on the raw `dtype.byteorder` character.
The source computes `native`/`swapped` at run time by double-swapping
`np.dtype(int)`; on platform `plat` those are `plat.char` and
`plat.swap.char`. -/
def byte_order_str_of (plat : Endianness) (byteorder : Char) : String :=
  if byteorder = '=' then ⟨[plat.char]⟩
  else if byteorder = 's' then ⟨[plat.swap.char]⟩
  else if byteorder = '|' then ""
  else ⟨[byteorder]⟩

/-- `_byte_order_str(dtype)`: normalize byteorder to `'<'` or `'>'`. -/
def byte_order_str (plat : Endianness) (d : Dtype) : String :=
  byte_order_str_of plat d.byteorder

/-- The loop of `_is_packed`: walk fields in declaration order, fail on
the first offset mismatch, otherwise return the accumulated total. -/
def is_packed_loop : Nat → Fields → Option Nat
  | total, .nil => some total
  | total, .cons _ fd off _ rest =>
    if off ≠ total then none else is_packed_loop (total + fd.itemsize) rest

/-- `_is_packed(dtype)`: fields in order with no gaps, and no trailing
padding (`total_offset == dtype.itemsize`).  The source takes the whole
dtype and reads `names`/`fields`/`itemsize`; we pass the fields and the
itemsize. -/
def is_packed (fl : Fields) (itemsize : Nat) : Bool :=
  match is_packed_loop 0 fl with
  | none => false
  | some total => total == itemsize

/-- The numeric long-form kind table of `_construction_repr`. -/
def kindstrs (kind : Char) : Option String :=
  if kind = 'u' then some "uint"
  else if kind = 'i' then some "int"
  else if kind = 'f' then some "float"
  else if kind = 'c' then some "complex"
  else none

/-- The `(<module>.<name>, <sub>)` wrapping `_struct_str` applies when
`dtype.type != np.void`. -/
def type_wrap (tyIsVoid : Bool) (tyModule tyName : String) (sub : String) : String :=
  if tyIsVoid then sub
  else "(" ++ tyModule ++ "." ++ tyName ++ ", " ++ sub ++ ")"

/-- The string-assembly part of `_struct_dict_str(dtype,
includealignedflag)`, given the already-rendered `'formats'` entries:
`{'names':…, 'formats':…, 'offsets':…[, 'titles':…], 'itemsize':…
[, 'aligned':True]}`. -/
def dict_str_build (fl : Fields) (isz : Nat) (al : Bool) (includealignedflag : Bool)
    (formats : List String) : String :=
  let ret := "\x7b\x27names\x27:[" ++ joinSep "," (fl.names.map pyStrRepr)
  let ret := ret ++ "], \x27formats\x27:[" ++ joinSep "," formats
  let ret := ret ++ "], \x27offsets\x27:[" ++ joinSep "," (fl.offsets.map decRepr)
  let ret := if fl.titles.any (fun t => t.isSome) then
      ret ++ "], \x27titles\x27:[" ++ joinSep "," (fl.titles.map pyOptStrRepr)
    else ret
  let ret := ret ++ "], \x27itemsize\x27:" ++ decRepr isz
  if includealignedflag && al then ret ++ ", \x27aligned\x27:True\x7d"
  else ret ++ "\x7d"

/-- The name-or-titled-name opening of one `_struct_list_str` item. -/
def list_item_head (title : Option String) (nm : String) : String :=
  match title with
  | some tt => "(" ++ "(" ++ pyStrRepr tt ++ ", " ++ pyStrRepr nm ++ "), "
  | none => "(" ++ pyStrRepr nm ++ ", "

mutual
/-- `_construction_repr(dtype, include_align, short)`: the canonical
constructor-argument string.  The structured branch is `_struct_str`
(list-or-dict choice plus the `dtype.type != np.void` wrapping), the
subarray branch `_subarray_str`; the scalar cases dispatch on
`dtype.type` exactly as the source's `if`/`elif` chain does, with
`RuntimeError` modelled as `Except.error`. -/
def construction_repr (plat : Endianness) : Dtype → Bool → Bool → Except String String
  | .struct fl isz al ty m t, include_align, _short =>
    (if !(include_align && al) && is_packed fl isz then
      Except.map (fun items => "[" ++ joinSep ", " items ++ "]") (fields_list_items plat fl)
    else
      Except.map (dict_str_build fl isz al include_align) (fields_formats plat fl)) >>=
    fun sub => .ok (type_wrap ty m t sub)
  | .subarray base shape _isz, _include_align, _short =>
    Except.map (fun bs => "(" ++ bs ++ ", " ++ tupleRepr shape ++ ")")
      (construction_repr plat base false true)
  | .scalar k b isz nm _st, _include_align, short =>
    let byteorder := byte_order_str_of plat b
    match k with
    | .boolK => if short then .ok "\x27?\x27" else .ok "\x27bool\x27"
    | .objectK => .ok "\x27O\x27"
    | .bytesK =>
      if isz == 0 then .ok "\x27S\x27"
      else .ok ("\x27S" ++ decRepr isz ++ "\x27")
    | .unicodeK =>
      if isz == 0 then .ok ("\x27" ++ byteorder ++ "U\x27")
      else .ok ("\x27" ++ byteorder ++ "U" ++ decRepr (isz / 4) ++ "\x27")
    | .voidK =>
      if isz == 0 then .ok "\x27V\x27"
      else .ok ("\x27V" ++ decRepr isz ++ "\x27")
    | .datetimeK =>
      .ok ("\x27" ++ byteorder ++ "M8" ++ (⟨pyTailSlice nm.data '['⟩ : String) ++ "\x27")
    | .timedeltaK =>
      .ok ("\x27" ++ byteorder ++ "m8" ++ (⟨pyTailSlice nm.data '['⟩ : String) ++ "\x27")
    | .numK kind =>
      if short || (decide (b ≠ '=') && decide (b ≠ '|')) then
        .ok ("\x27" ++ byteorder ++ (⟨[kind]⟩ : String) ++ decRepr isz ++ "\x27")
      else
        match kindstrs kind with
        | some kindstr => .ok ("\x27" ++ kindstr ++ decRepr (8 * isz) ++ "\x27")
        | none =>
          .error ("internal dtype repr error, unknown kind " ++ pyStrRepr (⟨[kind]⟩ : String))
    | .otherK tyname isbuiltin =>
      if isbuiltin == 2 then .ok tyname
      else .error "Internal error: NumPy dtype unrecognized type number"
termination_by structural d _ _ => d

/-- The `'formats'` entries of the dict form: each field's
`_construction_repr(fld_dtype, short=True)` in declaration order. -/
def fields_formats (plat : Endianness) : Fields → Except String (List String)
  | .nil => .ok []
  | .cons _ fd _ _ rest =>
    construction_repr plat fd false true >>= fun s =>
    fields_formats plat rest >>= fun ss => .ok (s :: ss)
termination_by structural fl => fl

/-- The items of `_struct_list_str`, in declaration order, with the
subarray special case (`fld_dtype.subdtype is not None`) giving
`(name, baseformat, shape)`. -/
def fields_list_items (plat : Endianness) : Fields → Except String (List String)
  | .nil => .ok []
  | .cons nm (.subarray base shape _szz) _ title rest =>
    (construction_repr plat base false true >>= fun bs =>
      .ok (bs ++ ", " ++ tupleRepr shape)) >>= fun fmt =>
    fields_list_items plat rest >>= fun items =>
    .ok ((list_item_head title nm ++ fmt ++ ")") :: items)
  | .cons nm fd _ title rest =>
    construction_repr plat fd false true >>= fun fmt =>
    fields_list_items plat rest >>= fun items =>
    .ok ((list_item_head title nm ++ fmt ++ ")") :: items)
termination_by structural fl => fl
end

/-- `_struct_dict_str(dtype, includealignedflag)` on the unpacked
attributes of a structured descriptor. -/
def struct_dict_str_core (plat : Endianness) (fl : Fields) (isz : Nat) (al : Bool)
    (includealignedflag : Bool) : Except String String :=
  Except.map (dict_str_build fl isz al includealignedflag) (fields_formats plat fl)

/-- `_struct_list_str(dtype)` on the fields of a structured
descriptor. -/
def struct_list_str_core (plat : Endianness) (fl : Fields) : Except String String :=
  Except.map (fun items => "[" ++ joinSep ", " items ++ "]") (fields_list_items plat fl)

/-- `_struct_str(dtype, include_align)` on the unpacked attributes:
choose list or dict form, then apply the `dtype.type != np.void`
wrapping. -/
def struct_str_core (plat : Endianness) (fl : Fields) (isz : Nat) (al : Bool)
    (tyIsVoid : Bool) (tyModule tyName : String) (include_align : Bool) :
    Except String String :=
  (if !(include_align && al) && is_packed fl isz then
    struct_list_str_core plat fl
  else
    struct_dict_str_core plat fl isz al include_align) >>= fun sub =>
  .ok (type_wrap tyIsVoid tyModule tyName sub)

/-- `_subarray_str(dtype)` on the unpacked `subdtype`:
`(base short repr, shape)`. -/
def subarray_str_core (plat : Endianness) (base : Dtype) (shape : List Nat) :
    Except String String :=
  Except.map (fun bs => "(" ++ bs ++ ", " ++ tupleRepr shape ++ ")")
    (construction_repr plat base false true)

/-- `_struct_str(dtype, include_align)`.  The source assumes
`dtype.fields is not None`; on a non-structured descriptor it would
fault, modelled as an error. -/
def struct_str (plat : Endianness) (d : Dtype) (include_align : Bool) :
    Except String String :=
  match d with
  | .struct fl isz al ty m t => struct_str_core plat fl isz al ty m t include_align
  | _ => .error "fields is None"

/-- `_struct_dict_str(dtype, includealignedflag)`. -/
def struct_dict_str (plat : Endianness) (d : Dtype) (includealignedflag : Bool) :
    Except String String :=
  match d with
  | .struct fl isz al _ _ _ => struct_dict_str_core plat fl isz al includealignedflag
  | _ => .error "fields is None"

/-- `_struct_list_str(dtype)`. -/
def struct_list_str (plat : Endianness) (d : Dtype) : Except String String :=
  match d with
  | .struct fl _ _ _ _ _ => struct_list_str_core plat fl
  | _ => .error "fields is None"

/-- `_subarray_str(dtype)`. -/
def subarray_str (plat : Endianness) (d : Dtype) : Except String String :=
  match d with
  | .subarray base shape _ => subarray_str_core plat base shape
  | _ => .error "subdtype is None"

/-- `_struct_repr(dtype)`: `dtype(<struct_str include_align=False>` +
`, align=True` when the aligned flag is set + `)`. -/
def struct_repr (plat : Endianness) (d : Dtype) : Except String String :=
  struct_str plat d false >>= fun sub =>
  .ok ("dtype(" ++ sub ++ (if d.isalignedstruct then ", align=True" else "") ++ ")")

/-- `dtype.isnative`, derived per the spec: true iff the byte order
resolves to the platform's native order (`'='`, order-irrelevant `'|'`,
or the explicit native character). -/
def isNativeOrder (plat : Endianness) (b : Char) : Bool :=
  b == '=' || b == '|' || b == plat.char

/-- Whether the scalar type is a subclass of `np.flexible`
(`np.string_`, `np.unicode_`, `np.void`). -/
def isFlexibleKind : SKind → Bool
  | .bytesK => true
  | .unicodeK => true
  | .voidK => true
  | _ => false

/-- `__str__(dtype)`: the display string.  The flexible / non-native
scalar branch returns the externally computed `dtype.str`, the final
branch the externally computed `dtype.name` (both carried on the
scalar). -/
def dtype_str (plat : Endianness) (d : Dtype) : Except String String :=
  match d with
  | .struct _ _ _ _ _ _ => struct_str plat d true
  | .subarray _ _ _ => subarray_str plat d
  | .scalar k b _ nm st =>
    if isFlexibleKind k || !isNativeOrder plat b then .ok st else .ok nm

/-- `__repr__(dtype)`: the canonical repr string. -/
def dtype_repr (plat : Endianness) (d : Dtype) : Except String String :=
  match d with
  | .struct _ _ _ _ _ _ => struct_repr plat d
  | _ =>
    construction_repr plat d true false >>= fun sub =>
    .ok ("dtype(" ++ sub ++ ")")

deriving instance DecidableEq for Except

/-- Binding into `.ok ∘ f` is mapping. -/
theorem except_bind_ok {α β : Type} (x : Except String α) (f : α → β) :
    (x >>= fun a => Except.ok (f a)) = Except.map f x := by
  cases x <;> rfl

/-- String append is associative. -/
theorem str_append_assoc (a b c : String) : a ++ b ++ c = a ++ (b ++ c) := by
  cases a; cases b; cases c
  exact congrArg String.mk (List.append_assoc _ _ _)

/-- Appending the empty string is the identity. -/
theorem str_append_empty (a : String) : a ++ "" = a := by
  cases a
  exact congrArg String.mk (List.append_nil _)

/-- The data of an appended string. -/
theorem str_data_append (a b : String) : (a ++ b).data = a.data ++ b.data := rfl

/-- A little-endian 4-byte signed integer descriptor (`np.dtype('i4')`). -/
def exI4 : Dtype := .scalar (.numK 'i') '=' 4 "int32" "<i4"

/-- A little-endian 8-byte float descriptor (`np.dtype('f8')`). -/
def exF8 : Dtype := .scalar (.numK 'f') '=' 8 "float64" "<f8"

/-- Three 4-byte fields at offsets 0, 4, 8. -/
def exFields3 : Fields :=
  .cons "a" exI4 0 none (.cons "b" exI4 4 none (.cons "c" exI4 8 none .nil))

/-- A packed structured descriptor whose aligned flag is set
(`np.dtype([('f0', 'i4')], align=True)`). -/
def exPackedAligned : Dtype :=
  .struct (.cons "f0" exI4 0 none .nil) 4 true true "numpy" "void"

/-- C7: the byte-order normalizer is total and always returns a string:
for `'='` (native) it returns the platform's actual native order
character, for `'s'` (swapped) the opposite of native, for `'|'`
(not-applicable) the empty string, and any other byte-order value is
returned unchanged. -/
theorem byte_order_str_spec (plat : Endianness) (d : Dtype) :
    (d.byteorder = '=' → byte_order_str plat d = (⟨[plat.char]⟩ : String)) ∧
    (d.byteorder = 's' → byte_order_str plat d = (⟨[plat.swap.char]⟩ : String)) ∧
    (d.byteorder = '|' → byte_order_str plat d = "") ∧
    (d.byteorder ≠ '=' → d.byteorder ≠ 's' → d.byteorder ≠ '|' →
      byte_order_str plat d = (⟨[d.byteorder]⟩ : String)) := by
  refine ⟨fun h => ?_, fun h => ?_, fun h => ?_, fun h1 h2 h3 => ?_⟩ <;>
    simp_all [byte_order_str, byte_order_str_of]

/-- Witness for C7 at concrete inputs: all four branches, little-endian
platform. -/
theorem byte_order_str_spec_witness :
    byte_order_str .little exI4 = "<" ∧
    byte_order_str .little (.scalar (.numK 'i') 's' 4 "" "") = ">" ∧
    byte_order_str .little (.scalar .boolK '|' 1 "" "") = "" ∧
    byte_order_str .little (.scalar (.numK 'i') '>' 4 "" "") = ">" :=
  ⟨(byte_order_str_spec .little exI4).1 rfl,
   (byte_order_str_spec .little (.scalar (.numK 'i') 's' 4 "" "")).2.1 rfl,
   (byte_order_str_spec .little (.scalar .boolK '|' 1 "" "")).2.2.1 rfl,
   (byte_order_str_spec .little (.scalar (.numK 'i') '>' 4 "" "")).2.2.2
     (by decide) (by decide) (by decide)⟩

/-- C9: rendering the canonical repr is deterministic with respect to
the descriptor alone — two calls on equal descriptors yield identical
strings (the embedding is a pure function of the descriptor and the
platform). -/
theorem dtype_repr_deterministic (plat : Endianness) (d1 d2 : Dtype) (h : d1 = d2) :
    dtype_repr plat d1 = dtype_repr plat d2 := by
  rw [h]

/-- Witness for C9 at a concrete input. -/
theorem dtype_repr_deterministic_witness :
    dtype_repr .little exI4 = dtype_repr .little exI4 :=
  dtype_repr_deterministic .little exI4 exI4 rfl

/-- C4: the structured serializer uses dict form iff (alignment
preservation was requested AND the aligned-struct flag is set) OR the
layout is not packed, and otherwise uses list form — with the
`dtype.type` wrapping applied to either form. -/
theorem struct_str_form_choice (plat : Endianness) (fl : Fields) (isz : Nat)
    (al ty : Bool) (m t : String) (ia : Bool) :
    struct_str plat (.struct fl isz al ty m t) ia =
      Except.map (type_wrap ty m t)
        (if (ia && al) || !(is_packed fl isz) then
          struct_dict_str plat (.struct fl isz al ty m t) ia
        else
          struct_list_str plat (.struct fl isz al ty m t)) := by
  simp only [struct_str, struct_dict_str, struct_list_str, struct_str_core]
  by_cases h1 : ia && al <;> by_cases h2 : is_packed fl isz <;>
    simp [h1, h2, except_bind_ok, struct_dict_str_core, struct_list_str_core]

/-- C10: for a structured descriptor whose scalar type is not the
default void record type, the `(<module>.<typename>, <fields>)` wrapping
is applied inside the shared structured serializer, so it appears in
the display string (`__str__` delegates to `_struct_str`) and not only
in the canonical repr. -/
theorem struct_type_wrap_in_display (plat : Endianness) (fl : Fields) (isz : Nat)
    (al : Bool) (m t : String) :
    dtype_str plat (.struct fl isz al false m t) =
      struct_str plat (.struct fl isz al false m t) true ∧
    dtype_str plat (.struct fl isz al false m t) =
      Except.map (fun sub => "(" ++ m ++ "." ++ t ++ ", " ++ sub ++ ")")
        (if al || !(is_packed fl isz) then
          struct_dict_str plat (.struct fl isz al false m t) true
        else
          struct_list_str plat (.struct fl isz al false m t)) := by
  refine ⟨rfl, ?_⟩
  have h := struct_str_form_choice plat fl isz al false m t true
  have hw : type_wrap false m t = fun sub => "(" ++ m ++ "." ++ t ++ ", " ++ sub ++ ")" := by
    funext sub
    simp [type_wrap]
  simp only [dtype_str]
  rw [h, hw]
  simp

/-- C2 counterexample: on a packed structured descriptor whose aligned
flag is set, the canonical repr is NOT the include-alignment = true
builder output wrapped as `dtype(…, align=True)` (which would be dict
form); the code passes include_align = False to `_struct_str`, so the
repr uses list form. -/
theorem struct_repr_not_include_align_true :
    dtype_repr .little exPackedAligned ≠
      Except.map (fun sub => "dtype(" ++ sub ++ ", align=True)")
        (struct_str .little exPackedAligned true) ∧
    dtype_repr .little exPackedAligned =
      .ok "dtype([(\x27f0\x27, \x27<i4\x27)], align=True)" := by
  constructor
  · decide
  · rfl

/-- C2 amended: the canonical repr of a structured descriptor wraps the
builder output produced with include-alignment = FALSE as
`dtype(<rendered>)`, appending `', align=True'` before the closing
parenthesis iff the aligned-struct flag is set; consequently a packed
structured descriptor whose alignment flag is set is rendered in LIST
form in the repr. -/
theorem struct_repr_spec (plat : Endianness) (fl : Fields) (isz : Nat)
    (al ty : Bool) (m t : String) :
    dtype_repr plat (.struct fl isz al ty m t) =
      Except.map
        (fun sub => "dtype(" ++ sub ++ (if al then ", align=True" else "") ++ ")")
        (struct_str plat (.struct fl isz al ty m t) false) ∧
    (al = true → is_packed fl isz = true →
      struct_str plat (.struct fl isz al ty m t) false =
        Except.map (type_wrap ty m t)
          (struct_list_str plat (.struct fl isz al ty m t))) := by
  constructor
  · show struct_repr plat (.struct fl isz al ty m t) = _
    simp only [struct_repr, Dtype.isalignedstruct]
    rw [except_bind_ok]
  · intro hal hp
    simp only [struct_str, struct_list_str, struct_str_core, struct_list_str_core,
      hal, hp]
    simp [except_bind_ok]

/-- Witness for the C2 amended theorem at the concrete packed + aligned
descriptor. -/
theorem struct_repr_spec_witness :
    dtype_repr .little exPackedAligned =
      Except.map (fun sub => "dtype(" ++ sub ++ ", align=True)")
        (struct_str .little exPackedAligned false) ∧
    struct_str .little exPackedAligned false =
      Except.map (type_wrap true "numpy" "void")
        (struct_list_str .little exPackedAligned) := by
  have h := struct_repr_spec .little (.cons "f0" exI4 0 none .nil) 4 true true "numpy" "void"
  exact ⟨by simpa using h.1, h.2 rfl (by decide)⟩

/-- The spec-side packedness condition: fields visited in declaration
order start at offset 0, each field's offset equals the sum of the
itemsizes of all prior fields, and the running total after the last
field equals the descriptor's itemsize. -/
def packedSpec (fl : Fields) (itemsize : Nat) : Prop :=
  (∀ i, ∀ h : i < fl.offsets.length,
    fl.offsets.get ⟨i, h⟩ = (fl.itemsizes.take i).sum) ∧
  fl.itemsizes.sum = itemsize

instance (fl : Fields) (itemsize : Nat) : Decidable (packedSpec fl itemsize) := by
  unfold packedSpec
  infer_instance

/-- The `_is_packed` loop from accumulator `acc` succeeds (necessarily
with value `acc` plus the total field size) iff every offset equals
`acc` plus the prior field sizes. -/
theorem is_packed_loop_iff (fl : Fields) (acc : Nat) :
    is_packed_loop acc fl = some (acc + fl.itemsizes.sum) ↔
      (∀ i, ∀ h : i < fl.offsets.length,
        fl.offsets.get ⟨i, h⟩ = acc + (fl.itemsizes.take i).sum) := by
  match fl with
  | .nil => simp [is_packed_loop, Fields.itemsizes, Fields.offsets]
  | .cons nm fd off title rest =>
    have ih := fun a => is_packed_loop_iff rest a
    simp only [is_packed_loop, Fields.itemsizes, Fields.offsets]
    by_cases hoff : off = acc
    · subst hoff
      rw [if_neg (by simp)]
      rw [List.sum_cons, ← Nat.add_assoc, ih (off + fd.itemsize)]
      constructor
      · intro h i hi
        match i with
        | 0 => simp
        | Nat.succ n =>
          have hn : n < rest.offsets.length := by
            simpa using hi
          have := h n hn
          simpa [Nat.add_assoc] using this
      · intro h i hi
        have := h (i + 1) (by simpa using hi)
        simpa [Nat.add_assoc] using this
    · rw [if_pos hoff]
      constructor
      · intro h
        exact absurd h (by simp)
      · intro h
        have h0 := h 0 (by simp)
        simp at h0
        exact absurd h0 hoff
termination_by structural fl

/-- A successful `_is_packed` loop returns the accumulator plus the
total field size. -/
theorem is_packed_loop_val (fl : Fields) (acc t : Nat)
    (h : is_packed_loop acc fl = some t) : t = acc + fl.itemsizes.sum := by
  match fl with
  | .nil =>
    simp [is_packed_loop] at h
    simp [Fields.itemsizes, h.symm]
  | .cons nm fd off title rest =>
    simp only [is_packed_loop] at h
    by_cases hoff : off = acc
    · rw [if_neg (by simp [hoff])] at h
      have := is_packed_loop_val rest (acc + fd.itemsize) t h
      simp [Fields.itemsizes, this, Nat.add_assoc]
    · rw [if_pos hoff] at h
      exact absurd h (by simp)
termination_by structural fl

/-- C3: the packedness analyzer returns true iff the fields start at
offset 0, each field's offset equals the sum of the itemsizes of all
prior fields, and the running total equals the itemsize; in particular
fields at offsets `[0,4,8]` with sizes `[4,4,4]` are packed with
itemsize 12 but not with itemsize 16. -/
theorem is_packed_iff_packedSpec :
    (∀ (fl : Fields) (itemsize : Nat),
      is_packed fl itemsize = true ↔ packedSpec fl itemsize) ∧
    is_packed exFields3 12 = true ∧ is_packed exFields3 16 = false := by
  refine ⟨fun fl itemsize => ?_, by decide, by decide⟩
  unfold is_packed packedSpec
  constructor
  · intro h
    cases hl : is_packed_loop 0 fl with
    | none => rw [hl] at h; exact absurd h (by simp)
    | some t =>
      rw [hl] at h
      have ht : t = itemsize := by simpa using h
      have hv := is_packed_loop_val fl 0 t hl
      have hsum : fl.itemsizes.sum = itemsize := by omega
      refine ⟨?_, hsum⟩
      have := (is_packed_loop_iff fl 0).mp (by rw [hl, hv])
      intro i hi
      simpa using this i hi
  · rintro ⟨hoff, hsum⟩
    have : is_packed_loop 0 fl = some (0 + fl.itemsizes.sum) := by
      rw [is_packed_loop_iff fl 0]
      intro i hi
      simpa using hoff i hi
    rw [this]
    simp [hsum]

/-- Witness for C3: the general characterization applied at the
concrete three-field layout with itemsize 12. -/
theorem is_packed_iff_packedSpec_witness : packedSpec exFields3 12 :=
  (is_packed_iff_packedSpec.1 exFields3 12).mp (by decide)

/-- C5: for a numeric descriptor (kind in {u,i,f,c}): if short form is
requested or the byte order is anything other than `'='`/`'|'`, the
builder emits `'<order><kindChar><itemsize>'`; otherwise it emits the
long spelling `'<kindName><bits>'` with kindName from {u→uint, i→int,
f→float, c→complex} and bits = itemsize × 8.  In particular a
native-order 8-byte float renders long as `'float64'` and short as
`'<f8'`. -/
theorem numeric_repr_forms (plat : Endianness) (k b : Char) (isz : Nat) (nm st : String)
    (ia short : Bool) (hk : k = 'u' ∨ k = 'i' ∨ k = 'f' ∨ k = 'c') :
    (short = true ∨ (b ≠ '=' ∧ b ≠ '|') →
      construction_repr plat (.scalar (.numK k) b isz nm st) ia short =
        .ok ("\x27" ++ byte_order_str_of plat b ++ (⟨[k]⟩ : String) ++
          decRepr isz ++ "\x27")) ∧
    (short = false → (b = '=' ∨ b = '|') →
      construction_repr plat (.scalar (.numK k) b isz nm st) ia short =
        .ok ("\x27" ++ (kindstrs k).getD "" ++ decRepr (8 * isz) ++ "\x27")) ∧
    construction_repr .little exF8 true false = .ok "\x27float64\x27" ∧
    construction_repr .little exF8 true true = .ok "\x27<f8\x27" := by
  refine ⟨?_, ?_, rfl, rfl⟩
  · intro h
    have hcond : (short || (decide (b ≠ '=') && decide (b ≠ '|'))) = true := by
      rcases h with h | ⟨h1, h2⟩
      · simp [h]
      · simp [h1, h2]
    simp only [construction_repr]
    rw [if_pos hcond]
  · intro hs hb
    have hcond : (short || (decide (b ≠ '=') && decide (b ≠ '|'))) = false := by
      rcases hb with h | h <;> simp [hs, h]
    simp only [construction_repr, hcond, Bool.false_eq_true, if_false]
    rcases hk with h | h | h | h <;> subst h <;> simp [kindstrs]

/-- Witness for C5: both branches discharged at concrete inputs — a
big-endian 4-byte int (short path via byte order) and the native 8-byte
float (long path). -/
theorem numeric_repr_forms_witness :
    construction_repr .little (.scalar (.numK 'i') '>' 4 "" "") true false =
      .ok "\x27>i4\x27" ∧
    construction_repr .little exF8 true false = .ok "\x27float64\x27" := by
  constructor
  · have h := (numeric_repr_forms .little 'i' '>' 4 "" "" true false
      (by decide)).1 (Or.inr ⟨by decide, by decide⟩)
    simpa using h
  · exact (numeric_repr_forms .little 'f' '=' 8 "float64" "<f8" true false
      (by decide)).2.2.1

/-- Prepending the empty string is the identity. -/
theorem str_empty_append (a : String) : "" ++ a = a := by
  cases a
  exact congrArg String.mk (List.nil_append _)

/-- The dict form as the spec describes it: `names`, `formats` (each
field's nested canonical repr in short form), and `offsets` as parallel
sequences in declaration order; a `titles` sequence iff some field's
title is present; always `itemsize`; and `'aligned': True` iff the
aligned flag is set and alignment-preserving output was requested. -/
def struct_dict_str_spec (plat : Endianness) (fl : Fields) (isz : Nat) (al : Bool)
    (includealignedflag : Bool) : Except String String :=
  Except.map (fun formats =>
      "\x7b\x27names\x27:[" ++ joinSep "," (fl.names.map pyStrRepr) ++
      "], \x27formats\x27:[" ++ joinSep "," formats ++
      "], \x27offsets\x27:[" ++ joinSep "," (fl.offsets.map decRepr) ++
      (if fl.titles.any (fun t => t.isSome) then
        "], \x27titles\x27:[" ++ joinSep "," (fl.titles.map pyOptStrRepr)
      else "") ++
      "], \x27itemsize\x27:" ++ decRepr isz ++
      (if includealignedflag && al then ", \x27aligned\x27:True" else "") ++
      "\x7d")
    (fl.dtypes.mapM (fun fd => construction_repr plat fd false true))

/-- The `'formats'` loop is the monadic map of the short construction
repr over the field dtypes in declaration order. -/
theorem fields_formats_eq_mapM (plat : Endianness) (fl : Fields) :
    fields_formats plat fl =
      fl.dtypes.mapM (fun fd => construction_repr plat fd false true) := by
  match fl with
  | .nil => rfl
  | .cons nm fd off title rest =>
    have ih := fields_formats_eq_mapM plat rest
    simp only [fields_formats, Fields.dtypes, List.mapM_cons, ih]
    rfl
termination_by structural fl

/-- C8: the dict-form serialization equals the spec-side description:
parallel `names`/`formats`/`offsets` (and `titles` iff some field has a
title) sequences index-for-index in declaration order, always
`itemsize`, and `'aligned': True` iff the flag is set and the caller
requested alignment-preserving output. -/
theorem struct_dict_str_refines_spec (plat : Endianness) (fl : Fields) (isz : Nat)
    (al ty : Bool) (m t : String) (includealignedflag : Bool) :
    struct_dict_str plat (.struct fl isz al ty m t) includealignedflag =
      struct_dict_str_spec plat fl isz al includealignedflag := by
  simp only [struct_dict_str, struct_dict_str_core, struct_dict_str_spec,
    fields_formats_eq_mapM]
  cases hx : fl.dtypes.mapM (fun fd => construction_repr plat fd false true) with
  | error e => rfl
  | ok formats =>
    simp only [Except.map]
    congr 1
    unfold dict_str_build
    by_cases ht : fl.titles.any (fun t => t.isSome) <;>
      by_cases ha : includealignedflag && al <;>
        simp [ht, ha, str_append_assoc, str_append_empty, str_empty_append]

/-- Whether an `Except` value is an error. -/
def isErr {α : Type} : Except String α → Bool
  | .error _ => true
  | .ok _ => false

/-- `Except.map` preserves error-ness. -/
theorem isErr_map {α β : Type} (f : α → β) (x : Except String α) :
    isErr (Except.map f x) = isErr x := by
  cases x <;> rfl

/-- An `Except` has an error value iff `isErr` holds. -/
theorem exists_error_iff_isErr {α : Type} (x : Except String α) :
    (∃ e, x = .error e) ↔ isErr x = true := by
  cases x <;> simp [isErr]

mutual
/-- The two fatal situations of `_construction_repr`, evaluated
recursively through nested subarray bases and struct fields (which are
always rendered in short form): a numeric descriptor reaching the
long-form path (`short` false, byte order `'='` or `'|'`) whose kind is
outside the {u,i,f,c} table, or a scalar whose type matches no
recognized case with `isbuiltin ≠ 2`. -/
def hasReprError (short : Bool) : Dtype → Bool
  | .scalar (.numK k) b _ _ _ =>
    !short && (b == '=' || b == '|') && (kindstrs k).isNone
  | .scalar (.otherK _ ib) _ _ _ _ => !(ib == 2)
  | .scalar _ _ _ _ _ => false
  | .subarray base _ _ => hasReprError true base
  | .struct fl _ _ _ _ _ => fieldsHasError fl
termination_by structural d => d

/-- Whether any field's short construction repr errors. -/
def fieldsHasError : Fields → Bool
  | .nil => false
  | .cons _ fd _ _ rest => hasReprError true fd || fieldsHasError rest
termination_by structural fl => fl
end

/-- Computation rule: binding an ok value. -/
theorem ok_bind {α β : Type} (a : α) (f : α → Except String β) :
    (Except.ok a >>= f) = f a := rfl

/-- Computation rule: binding an error. -/
theorem error_bind {α β : Type} (e : String) (f : α → Except String β) :
    ((Except.error e : Except String α) >>= f) = .error e := rfl

mutual
/-- `_construction_repr` errors exactly on the `hasReprError`
situations. -/
theorem construction_repr_isErr (plat : Endianness) (d : Dtype) (ia short : Bool) :
    isErr (construction_repr plat d ia short) = hasReprError short d := by
  match d with
  | .scalar k b isz nm st =>
    cases k with
    | numK kd =>
      cases short <;> by_cases h1 : b = '=' <;> by_cases h2 : b = '|' <;>
        cases hk : kindstrs kd <;>
          simp [construction_repr, hasReprError, isErr, h1, h2, hk]
    | otherK tn ib =>
      by_cases h : ib = 2 <;> simp [construction_repr, hasReprError, isErr, h]
    | boolK =>
      cases short <;> simp [construction_repr, hasReprError, isErr]
    | objectK => simp [construction_repr, hasReprError, isErr]
    | bytesK =>
      by_cases h : isz = 0 <;> simp [construction_repr, hasReprError, isErr, h]
    | unicodeK =>
      by_cases h : isz = 0 <;> simp [construction_repr, hasReprError, isErr, h]
    | voidK =>
      by_cases h : isz = 0 <;> simp [construction_repr, hasReprError, isErr, h]
    | datetimeK => simp [construction_repr, hasReprError, isErr]
    | timedeltaK => simp [construction_repr, hasReprError, isErr]
  | .subarray base shape isz =>
    have ih := construction_repr_isErr plat base false true
    simp [construction_repr, hasReprError, isErr_map, ih]
  | .struct fl isz al ty m t =>
    have ih1 := fields_list_items_isErr plat fl
    have ih2 := fields_formats_isErr plat fl
    simp only [construction_repr, hasReprError, except_bind_ok, isErr_map]
    split <;> simp [isErr_map, ih1, ih2]
termination_by structural d

/-- The `'formats'` loop errors exactly when some field errors. -/
theorem fields_formats_isErr (plat : Endianness) (fl : Fields) :
    isErr (fields_formats plat fl) = fieldsHasError fl := by
  match fl with
  | .nil => rfl
  | .cons nm fd off title rest =>
    have ihd := construction_repr_isErr plat fd false true
    have ihr := fields_formats_isErr plat rest
    simp only [fields_formats, fieldsHasError]
    cases hx : construction_repr plat fd false true with
    | error e =>
      rw [hx] at ihd
      simp [isErr, ← ihd, error_bind]
    | ok s =>
      rw [hx] at ihd
      simp only [isErr] at ihd
      cases hy : fields_formats plat rest with
      | error e2 =>
        rw [hy] at ihr
        simp [isErr, ← ihd, ← ihr, ok_bind, error_bind]
      | ok ss =>
        rw [hy] at ihr
        simp [isErr, ← ihd, ← ihr, ok_bind]
termination_by structural fl

/-- The list-form items loop errors exactly when some field errors. -/
theorem fields_list_items_isErr (plat : Endianness) (fl : Fields) :
    isErr (fields_list_items plat fl) = fieldsHasError fl := by
  match fl with
  | .nil => rfl
  | .cons nm (.subarray base shape szz) off title rest =>
    have ihd := construction_repr_isErr plat base false true
    have ihr := fields_list_items_isErr plat rest
    simp only [fields_list_items, fieldsHasError, hasReprError]
    cases hx : construction_repr plat base false true with
    | error e =>
      rw [hx] at ihd
      simp [isErr, ← ihd, error_bind, ok_bind]
    | ok s =>
      rw [hx] at ihd
      simp only [isErr] at ihd
      cases hy : fields_list_items plat rest with
      | error e2 =>
        rw [hy] at ihr
        simp [isErr, ← ihd, ← ihr, ok_bind, error_bind]
      | ok ss =>
        rw [hy] at ihr
        simp [isErr, ← ihd, ← ihr, ok_bind]
  | .cons nm (.scalar k b isz snm sst) off title rest =>
    have ihd := construction_repr_isErr plat (.scalar k b isz snm sst) false true
    have ihr := fields_list_items_isErr plat rest
    simp only [fields_list_items, fieldsHasError]
    cases hx : construction_repr plat (.scalar k b isz snm sst) false true with
    | error e =>
      rw [hx] at ihd
      simp [isErr, ← ihd, error_bind]
    | ok s =>
      rw [hx] at ihd
      simp only [isErr] at ihd
      cases hy : fields_list_items plat rest with
      | error e2 =>
        rw [hy] at ihr
        simp [isErr, ← ihd, ← ihr, ok_bind, error_bind]
      | ok ss =>
        rw [hy] at ihr
        simp [isErr, ← ihd, ← ihr, ok_bind]
  | .cons nm (.struct sfl sisz sal sty sm stn) off title rest =>
    have ihd := construction_repr_isErr plat (.struct sfl sisz sal sty sm stn) false true
    have ihr := fields_list_items_isErr plat rest
    simp only [fields_list_items, fieldsHasError]
    cases hx : construction_repr plat (.struct sfl sisz sal sty sm stn) false true with
    | error e =>
      rw [hx] at ihd
      simp [isErr, ← ihd, error_bind]
    | ok s =>
      rw [hx] at ihd
      simp only [isErr] at ihd
      cases hy : fields_list_items plat rest with
      | error e2 =>
        rw [hy] at ihr
        simp [isErr, ← ihd, ← ihr, ok_bind, error_bind]
      | ok ss =>
        rw [hy] at ihr
        simp [isErr, ← ihd, ← ihr, ok_bind]
termination_by structural fl
end

/-- An error message of `_construction_repr` is one of the two clearly
labeled internal-consistency errors. -/
def errLabeled (e : String) : Prop :=
  e = "Internal error: NumPy dtype unrecognized type number" ∨
  ∃ kd, kindstrs kd = none ∧
    e = "internal dtype repr error, unknown kind " ++ pyStrRepr (⟨[kd]⟩ : String)

mutual
/-- Any error produced by `_construction_repr` carries one of the two
internal-error labels. -/
theorem construction_repr_error_label (plat : Endianness) (d : Dtype) (ia short : Bool)
    (e : String) (h : construction_repr plat d ia short = .error e) : errLabeled e := by
  match d with
  | .scalar k b isz nm st =>
    cases k with
    | numK kd =>
      cases short <;> by_cases h1 : b = '=' <;> by_cases h2 : b = '|' <;>
        cases hk : kindstrs kd <;>
          simp [construction_repr, h1, h2, hk] at h <;>
          exact Or.inr ⟨kd, hk, h.symm⟩
    | otherK tn ib =>
      by_cases hib : ib = 2
      · simp [construction_repr, hib] at h
      · simp [construction_repr, hib] at h
        exact Or.inl h.symm
    | boolK => cases short <;> simp [construction_repr] at h
    | objectK => simp [construction_repr] at h
    | bytesK => by_cases h0 : isz = 0 <;> simp [construction_repr, h0] at h
    | unicodeK => by_cases h0 : isz = 0 <;> simp [construction_repr, h0] at h
    | voidK => by_cases h0 : isz = 0 <;> simp [construction_repr, h0] at h
    | datetimeK => simp [construction_repr] at h
    | timedeltaK => simp [construction_repr] at h
  | .subarray base shape isz =>
    simp only [construction_repr] at h
    cases hx : construction_repr plat base false true with
    | error e2 =>
      rw [hx] at h
      simp [Except.map] at h
      exact h ▸ construction_repr_error_label plat base false true e2 hx
    | ok s =>
      rw [hx] at h
      simp [Except.map] at h
  | .struct fl isz al ty m t =>
    simp only [construction_repr, except_bind_ok] at h
    split at h
    · cases hx : fields_list_items plat fl with
      | error e2 =>
        rw [hx] at h
        simp [Except.map] at h
        exact h ▸ fields_list_items_error_label plat fl e2 hx
      | ok s =>
        rw [hx] at h
        simp [Except.map] at h
    · cases hx : fields_formats plat fl with
      | error e2 =>
        rw [hx] at h
        simp [Except.map] at h
        exact h ▸ fields_formats_error_label plat fl e2 hx
      | ok s =>
        rw [hx] at h
        simp [Except.map] at h
termination_by structural d

/-- Any error of the `'formats'` loop carries an internal-error
label. -/
theorem fields_formats_error_label (plat : Endianness) (fl : Fields) (e : String)
    (h : fields_formats plat fl = .error e) : errLabeled e := by
  match fl with
  | .nil => simp [fields_formats] at h
  | .cons nm fd off title rest =>
    simp only [fields_formats] at h
    cases hx : construction_repr plat fd false true with
    | error e2 =>
      rw [hx, error_bind] at h
      cases h
      exact construction_repr_error_label plat fd false true e hx
    | ok s =>
      rw [hx, ok_bind] at h
      cases hy : fields_formats plat rest with
      | error e2 =>
        rw [hy, error_bind] at h
        cases h
        exact fields_formats_error_label plat rest e hy
      | ok ss =>
        rw [hy, ok_bind] at h
        cases h
termination_by structural fl

/-- Any error of the list-items loop carries an internal-error label. -/
theorem fields_list_items_error_label (plat : Endianness) (fl : Fields) (e : String)
    (h : fields_list_items plat fl = .error e) : errLabeled e := by
  match fl with
  | .nil => simp [fields_list_items] at h
  | .cons nm (.subarray base shape szz) off title rest =>
    simp only [fields_list_items] at h
    cases hx : construction_repr plat base false true with
    | error e2 =>
      rw [hx, error_bind, error_bind] at h
      cases h
      exact construction_repr_error_label plat base false true e hx
    | ok s =>
      rw [hx, ok_bind, ok_bind] at h
      cases hy : fields_list_items plat rest with
      | error e2 =>
        rw [hy, error_bind] at h
        cases h
        exact fields_list_items_error_label plat rest e hy
      | ok ss =>
        rw [hy, ok_bind] at h
        cases h
  | .cons nm (.scalar k b isz snm sst) off title rest =>
    simp only [fields_list_items] at h
    cases hx : construction_repr plat (.scalar k b isz snm sst) false true with
    | error e2 =>
      rw [hx, error_bind] at h
      cases h
      exact construction_repr_error_label plat (.scalar k b isz snm sst) false true e hx
    | ok s =>
      rw [hx, ok_bind] at h
      cases hy : fields_list_items plat rest with
      | error e2 =>
        rw [hy, error_bind] at h
        cases h
        exact fields_list_items_error_label plat rest e hy
      | ok ss =>
        rw [hy, ok_bind] at h
        cases h
  | .cons nm (.struct sfl sisz sal sty sm stn) off title rest =>
    simp only [fields_list_items] at h
    cases hx : construction_repr plat (.struct sfl sisz sal sty sm stn) false true with
    | error e2 =>
      rw [hx, error_bind] at h
      cases h
      exact construction_repr_error_label plat (.struct sfl sisz sal sty sm stn) false true e hx
    | ok s =>
      rw [hx, ok_bind] at h
      cases hy : fields_list_items plat rest with
      | error e2 =>
        rw [hy, error_bind] at h
        cases h
        exact fields_list_items_error_label plat rest e hy
      | ok ss =>
        rw [hy, ok_bind] at h
        cases h
termination_by structural fl
end

/-- C6: the construction-representation builder errors exactly in two
situations — a numeric descriptor reaching the long-form path whose
kind character is outside {u,i,f,c}, and a descriptor whose scalar type
matches no recognized case (`isbuiltin ≠ 2`) — evaluated recursively
through subarray bases and struct fields, and every error is one of
the two clearly labeled internal-consistency messages; on every other
descriptor it returns a string. -/
theorem construction_repr_error_conditions (plat : Endianness) (d : Dtype)
    (ia short : Bool) :
    ((∃ e, construction_repr plat d ia short = .error e) ↔
      hasReprError short d = true) ∧
    (∀ e, construction_repr plat d ia short = .error e → errLabeled e) := by
  constructor
  · rw [exists_error_iff_isErr, construction_repr_isErr]
  · exact construction_repr_error_label plat d ia short

/-- Witness for C6: the unrecognized-type error fires on a concrete
user scalar with `isbuiltin = 1`, and the unknown-kind error on a
concrete numeric descriptor with kind `'x'` reaching the long form;
the well-formed `exI4` does not error. -/
theorem construction_repr_error_conditions_witness :
    hasReprError false (.scalar (.otherK "foo" 1) '|' 8 "" "") = true ∧
    errLabeled "Internal error: NumPy dtype unrecognized type number" ∧
    hasReprError false (.scalar (.numK 'x') '=' 4 "" "") = true ∧
    (¬∃ e, construction_repr .little exI4 true false = .error e) :=
  ⟨(construction_repr_error_conditions .little (.scalar (.otherK "foo" 1) '|' 8 "" "")
      true false).1.mp ⟨_, rfl⟩,
   (construction_repr_error_conditions .little (.scalar (.otherK "foo" 1) '|' 8 "" "")
      true false).2 _ rfl,
   (construction_repr_error_conditions .little (.scalar (.numK 'x') '=' 4 "" "")
      true false).1.mp ⟨_, rfl⟩,
   fun he =>
    by
      have := (construction_repr_error_conditions .little exI4 true false).1.mp he
      exact absurd this (by decide)⟩

/-- The platform's pointer size in bytes (the itemsize of every
constructible object-reference descriptor; the spec notes the object
repr never embeds it because it is platform-dependent). -/
def PTR_SIZE : Nat := 8

/-- Characters allowed in the `<module>.<name>` type identity. -/
def identChar (c : Char) : Bool := c.isAlpha || c.isDigit || c == '_' || c == '.'

/-- A plausible python identifier-path: nonempty, starts with a letter,
all characters from the identifier set. -/
def identOK (s : String) : Bool :=
  match s.data with
  | [] => false
  | c :: cs => c.isAlpha && (c :: cs).all identChar

/-- The datetime name contract of the spec: the name carries a trailing
bracketed unit (`rfind('[')` finds it), and the unit tag contains no
quote character (it is embedded raw inside the quoted repr). -/
def metaNameOK (nm : String) : Bool :=
  nm.data.contains '[' && (pyTailSlice nm.data '[').all (fun c => decide (c ≠ '\x27'))

mutual
/-- Modelled from the spec: which descriptors the external constructor
can produce (§3 data-model invariants plus the upstream normalizations
the spec records): `'|'` byte order exactly for the order-irrelevant
kinds; native byte order stored as `'='` (never as the platform
character, and `'s'` unreachable); numeric kinds in the {u,i,f,c}
table; unicode itemsize a multiple of 4 (four bytes per code point);
datetime/timedelta 8 bytes with a bracketed unit in the name; object
itemsize the platform pointer size; subarray shapes nonempty positive
with itemsize = base itemsize × shape product and no directly nested
subarray; struct type identities that are identifier paths. -/
def Constructible (plat : Endianness) : Dtype → Bool
  | .scalar k b isz nm _ =>
    match k with
    | .boolK => b == '|' && isz == 1
    | .objectK => b == '|' && isz == PTR_SIZE
    | .bytesK => b == '|'
    | .unicodeK => (b == '=' || b == plat.swap.char) && isz % 4 == 0
    | .voidK => b == '|'
    | .datetimeK => (b == '=' || b == plat.swap.char) && isz == 8 && metaNameOK nm
    | .timedeltaK => (b == '=' || b == plat.swap.char) && isz == 8 && metaNameOK nm
    | .numK kc => (kindstrs kc).isSome && (b == '=' || b == plat.swap.char)
    | .otherK _ _ => false
  | .subarray base shape isz =>
    (match base with
      | .subarray _ _ _ => false
      | _ => true) &&
    Constructible plat base && !shape.isEmpty && shape.all (fun n => 0 < n) &&
    isz == base.itemsize * shape.prod
  | .struct fl _ _ ty m t =>
    ConstructibleFields plat fl && (ty || (identOK m && identOK t))
termination_by structural d => d

/-- All field dtypes are constructible. -/
def ConstructibleFields (plat : Endianness) : Fields → Bool
  | .nil => true
  | .cons _ fd _ _ rest => Constructible plat fd && ConstructibleFields plat rest
termination_by structural fl => fl
end

mutual
/-- Sameness of the components the round-trip claim lists: kind (with
the temporal unit for datetimes), byte order, itemsize, and recursively
the field layout (names, offsets, titles, field types) and subarray
substructure.  The aligned flag of NESTED structs and the carrier
`name`/`str` attributes and type identities are not compared. -/
def equivCore : Dtype → Dtype → Bool
  | .scalar k b isz nm _, .scalar k2 b2 isz2 nm2 _ =>
    decide (k = k2) && b == b2 && isz == isz2 &&
    (match k with
      | .datetimeK => decide (pyTailSlice nm.data '[' = pyTailSlice nm2.data '[')
      | .timedeltaK => decide (pyTailSlice nm.data '[' = pyTailSlice nm2.data '[')
      | _ => true)
  | .subarray base shape isz, .subarray base2 shape2 isz2 =>
    equivCore base base2 && shape == shape2 && isz == isz2
  | .struct fl isz _ _ _ _, .struct fl2 isz2 _ _ _ _ =>
    equivFields fl fl2 && isz == isz2
  | _, _ => false
termination_by structural d _ => d

/-- Field-by-field layout equivalence in declaration order. -/
def equivFields : Fields → Fields → Bool
  | .nil, .nil => true
  | .cons nm fd off title rest, .cons nm2 fd2 off2 title2 rest2 =>
    nm == nm2 && equivCore fd fd2 && off == off2 && decide (title = title2) &&
    equivFields rest rest2
  | _, _ => false
termination_by structural fl _ => fl
end

/-- Core equivalence plus sameness of the top-level aligned flag (which
the repr preserves via the `align=True` parameter). -/
def equivTop (d1 d2 : Dtype) : Bool :=
  equivCore d1 d2 && (d1.isalignedstruct == d2.isalignedstruct)

/-- Set the aligned flag of a structured descriptor (the constructor's
`align=True` second parameter). -/
def setAligned : Dtype → Dtype
  | .struct fl isz _ ty m t => .struct fl isz true ty m t
  | d => d

/-- Consume an expected literal character sequence, returning the
rest. -/
def expectChars : List Char → List Char → Option (List Char)
  | [], l => some l
  | _ :: _, [] => none
  | c :: cs, x :: xs => if x = c then expectChars cs xs else none

/-- Split off the maximal decimal-digit prefix. -/
def spanDigits : List Char → List Char × List Char
  | [] => ([], [])
  | c :: cs =>
    if c.isDigit then
      let p := spanDigits cs
      (c :: p.1, p.2)
    else ([], c :: cs)

/-- Value of a decimal digit string. -/
def digitsVal (ds : List Char) : Nat :=
  ds.foldl (fun a c => 10 * a + (c.toNat - 48)) 0

/-- Parse a nonempty decimal number (maximal munch). -/
def parseDec (l : List Char) : Option (Nat × List Char) :=
  let p := spanDigits l
  if p.1.isEmpty then none else some (digitsVal p.1, p.2)

/-- Parse an optional decimal number; no digits means 0 (the unsized
flexible kinds render without a size). -/
def optDigits (l : List Char) : Nat × List Char :=
  let p := spanDigits l
  (digitsVal p.1, p.2)

/-- Parse the tail of a quoted python string (after the opening quote):
unescape until the closing quote. -/
def parsePyStrTail : List Char → Option (List Char × List Char)
  | [] => none
  | '\x27' :: r => some ([], r)
  | '\\' :: c :: r => (parsePyStrTail r).map fun p => (c :: p.1, p.2)
  | '\\' :: [] => none
  | c :: r => (parsePyStrTail r).map fun p => (c :: p.1, p.2)

/-- Parse a quoted python string. -/
def parseName (l : List Char) : Option (String × List Char) :=
  match l with
  | '\x27' :: r => (parsePyStrTail r).map fun p => (⟨p.1⟩, p.2)
  | _ => none

/-- Parse a quoted python string or the literal `None`. -/
def parseOptName (l : List Char) : Option (Option String × List Char) :=
  match l with
  | 'N' :: 'o' :: 'n' :: 'e' :: r => some (none, r)
  | _ => (parseName l).map fun p => (some p.1, p.2)

/-- Read raw characters up to (and consuming) the next quote. -/
def readToQuote : List Char → Option (List Char × List Char)
  | [] => none
  | '\x27' :: r => some ([], r)
  | c :: r => (readToQuote r).map fun p => (c :: p.1, p.2)

/-- Split off the maximal identifier-character prefix. -/
def spanIdent : List Char → List Char × List Char
  | [] => ([], [])
  | c :: cs =>
    if identChar c then
      let p := spanIdent cs
      (c :: p.1, p.2)
    else ([], c :: cs)

/-- Skip a nonempty run of identifier characters. -/
def skipIdent (l : List Char) : Option (List Char) :=
  let p := spanIdent l
  if p.1.isEmpty then none else some p.2

/-- Parse a comma-separated (no space) list of quoted names, stopping
before `]`. -/
def parseNameList : Nat → List Char → Option (List String × List Char)
  | _, ']' :: r => some ([], ']' :: r)
  | 0, _ => none
  | fuel + 1, l =>
    (parseName l).bind fun p =>
    match p.2 with
    | ',' :: r2 => (parseNameList fuel r2).map fun q => (p.1 :: q.1, q.2)
    | _ => some ([p.1], p.2)

/-- Parse a comma-separated (no space) list of decimal numbers,
stopping before `]`. -/
def parseDecList (fuel : Nat) (l : List Char) : Option (List Nat × List Char) :=
  if l.head? = some ']' then some ([], l)
  else
    match fuel with
    | 0 => none
    | fuel + 1 =>
      (parseDec l).bind fun p =>
      match p.2 with
      | ',' :: r2 => (parseDecList fuel r2).map fun q => (p.1 :: q.1, q.2)
      | _ => some ([p.1], p.2)

/-- Parse a comma-separated (no space) list of quoted-or-`None` titles,
stopping before `]`. -/
def parseOptNameList : Nat → List Char → Option (List (Option String) × List Char)
  | _, ']' :: r => some ([], ']' :: r)
  | 0, _ => none
  | fuel + 1, l =>
    (parseOptName l).bind fun p =>
    match p.2 with
    | ',' :: r2 => (parseOptNameList fuel r2).map fun q => (p.1 :: q.1, q.2)
    | _ => some ([p.1], p.2)

/-- Parse the rest of a python int tuple after its first element:
`,)` closes a singleton, `, n…` continues, `)` closes. -/
def parseShapeRest : Nat → List Char → Option (List Nat × List Char)
  | _, ',' :: ')' :: r => some ([], r)
  | fuel + 1, ',' :: ' ' :: r =>
    (parseDec r).bind fun p =>
    (parseShapeRest fuel p.2).map fun q => (p.1 :: q.1, q.2)
  | _, ')' :: r => some ([], r)
  | _, _ => none

/-- Parse a python int tuple `()`, `(2,)`, `(2, 3)`. -/
def parseShapeTuple (fuel : Nat) : List Char → Option (List Nat × List Char)
  | '(' :: r =>
    if r.head? = some ')' then some ([], r.tail)
    else
      (parseDec r).bind fun p =>
      (parseShapeRest fuel p.2).map fun q => (p.1 :: q.1, q.2)
  | _ => none

/-- Parse the name-or-`(title, name)` part of a list-form item. -/
def parseNamePart (l : List Char) : Option ((Option String × String) × List Char) :=
  match l with
  | '(' :: r =>
    (parseName r).bind fun pt =>
    (expectChars (", ").data pt.2).bind fun r2 =>
    (parseName r2).bind fun pn =>
    match pn.2 with
    | ')' :: r4 => some ((some pt.1, pn.1), r4)
    | _ => none
  | _ => (parseName l).map fun pn => ((none, pn.1), pn.2)

/-- Zip parallel dict-form sequences back into fields. -/
def zipFields : List String → List Dtype → List Nat → List (Option String) → Fields
  | n :: ns, d :: ds, o :: os, t :: ts => .cons n d o t (zipFields ns ds os ts)
  | _, _, _, _ => .nil

/-- Parse the tail of a quoted scalar form (after the opening quote),
through the closing quote: `?`/`bool`, `O`, `S<n>`, `V<n>`, the long
numeric spellings, or an order character followed by `U<n>`,
`M8<unit>`, `m8<unit>`, or `<kind><n>`.  A rendered native order
character maps back to the stored `'='`. -/
def parseScalarTail (plat : Endianness) (l : List Char) : Option (Dtype × List Char) :=
  match l with
  | '?' :: '\x27' :: r => some (.scalar .boolK '|' 1 "" "", r)
  | 'b' :: 'o' :: 'o' :: 'l' :: '\x27' :: r => some (.scalar .boolK '|' 1 "" "", r)
  | 'O' :: '\x27' :: r => some (.scalar .objectK '|' PTR_SIZE "" "", r)
  | 'S' :: r =>
    let p := optDigits r
    match p.2 with
    | '\x27' :: r2 => some (.scalar .bytesK '|' p.1 "" "", r2)
    | _ => none
  | 'V' :: r =>
    let p := optDigits r
    match p.2 with
    | '\x27' :: r2 => some (.scalar .voidK '|' p.1 "" "", r2)
    | _ => none
  | 'u' :: 'i' :: 'n' :: 't' :: r =>
    (parseDec r).bind fun p =>
    match p.2 with
    | '\x27' :: r2 => some (.scalar (.numK 'u') '=' (p.1 / 8) "" "", r2)
    | _ => none
  | 'i' :: 'n' :: 't' :: r =>
    (parseDec r).bind fun p =>
    match p.2 with
    | '\x27' :: r2 => some (.scalar (.numK 'i') '=' (p.1 / 8) "" "", r2)
    | _ => none
  | 'f' :: 'l' :: 'o' :: 'a' :: 't' :: r =>
    (parseDec r).bind fun p =>
    match p.2 with
    | '\x27' :: r2 => some (.scalar (.numK 'f') '=' (p.1 / 8) "" "", r2)
    | _ => none
  | 'c' :: 'o' :: 'm' :: 'p' :: 'l' :: 'e' :: 'x' :: r =>
    (parseDec r).bind fun p =>
    match p.2 with
    | '\x27' :: r2 => some (.scalar (.numK 'c') '=' (p.1 / 8) "" "", r2)
    | _ => none
  | c :: r =>
    if c = '<' || c = '>' then
      let b := if c = plat.char then '=' else c
      match r with
      | 'U' :: r2 =>
        let p := optDigits r2
        (match p.2 with
          | '\x27' :: r3 => some ((.scalar .unicodeK b (4 * p.1) "" "" : Dtype), r3)
          | _ => none)
      | 'M' :: '8' :: r2 =>
        (readToQuote r2).map fun p => ((.scalar .datetimeK b 8 ⟨p.1⟩ "" : Dtype), p.2)
      | 'm' :: '8' :: r2 =>
        (readToQuote r2).map fun p => ((.scalar .timedeltaK b 8 ⟨p.1⟩ "" : Dtype), p.2)
      | k :: r2 =>
        (parseDec r2).bind fun p =>
        (match p.2 with
          | '\x27' :: r3 => some ((.scalar (.numK k) b p.1 "" "" : Dtype), r3)
          | _ => none)
      | [] => none
    else none
  | [] => none

mutual
/-- Parse one rendered constructor-argument value: a quoted scalar, a
list form, a dict form, or a parenthesized pair (type-identity wrap or
subarray). -/
def parseValue (plat : Endianness) : Nat → List Char → Option (Dtype × List Char)
  | 0, _ => none
  | fuel + 1, l =>
    match l with
    | '\x27' :: r => parseScalarTail plat r
    | '[' :: r =>
      (parseListItems plat fuel 0 r).bind fun p =>
      (match p.2 with
        | ']' :: r3 => some ((.struct p.1.1 p.1.2 false true "" "" : Dtype), r3)
        | _ => none)
    | '\x7b' :: r => parseDictTail plat fuel r
    | '(' :: c :: r =>
      if c.isAlpha then
        (skipIdent (c :: r)).bind fun r1 =>
        (expectChars (", ").data r1).bind fun r2 =>
        (parseValue plat fuel r2).bind fun pv =>
        (match pv.2 with
          | ')' :: r4 => some (pv.1, r4)
          | _ => none)
      else
        (parseValue plat fuel (c :: r)).bind fun pb =>
        (expectChars (", ").data pb.2).bind fun r3 =>
        (parseShapeTuple fuel r3).bind fun ps =>
        (match ps.2 with
          | ')' :: r5 =>
            some ((.subarray pb.1 ps.1 (pb.1.itemsize * ps.1.prod) : Dtype), r5)
          | _ => none)
    | _ => none
termination_by structural fuel _ => fuel

/-- Parse the comma-separated (no space) `'formats'` values, stopping
before `]`. -/
def parseValueList (plat : Endianness) : Nat → List Char → Option (List Dtype × List Char)
  | _, ']' :: r => some ([], ']' :: r)
  | 0, _ => none
  | fuel + 1, l =>
    (parseValue plat fuel l).bind fun pv =>
    match pv.2 with
    | ',' :: r2 => (parseValueList plat fuel r2).map fun q => (pv.1 :: q.1, q.2)
    | _ => some ([pv.1], pv.2)
termination_by structural fuel _ => fuel

/-- Parse the `", "`-separated list-form items, accumulating packed
offsets and the running total, stopping before `]`. -/
def parseListItems (plat : Endianness) :
    Nat → Nat → List Char → Option ((Fields × Nat) × List Char)
  | _, ofs, ']' :: r => some ((.nil, ofs), ']' :: r)
  | 0, _, _ => none
  | fuel + 1, ofs, '(' :: r =>
    (parseNamePart r).bind fun ptn =>
    (expectChars (", ").data ptn.2).bind fun r2 =>
    (parseValue plat fuel r2).bind fun pv =>
    (match pv.2 with
      | ')' :: r4 => some ((pv.1, r4) : Dtype × List Char)
      | ',' :: ' ' :: r4 =>
        (parseShapeTuple fuel r4).bind fun ps =>
        (match ps.2 with
          | ')' :: r6 =>
            some ((.subarray pv.1 ps.1 (pv.1.itemsize * ps.1.prod) : Dtype), r6)
          | _ => none)
      | _ => none).bind fun pf =>
    (match pf.2 with
      | ',' :: ' ' :: r8 =>
        (parseListItems plat fuel (ofs + pf.1.itemsize) r8).map
          fun (q : (Fields × Nat) × List Char) =>
            ((Fields.cons ptn.1.2 pf.1 ofs ptn.1.1 q.1.1, q.1.2), q.2)
      | _ =>
        some ((Fields.cons ptn.1.2 pf.1 ofs ptn.1.1 .nil, ofs + pf.1.itemsize), pf.2))
  | _, _, _ => none
termination_by structural fuel _ _ => fuel

/-- Parse the dict-form tail after the opening brace. -/
def parseDictTail (plat : Endianness) : Nat → List Char → Option (Dtype × List Char)
  | 0, _ => none
  | fuel + 1, l =>
    (expectChars ("\x27names\x27:[").data l).bind fun r1 =>
    (parseNameList (fuel + 1) r1).bind fun pn =>
    (expectChars ("], \x27formats\x27:[").data pn.2).bind fun r3 =>
    (parseValueList plat fuel r3).bind fun pf =>
    (expectChars ("], \x27offsets\x27:[").data pf.2).bind fun r5 =>
    (parseDecList (fuel + 1) r5).bind fun po =>
    (match expectChars ("], \x27titles\x27:[").data po.2 with
      | some r7 =>
        (parseOptNameList (fuel + 1) r7).bind fun pt =>
        (expectChars ("], \x27itemsize\x27:").data pt.2).map fun r9 => (pt.1, r9)
      | none =>
        (expectChars ("], \x27itemsize\x27:").data po.2).map fun r7 =>
        (pn.1.map (fun _ => (none : Option String)), r7)).bind fun ptt =>
    (parseDec ptt.2).bind fun pisz =>
    (match pisz.2 with
      | '\x7d' :: rC => some ((false, rC) : Bool × List Char)
      | rB => (expectChars (", \x27aligned\x27:True\x7d").data rB).map fun rC => (true, rC)).bind
      fun pal =>
    some ((.struct (zipFields pn.1 pf.1 po.1 ptt.1) pisz.1 pal.1 true "" "" : Dtype), pal.2)
termination_by structural fuel _ => fuel
end

/-- Parse a full `dtype(…)` repr string, applying a trailing
`, align=True` to the parsed struct. -/
def parseTop (plat : Endianness) (fuel : Nat) (l : List Char) : Option Dtype :=
  (expectChars ("dtype(").data l).bind fun r =>
  (parseValue plat fuel r).bind fun pv =>
  match pv.2 with
  | [')'] => some pv.1
  | _ =>
    (expectChars (", align=True)").data pv.2).bind fun r3 =>
    (match r3 with
      | [] => some (setAligned pv.1)
      | _ => none)

/-- Modelled from the spec: the external dtype constructor (out of
scope of the source file), as a parser of the documented output grammar
(spec §6) applied to the canonical repr string, reconstructing kind,
byte order, itemsize, field layout and the top-level alignment flag. -/
def construct (plat : Endianness) (s : String) : Dtype :=
  (parseTop plat (2 * s.data.length + 2) s.data).getD (.scalar .voidK '|' 0 "" "")

/-- `expectChars` consumes exactly the expected prefix. -/
theorem expectChars_append (cs rest : List Char) :
    expectChars cs (cs ++ rest) = some rest := by
  induction cs with
  | nil => rfl
  | cons c cs ih => simp [expectChars, ih]

/-- Digit characters of `decReprChars`. -/
theorem decDigit_isDigit (n : Nat) : (decDigit n).isDigit = true := by
  unfold decDigit
  split <;> decide

/-- Digit value of `decDigit`. -/
theorem decDigit_toNat (n : Nat) (h : n < 10) : (decDigit n).toNat - 48 = n := by
  match n, h with
  | 0, _ | 1, _ | 2, _ | 3, _ | 4, _ | 5, _ | 6, _ | 7, _ | 8, _ | 9, _ => decide

/-- All characters of `decReprChars` are digits. -/
theorem decReprChars_digits (fuel n : Nat) :
    ∀ c ∈ decReprChars fuel n, c.isDigit = true := by
  induction fuel generalizing n with
  | zero =>
    intro c hc
    simp [decReprChars] at hc
    simp [hc, decDigit_isDigit]
  | succ fuel ih =>
    intro c hc
    simp only [decReprChars] at hc
    split at hc
    · simp at hc
      simp [hc, decDigit_isDigit]
    · simp at hc
      rcases hc with hc | hc
      · exact ih (n / 10) c hc
      · simp [hc, decDigit_isDigit]

/-- `digitsVal` over an appended final digit. -/
theorem digitsVal_append (ds : List Char) (c : Char) :
    digitsVal (ds ++ [c]) = 10 * digitsVal ds + (c.toNat - 48) := by
  simp [digitsVal, List.foldl_append]

/-- `decReprChars` renders the decimal value back. -/
theorem digitsVal_decReprChars (fuel n : Nat) (h : n ≤ fuel) :
    digitsVal (decReprChars fuel n) = n := by
  induction fuel generalizing n with
  | zero =>
    have : n = 0 := by omega
    subst this
    decide
  | succ fuel ih =>
    simp only [decReprChars]
    split
    · next hlt =>
      simp [digitsVal, decDigit_toNat n hlt]
    · next hge =>
      have h10 : 10 ≤ n := by omega
      rw [digitsVal_append, ih (n / 10) (by omega), decDigit_toNat (n % 10) (by omega)]
      omega

/-- `decReprChars` is nonempty. -/
theorem decReprChars_ne_nil (fuel n : Nat) : decReprChars fuel n ≠ [] := by
  cases fuel with
  | zero => simp [decReprChars]
  | succ fuel =>
    simp only [decReprChars]
    split
    · simp
    · simp

/-- `spanDigits` splits an all-digit prefix at a non-digit boundary. -/
theorem spanDigits_append (ds rest : List Char) (hds : ∀ c ∈ ds, c.isDigit = true)
    (hrest : ∀ c, rest.head? = some c → c.isDigit = false) :
    spanDigits (ds ++ rest) = (ds, rest) := by
  induction ds with
  | nil =>
    cases rest with
    | nil => rfl
    | cons c cs =>
      have := hrest c rfl
      simp [spanDigits, this]
  | cons c cs ih =>
    have hc := hds c (by simp)
    have ih2 := ih (fun x hx => hds x (by simp [hx]))
    simp only [List.cons_append, spanDigits, hc, if_true]
    simp only [List.append_eq]
    rw [ih2]

/-- `parseDec` over a rendered decimal followed by a non-digit. -/
theorem parseDec_decRepr (n : Nat) (rest : List Char)
    (hrest : ∀ c, rest.head? = some c → c.isDigit = false) :
    parseDec ((decRepr n).data ++ rest) = some (n, rest) := by
  show parseDec (decReprChars n n ++ rest) = _
  unfold parseDec
  rw [spanDigits_append _ _ (decReprChars_digits n n) hrest]
  simp [decReprChars_ne_nil, digitsVal_decReprChars n n (Nat.le_refl n)]

/-- `optDigits` over a rendered decimal followed by a non-digit. -/
theorem optDigits_decRepr (n : Nat) (rest : List Char)
    (hrest : ∀ c, rest.head? = some c → c.isDigit = false) :
    optDigits ((decRepr n).data ++ rest) = (n, rest) := by
  show optDigits (decReprChars n n ++ rest) = _
  unfold optDigits
  rw [spanDigits_append _ _ (decReprChars_digits n n) hrest]
  simp [digitsVal_decReprChars n n (Nat.le_refl n)]

/-- `optDigits` at a non-digit boundary yields 0. -/
theorem optDigits_none (rest : List Char)
    (hrest : ∀ c, rest.head? = some c → c.isDigit = false) :
    optDigits rest = (0, rest) := by
  have := spanDigits_append [] rest (by simp) hrest
  simp at this
  simp [optDigits, this, digitsVal]

/-- Unescaping inverts escaping (through the closing quote). -/
theorem parsePyStrTail_escList (cs rest : List Char) :
    parsePyStrTail (escList cs ++ '\x27' :: rest) = some (cs, rest) := by
  induction cs with
  | nil => rfl
  | cons c cs ih =>
    show parsePyStrTail ((escChar c ++ escList cs) ++ '\x27' :: rest) = _
    by_cases h1 : c = '\\'
    · subst h1
      simp [escChar, parsePyStrTail, ih]
    · by_cases h2 : c = '\x27'
      · subst h2
        simp [escChar, parsePyStrTail, ih]
      · simp only [escChar, if_neg h1, if_neg h2]
        simp only [List.cons_append, List.nil_append]
        rw [show parsePyStrTail (c :: (escList cs ++ '\x27' :: rest)) =
          (parsePyStrTail (escList cs ++ '\x27' :: rest)).map
            (fun p => (c :: p.1, p.2)) from ?_]
        · simp [ih]
        · conv_lhs => rw [parsePyStrTail.eq_def]
          split
          · next heq => simp at heq
          · next heq =>
            injection heq with hc hr
            exact absurd hc h2
          · next c2 r2 heq =>
            injection heq with hc hr
            exact absurd hc h1
          · next heq =>
            injection heq with hc hr
            exact absurd hc h1
          · rename_i heq
            injection heq with hc hr
            subst hc
            subst hr
            rfl

/-- `parseName` inverts `pyStrRepr`. -/
theorem parseName_pyStrRepr (s : String) (rest : List Char) :
    parseName ((pyStrRepr s).data ++ rest) = some (s, rest) := by
  show parseName ('\x27' :: (escList s.data ++ ['\x27']) ++ rest) = _
  simp only [parseName, List.cons_append, List.append_assoc, List.singleton_append]
  rw [parsePyStrTail_escList]
  rfl

/-- `parseOptName` inverts `pyOptStrRepr`. -/
theorem parseOptName_pyOptStrRepr (t : Option String) (rest : List Char) :
    parseOptName ((pyOptStrRepr t).data ++ rest) = some (t, rest) := by
  cases t with
  | none => rfl
  | some s =>
    have hq : ∀ r : List Char, parseOptName ('\x27' :: r) =
        (parseName ('\x27' :: r)).map (fun p => (some p.1, p.2)) := fun r => rfl
    show parseOptName ('\x27' :: (escList s.data ++ ['\x27']) ++ rest) = _
    simp only [List.cons_append, List.append_assoc, List.singleton_append, List.nil_append]
    rw [hq]
    rw [show ('\x27' :: (escList s.data ++ '\x27' :: rest)) =
      (pyStrRepr s).data ++ rest from by simp [pyStrRepr]]
    rw [parseName_pyStrRepr]
    rfl

/-- `readToQuote` reads exactly the quote-free prefix. -/
theorem readToQuote_append (m rest : List Char) (hm : ∀ c ∈ m, c ≠ '\x27') :
    readToQuote (m ++ '\x27' :: rest) = some (m, rest) := by
  induction m with
  | nil => rfl
  | cons c cs ih =>
    have hc := hm c (by simp)
    simp only [List.cons_append]
    rw [show readToQuote (c :: (cs ++ '\x27' :: rest)) =
      (readToQuote (cs ++ '\x27' :: rest)).map (fun p => (c :: p.1, p.2)) from ?_]
    · rw [ih (fun x hx => hm x (by simp [hx]))]
      rfl
    · conv_lhs => rw [readToQuote.eq_def]
      split
      · next heq => simp at heq
      · next heq =>
        injection heq with hc2 hr
        exact absurd hc2 hc
      · next heq =>
        injection heq with hc2 hr
        subst hc2
        subst hr
        rfl

/-- `spanIdent` splits an all-identifier prefix at a non-identifier
boundary. -/
theorem spanIdent_append (m rest : List Char) (hm : ∀ c ∈ m, identChar c = true)
    (hrest : ∀ c, rest.head? = some c → identChar c = false) :
    spanIdent (m ++ rest) = (m, rest) := by
  induction m with
  | nil =>
    cases rest with
    | nil => rfl
    | cons c cs =>
      have := hrest c rfl
      simp [spanIdent, this]
  | cons c cs ih =>
    have hc := hm c (by simp)
    have ih2 := ih (fun x hx => hm x (by simp [hx]))
    simp only [List.cons_append, spanIdent, hc, if_true]
    simp only [List.append_eq]
    rw [ih2]

/-- `skipIdent` skips exactly an identifier run ending at a
non-identifier boundary. -/
theorem skipIdent_append (m rest : List Char) (hm : ∀ c ∈ m, identChar c = true)
    (hne : m ≠ [])
    (hrest : ∀ c, rest.head? = some c → identChar c = false) :
    skipIdent (m ++ rest) = some rest := by
  rw [skipIdent, spanIdent_append m rest hm hrest]
  simp [hne]

/-- Quoted strings are at least two characters. -/
theorem pyStrRepr_len (s : String) : 2 ≤ (pyStrRepr s).data.length := by
  show 2 ≤ ('\x27' :: (escList s.data ++ ['\x27'])).length
  simp

/-- `joinSep` over two or more items. -/
theorem joinSep_cons2 (sep x y : String) (xs : List String) :
    joinSep sep (x :: y :: xs) = x ++ sep ++ joinSep sep (y :: xs) := rfl

/-- Variant of `parseName_pyStrRepr` in cons-normalized form. -/
theorem parseName_pyStrRepr2 (s : String) (rest : List Char) :
    parseName ('\x27' :: (escList s.data ++ '\x27' :: rest)) = some (s, rest) := by
  have h := parseName_pyStrRepr s rest
  rw [show (pyStrRepr s).data ++ rest =
    '\x27' :: (escList s.data ++ '\x27' :: rest) from by simp [pyStrRepr]] at h
  exact h

/-- `parseNameList` inverts the comma-joined rendering of quoted
names, up to the `]` terminator, given enough fuel. -/
theorem parseNameList_adeq (names : List String) (fuel : Nat) (rest : List Char)
    (hfuel : ((joinSep "," (names.map pyStrRepr)).data ++ ']' :: rest).length ≤ fuel) :
    parseNameList fuel ((joinSep "," (names.map pyStrRepr)).data ++ ']' :: rest) =
      some (names, ']' :: rest) := by
  induction names generalizing fuel with
  | nil =>
    show parseNameList fuel (("" : String).data ++ ']' :: rest) = _
    cases fuel <;> rfl
  | cons x xs ih =>
    cases xs with
    | nil =>
      have hlen := pyStrRepr_len x
      simp only [List.map_cons, List.map_nil, joinSep] at hfuel ⊢
      cases fuel with
      | zero =>
        exfalso
        simp [List.length_append] at hfuel
      | succ f =>
        rw [show (pyStrRepr x).data ++ ']' :: rest =
          '\x27' :: (escList x.data ++ '\x27' :: (']' :: rest)) from by simp [pyStrRepr]]
        simp only [parseNameList]
        rw [parseName_pyStrRepr2 x (']' :: rest)]
        rfl
    | cons y ys =>
      have hlen := pyStrRepr_len x
      simp only [List.map_cons] at hfuel ⊢
      rw [joinSep_cons2] at hfuel ⊢
      cases fuel with
      | zero =>
        exfalso
        simp [str_data_append, List.length_append] at hfuel
      | succ f =>
        rw [show ((pyStrRepr x ++ "," ++
            joinSep "," (pyStrRepr y :: ys.map pyStrRepr)).data ++ ']' :: rest) =
          '\x27' :: (escList x.data ++ '\x27' ::
            (',' :: ((joinSep "," (pyStrRepr y :: ys.map pyStrRepr)).data ++ ']' :: rest)))
          from by simp [pyStrRepr, str_data_append]]
        simp only [parseNameList]
        rw [parseName_pyStrRepr2 x
          (',' :: ((joinSep "," (pyStrRepr y :: ys.map pyStrRepr)).data ++ ']' :: rest))]
        simp only [Option.some_bind]
        have ihy := ih f ?_
        · simp only [List.map_cons] at ihy
          rw [ihy]
          rfl
        · simp only [List.map_cons]
          have hcomma : (("," : String)).data.length = 1 := rfl
          have hx : (pyStrRepr x ++ "," ++
              joinSep "," (pyStrRepr y :: ys.map pyStrRepr)).data.length =
            (pyStrRepr x).data.length + 1 +
              (joinSep "," (pyStrRepr y :: ys.map pyStrRepr)).data.length := by
            simp only [str_data_append, List.length_append, hcomma]
          simp only [List.length_append, List.length_cons] at hfuel ⊢
          omega

/-- Rendered decimals are nonempty. -/
theorem decRepr_len (n : Nat) : 1 ≤ (decRepr n).data.length := by
  show 1 ≤ (decReprChars n n).length
  cases h : decReprChars n n with
  | nil => exact absurd h (decReprChars_ne_nil n n)
  | cons c cs => simp

/-- The head of a rendered decimal is a digit. -/
theorem decRepr_head_digit (n : Nat) (c : Char)
    (h : (decRepr n).data.head? = some c) : c.isDigit = true := by
  have hd := decReprChars_digits n n
  cases hcc : decReprChars n n with
  | nil => exact absurd hcc (decReprChars_ne_nil n n)
  | cons x xs =>
    have : (decRepr n).data = x :: xs := hcc
    rw [this] at h
    simp at h
    exact h ▸ hd x (by rw [hcc]; simp)

/-- `parseDecList` inverts the comma-joined rendering of decimals, up
to the `]` terminator, given enough fuel. -/
theorem parseDecList_adeq (offs : List Nat) (fuel : Nat) (rest : List Char)
    (hfuel : ((joinSep "," (offs.map decRepr)).data ++ ']' :: rest).length ≤ fuel) :
    parseDecList fuel ((joinSep "," (offs.map decRepr)).data ++ ']' :: rest) =
      some (offs, ']' :: rest) := by
  induction offs generalizing fuel with
  | nil =>
    show parseDecList fuel (("" : String).data ++ ']' :: rest) = _
    rw [parseDecList.eq_def]
    simp
  | cons x xs ih =>
    have hlen := decRepr_len x
    cases xs with
    | nil =>
      simp only [List.map_cons, List.map_nil, joinSep] at hfuel ⊢
      have hhead : ((decRepr x).data ++ ']' :: rest).head? ≠ some ']' := by
        intro hcon
        cases hd : (decRepr x).data with
        | nil => exact absurd hd (decReprChars_ne_nil x x)
        | cons c cs =>
          rw [hd] at hcon
          simp at hcon
          have := decRepr_head_digit x c (by rw [hd]; simp)
          rw [hcon] at this
          exact absurd this (by decide)
      cases fuel with
      | zero =>
        exfalso
        simp [List.length_append] at hfuel
      | succ f =>
        rw [parseDecList.eq_def, if_neg hhead]
        rw [parseDec_decRepr x (']' :: rest) (by intro c hc; simp at hc; rw [← hc]; decide)]
        rfl
    | cons y ys =>
      simp only [List.map_cons] at hfuel ⊢
      rw [joinSep_cons2] at hfuel ⊢
      have hhead : ((decRepr x ++ "," ++
          joinSep "," (decRepr y :: ys.map decRepr)).data ++ ']' :: rest).head? ≠
          some ']' := by
        intro hcon
        cases hd : (decRepr x).data with
        | nil => exact absurd hd (decReprChars_ne_nil x x)
        | cons c cs =>
          rw [show (decRepr x ++ "," ++
            joinSep "," (decRepr y :: ys.map decRepr)).data =
            (decRepr x).data ++ ("," ++
              joinSep "," (decRepr y :: ys.map decRepr)).data from by
                simp [str_data_append]] at hcon
          rw [hd] at hcon
          simp at hcon
          have := decRepr_head_digit x c (by rw [hd]; simp)
          rw [hcon] at this
          exact absurd this (by decide)
      cases fuel with
      | zero =>
        exfalso
        simp [str_data_append, List.length_append] at hfuel
      | succ f =>
        rw [parseDecList.eq_def, if_neg hhead]
        rw [show (decRepr x ++ "," ++
            joinSep "," (decRepr y :: ys.map decRepr)).data ++ ']' :: rest =
          (decRepr x).data ++
            (',' :: ((joinSep "," (decRepr y :: ys.map decRepr)).data ++ ']' :: rest))
          from by simp [str_data_append]]
        rw [parseDec_decRepr x _ (by intro c hc; simp at hc; rw [← hc]; decide)]
        simp only [Option.some_bind]
        have ihy := ih f ?_
        · simp only [List.map_cons] at ihy
          rw [ihy]
          rfl
        · have hcomma : (("," : String)).data.length = 1 := rfl
          have hx : (decRepr x ++ "," ++
              joinSep "," (decRepr y :: ys.map decRepr)).data.length =
            (decRepr x).data.length + 1 +
              (joinSep "," (decRepr y :: ys.map decRepr)).data.length := by
            simp only [str_data_append, List.length_append, hcomma]
          simp only [List.map_cons, List.length_append, List.length_cons] at hfuel ⊢
          omega

/-- Rendered titles are nonempty. -/
theorem pyOptStrRepr_len (t : Option String) : 1 ≤ (pyOptStrRepr t).data.length := by
  cases t with
  | none => decide
  | some s => exact Nat.le_trans (by omega) (pyStrRepr_len s)

/-- `parseOptName` inverts `pyOptStrRepr` in appended form. -/
theorem parseOptName_append (t : Option String) (tail : List Char) :
    parseOptName ((pyOptStrRepr t).data ++ tail) = some (t, tail) :=
  parseOptName_pyOptStrRepr t tail

/-- `parseOptNameList` inverts the comma-joined rendering of titles,
up to the `]` terminator, given enough fuel. -/
theorem parseOptNameList_adeq (titles : List (Option String)) (fuel : Nat)
    (rest : List Char)
    (hfuel : ((joinSep "," (titles.map pyOptStrRepr)).data ++ ']' :: rest).length ≤ fuel) :
    parseOptNameList fuel
        ((joinSep "," (titles.map pyOptStrRepr)).data ++ ']' :: rest) =
      some (titles, ']' :: rest) := by
  induction titles generalizing fuel with
  | nil =>
    show parseOptNameList fuel (("" : String).data ++ ']' :: rest) = _
    cases fuel <;> rfl
  | cons x xs ih =>
    have hlen := pyOptStrRepr_len x
    have hstep : ∀ f tail, parseOptNameList (f + 1) ((pyOptStrRepr x).data ++ tail) =
        (parseOptName ((pyOptStrRepr x).data ++ tail)).bind fun p =>
          match p.2 with
          | ',' :: r2 => (parseOptNameList f r2).map fun q => (p.1 :: q.1, q.2)
          | _ => some ([p.1], p.2) := by
      intro f tail
      cases x with
      | none => rfl
      | some s =>
        have harg : (pyOptStrRepr (some s)).data ++ tail =
            '\x27' :: (escList s.data ++ '\x27' :: tail) := by
          simp [pyOptStrRepr, pyStrRepr]
        rw [harg]
        rfl
    cases xs with
    | nil =>
      simp only [List.map_cons, List.map_nil, joinSep] at hfuel ⊢
      cases fuel with
      | zero =>
        exfalso
        simp [List.length_append] at hfuel
      | succ f =>
        rw [show (pyOptStrRepr x).data ++ ']' :: rest =
          (pyOptStrRepr x).data ++ (']' :: rest) from rfl]
        rw [hstep f (']' :: rest), parseOptName_append]
        rfl
    | cons y ys =>
      simp only [List.map_cons] at hfuel ⊢
      rw [joinSep_cons2] at hfuel ⊢
      cases fuel with
      | zero =>
        exfalso
        simp [str_data_append, List.length_append] at hfuel
      | succ f =>
        rw [show (pyOptStrRepr x ++ "," ++
            joinSep "," (pyOptStrRepr y :: ys.map pyOptStrRepr)).data ++ ']' :: rest =
          (pyOptStrRepr x).data ++
            (',' :: ((joinSep "," (pyOptStrRepr y :: ys.map pyOptStrRepr)).data ++
              ']' :: rest)) from by simp [str_data_append]]
        rw [hstep f _, parseOptName_append]
        simp only [Option.some_bind]
        have ihy := ih f ?_
        · simp only [List.map_cons] at ihy
          rw [ihy]
          rfl
        · have hcomma : (("," : String)).data.length = 1 := rfl
          have hx : (pyOptStrRepr x ++ "," ++
              joinSep "," (pyOptStrRepr y :: ys.map pyOptStrRepr)).data.length =
            (pyOptStrRepr x).data.length + 1 +
              (joinSep "," (pyOptStrRepr y :: ys.map pyOptStrRepr)).data.length := by
            simp only [str_data_append, List.length_append, hcomma]
          simp only [List.map_cons, List.length_append, List.length_cons] at hfuel ⊢
          omega

/-- `parseShapeRest` inverts the `", "`-joined continuation of a tuple
of two or more elements. -/
theorem parseShapeRest_adeq (ms : List Nat) (m : Nat) (fuel : Nat) (rest : List Char)
    (hfuel : (',' :: ' ' ::
      ((joinSep ", " ((m :: ms).map decRepr)).data ++ ')' :: rest)).length ≤ fuel) :
    parseShapeRest fuel
        (',' :: ' ' :: ((joinSep ", " ((m :: ms).map decRepr)).data ++ ')' :: rest)) =
      some (m :: ms, rest) := by
  induction ms generalizing m fuel with
  | nil =>
    simp only [List.map_cons, List.map_nil, joinSep]
    cases fuel with
    | zero =>
      exfalso
      simp at hfuel
    | succ f =>
      show parseShapeRest (f + 1) (',' :: ' ' :: ((decRepr m).data ++ ')' :: rest)) = _
      rw [show parseShapeRest (f + 1) (',' :: ' ' :: ((decRepr m).data ++ ')' :: rest)) =
        (parseDec ((decRepr m).data ++ ')' :: rest)).bind fun p =>
          (parseShapeRest f p.2).map fun q => (p.1 :: q.1, q.2) from rfl]
      rw [parseDec_decRepr m (')' :: rest) (by intro c hc; simp at hc; rw [← hc]; decide)]
      cases f <;> rfl
  | cons m2 ms2 ih =>
    simp only [List.map_cons] at hfuel ⊢
    rw [joinSep_cons2] at hfuel ⊢
    cases fuel with
    | zero =>
      exfalso
      simp at hfuel
    | succ f =>
      rw [show (decRepr m ++ ", " ++
          joinSep ", " (decRepr m2 :: ms2.map decRepr)).data ++ ')' :: rest =
        (decRepr m).data ++
          (',' :: ' ' :: ((joinSep ", " (decRepr m2 :: ms2.map decRepr)).data ++
            ')' :: rest)) from by simp [str_data_append]]
      rw [show parseShapeRest (f + 1) (',' :: ' ' :: ((decRepr m).data ++
          (',' :: ' ' :: ((joinSep ", " (decRepr m2 :: ms2.map decRepr)).data ++
            ')' :: rest)))) =
        (parseDec ((decRepr m).data ++
          (',' :: ' ' :: ((joinSep ", " (decRepr m2 :: ms2.map decRepr)).data ++
            ')' :: rest)))).bind fun p =>
          (parseShapeRest f p.2).map fun q => (p.1 :: q.1, q.2) from rfl]
      rw [parseDec_decRepr m _ (by intro c hc; simp at hc; rw [← hc]; decide)]
      simp only [Option.some_bind]
      have ihy := ih m2 f ?_
      · simp only [List.map_cons] at ihy
        rw [ihy]
        rfl
      · have hc2 : ((", " : String)).data.length = 2 := rfl
        have hx : (decRepr m ++ ", " ++
            joinSep ", " (decRepr m2 :: ms2.map decRepr)).data.length =
          (decRepr m).data.length + 2 +
            (joinSep ", " (decRepr m2 :: ms2.map decRepr)).data.length := by
          simp only [str_data_append, List.length_append, hc2]
        have hlen := decRepr_len m
        simp only [List.map_cons, List.length_append, List.length_cons] at hfuel ⊢
        omega

/-- `parseShapeTuple` inverts `tupleRepr`, given enough fuel. -/
theorem parseShapeTuple_adeq (sh : List Nat) (fuel : Nat) (rest : List Char)
    (hfuel : ((tupleRepr sh).data ++ rest).length ≤ fuel) :
    parseShapeTuple fuel ((tupleRepr sh).data ++ rest) = some (sh, rest) := by
  match sh with
  | [] => rfl
  | [n] =>
    show parseShapeTuple fuel
      (("(" ++ decRepr n ++ ",)").data ++ rest) = _
    rw [show ("(" ++ decRepr n ++ ",)").data ++ rest =
      '(' :: ((decRepr n).data ++ ',' :: ')' :: rest) from by simp [str_data_append]]
    have hhead : ((decRepr n).data ++ ',' :: ')' :: rest).head? ≠ some ')' := by
      intro hcon
      cases hd : (decRepr n).data with
      | nil => exact absurd hd (decReprChars_ne_nil n n)
      | cons c cs =>
        rw [hd] at hcon
        simp at hcon
        have := decRepr_head_digit n c (by rw [hd]; simp)
        rw [hcon] at this
        exact absurd this (by decide)
    simp only [parseShapeTuple]
    rw [if_neg hhead]
    rw [parseDec_decRepr n (',' :: ')' :: rest)
      (by intro c hc; simp at hc; rw [← hc]; decide)]
    cases fuel <;> rfl
  | n :: m :: ms =>
    show parseShapeTuple fuel
      (("(" ++ joinSep ", " ((n :: m :: ms).map decRepr) ++ ")").data ++ rest) = _
    rw [show ("(" ++ joinSep ", " ((n :: m :: ms).map decRepr) ++ ")").data ++ rest =
      '(' :: ((joinSep ", " ((n :: m :: ms).map decRepr)).data ++ ')' :: rest)
      from by simp [str_data_append]]
    simp only [List.map_cons]
    rw [joinSep_cons2]
    rw [show (decRepr n ++ ", " ++
        joinSep ", " (decRepr m :: ms.map decRepr)).data ++ ')' :: rest =
      (decRepr n).data ++ (',' :: ' ' ::
        ((joinSep ", " (decRepr m :: ms.map decRepr)).data ++ ')' :: rest))
      from by simp [str_data_append]]
    have hhead : ((decRepr n).data ++ (',' :: ' ' ::
        ((joinSep ", " (decRepr m :: ms.map decRepr)).data ++ ')' :: rest))).head? ≠
        some ')' := by
      intro hcon
      cases hd : (decRepr n).data with
      | nil => exact absurd hd (decReprChars_ne_nil n n)
      | cons c cs =>
        rw [hd] at hcon
        simp at hcon
        have := decRepr_head_digit n c (by rw [hd]; simp)
        rw [hcon] at this
        exact absurd this (by decide)
    simp only [parseShapeTuple]
    rw [if_neg hhead]
    rw [parseDec_decRepr n _ (by intro c hc; simp at hc; rw [← hc]; decide)]
    simp only [Option.some_bind]
    have hrest := parseShapeRest_adeq ms m fuel rest ?_
    · simp only [List.map_cons] at hrest
      rw [hrest]
      rfl
    · have h1 : (("(" : String)).data.length = 1 := rfl
      have h2 : ((", " : String)).data.length = 2 := rfl
      have h3 : ((")" : String)).data.length = 1 := rfl
      rw [show tupleRepr (n :: m :: ms) =
        "(" ++ joinSep ", " ((n :: m :: ms).map decRepr) ++ ")" from rfl] at hfuel
      simp only [List.map_cons] at hfuel
      have hx : ("(" ++ joinSep ", " (decRepr n :: decRepr m :: ms.map decRepr) ++
          ")").data.length =
        1 + (joinSep ", " (decRepr n :: decRepr m :: ms.map decRepr)).data.length + 1 := by
        simp only [str_data_append, List.length_append, h1, h3]
      have hy : (joinSep ", " (decRepr n :: decRepr m :: ms.map decRepr)).data.length =
          (decRepr n).data.length + 2 +
            (joinSep ", " (decRepr m :: ms.map decRepr)).data.length := by
        rw [joinSep_cons2]
        simp only [str_data_append, List.length_append, h2]
      simp only [List.map_cons, List.length_append, List.length_cons] at hfuel ⊢
      omega



/-- `rfindIdx` is `none` iff the character does not occur. -/
theorem rfindIdx_eq_none_iff (l : List Char) (c : Char) :
    rfindIdx l c = none ↔ c ∉ l := by
  induction l with
  | nil => simp [rfindIdx]
  | cons x xs ih =>
    simp only [rfindIdx]
    cases h : rfindIdx xs c with
    | some i => simp [← ih, h]
    | none =>
      by_cases hx : x = c
      · simp [hx, ← ih, h]
      · simp [hx, ← ih, h]
        exact fun hc => hx hc.symm

/-- A successful `rfindIdx` splits the list at the LAST occurrence. -/
theorem rfindIdx_spec (l : List Char) (c : Char) (i : Nat)
    (h : rfindIdx l c = some i) :
    ∃ a b, l = a ++ c :: b ∧ a.length = i ∧ c ∉ b := by
  induction l generalizing i with
  | nil => simp [rfindIdx] at h
  | cons x xs ih =>
    simp only [rfindIdx] at h
    cases hx : rfindIdx xs c with
    | some j =>
      rw [hx] at h
      simp at h
      obtain ⟨a, b, hab, hlen, hnb⟩ := ih j hx
      exact ⟨x :: a, b, by simp [hab], by simp [hlen, ← h], hnb⟩
    | none =>
      rw [hx] at h
      by_cases hxc : x = c
      · simp [hxc] at h
        refine ⟨[], xs, by simp [hxc], by simp [← h], ?_⟩
        exact (rfindIdx_eq_none_iff xs c).mp hx
      · simp [hxc] at h

/-- When the character occurs, `pyTailSlice` starts at the last
occurrence and contains no further occurrence. -/
theorem pyTailSlice_of_contains (l : List Char) (h : l.contains '[' = true) :
    ∃ b, pyTailSlice l '[' = '[' :: b ∧ '[' ∉ b := by
  cases hf : rfindIdx l '[' with
  | none =>
    exfalso
    have := (rfindIdx_eq_none_iff l '[').mp hf
    simp at h
    exact this h
  | some i =>
    obtain ⟨a, b, hab, hlen, hnb⟩ := rfindIdx_spec l '[' i hf
    refine ⟨b, ?_, hnb⟩
    rw [pyTailSlice, hf, hab, ← hlen]
    exact List.drop_left a ('[' :: b)

/-- `pyTailSlice` is idempotent on lists containing the character. -/
theorem pyTailSlice_idem (l : List Char) (h : l.contains '[' = true) :
    pyTailSlice (pyTailSlice l '[') '[' = pyTailSlice l '[' := by
  obtain ⟨b, hb, hnb⟩ := pyTailSlice_of_contains l h
  rw [hb]
  have hfb : rfindIdx b '[' = none := (rfindIdx_eq_none_iff b '[').mpr hnb
  rw [pyTailSlice, rfindIdx, hfb]
  simp

/-- Heads following a quote are not digits. -/
theorem head_quote_not_digit (r : List Char) :
    ∀ c, (('\x27' : Char) :: r).head? = some c → c.isDigit = false := by
  intro c hc
  simp at hc
  rw [← hc]
  decide

/-- The numeric long-form table is inhabited exactly at {u,i,f,c}. -/
theorem kindstrs_isSome_iff (c : Char) :
    (kindstrs c).isSome = true ↔ (c = 'u' ∨ c = 'i' ∨ c = 'f' ∨ c = 'c') := by
  unfold kindstrs
  by_cases h1 : c = 'u' <;> by_cases h2 : c = 'i' <;> by_cases h3 : c = 'f' <;>
    by_cases h4 : c = 'c' <;> simp [h1, h2, h3, h4]

/-- Parsing an order-prefixed short numeric scalar tail. -/
theorem parseScalarTail_ordered_num (plat : Endianness) (C kd : Char) (isz : Nat)
    (rest : List Char) (hC4 : C = '<' ∨ C = '>')
    (hkd : kd = 'u' ∨ kd = 'i' ∨ kd = 'f' ∨ kd = 'c') :
    parseScalarTail plat (C :: kd :: ((decRepr isz).data ++ '\x27' :: rest)) =
      some ((.scalar (.numK kd) (if C = plat.char then '=' else C) isz "" "" : Dtype),
        rest) := by
  rcases hC4 with h | h <;> subst h <;> rcases hkd with h | h | h | h <;> subst h <;>
    (first
      | (rw [show parseScalarTail plat ('<' :: 'u' ::
            ((decRepr isz).data ++ '\x27' :: rest)) =
          ((parseDec ((decRepr isz).data ++ '\x27' :: rest)).bind fun p =>
            (match p.2 with
              | '\x27' :: r3 =>
                some ((.scalar (.numK 'u') (if '<' = plat.char then '=' else '<')
                  p.1 "" "" : Dtype), r3)
              | _ => none)) from rfl]
         rw [parseDec_decRepr isz ('\x27' :: rest) (head_quote_not_digit rest)]
         rfl)
      | (rw [show parseScalarTail plat ('<' :: 'i' ::
            ((decRepr isz).data ++ '\x27' :: rest)) =
          ((parseDec ((decRepr isz).data ++ '\x27' :: rest)).bind fun p =>
            (match p.2 with
              | '\x27' :: r3 =>
                some ((.scalar (.numK 'i') (if '<' = plat.char then '=' else '<')
                  p.1 "" "" : Dtype), r3)
              | _ => none)) from rfl]
         rw [parseDec_decRepr isz ('\x27' :: rest) (head_quote_not_digit rest)]
         rfl)
      | (rw [show parseScalarTail plat ('<' :: 'f' ::
            ((decRepr isz).data ++ '\x27' :: rest)) =
          ((parseDec ((decRepr isz).data ++ '\x27' :: rest)).bind fun p =>
            (match p.2 with
              | '\x27' :: r3 =>
                some ((.scalar (.numK 'f') (if '<' = plat.char then '=' else '<')
                  p.1 "" "" : Dtype), r3)
              | _ => none)) from rfl]
         rw [parseDec_decRepr isz ('\x27' :: rest) (head_quote_not_digit rest)]
         rfl)
      | (rw [show parseScalarTail plat ('<' :: 'c' ::
            ((decRepr isz).data ++ '\x27' :: rest)) =
          ((parseDec ((decRepr isz).data ++ '\x27' :: rest)).bind fun p =>
            (match p.2 with
              | '\x27' :: r3 =>
                some ((.scalar (.numK 'c') (if '<' = plat.char then '=' else '<')
                  p.1 "" "" : Dtype), r3)
              | _ => none)) from rfl]
         rw [parseDec_decRepr isz ('\x27' :: rest) (head_quote_not_digit rest)]
         rfl)
      | (rw [show parseScalarTail plat ('>' :: 'u' ::
            ((decRepr isz).data ++ '\x27' :: rest)) =
          ((parseDec ((decRepr isz).data ++ '\x27' :: rest)).bind fun p =>
            (match p.2 with
              | '\x27' :: r3 =>
                some ((.scalar (.numK 'u') (if '>' = plat.char then '=' else '>')
                  p.1 "" "" : Dtype), r3)
              | _ => none)) from rfl]
         rw [parseDec_decRepr isz ('\x27' :: rest) (head_quote_not_digit rest)]
         rfl)
      | (rw [show parseScalarTail plat ('>' :: 'i' ::
            ((decRepr isz).data ++ '\x27' :: rest)) =
          ((parseDec ((decRepr isz).data ++ '\x27' :: rest)).bind fun p =>
            (match p.2 with
              | '\x27' :: r3 =>
                some ((.scalar (.numK 'i') (if '>' = plat.char then '=' else '>')
                  p.1 "" "" : Dtype), r3)
              | _ => none)) from rfl]
         rw [parseDec_decRepr isz ('\x27' :: rest) (head_quote_not_digit rest)]
         rfl)
      | (rw [show parseScalarTail plat ('>' :: 'f' ::
            ((decRepr isz).data ++ '\x27' :: rest)) =
          ((parseDec ((decRepr isz).data ++ '\x27' :: rest)).bind fun p =>
            (match p.2 with
              | '\x27' :: r3 =>
                some ((.scalar (.numK 'f') (if '>' = plat.char then '=' else '>')
                  p.1 "" "" : Dtype), r3)
              | _ => none)) from rfl]
         rw [parseDec_decRepr isz ('\x27' :: rest) (head_quote_not_digit rest)]
         rfl)
      | (rw [show parseScalarTail plat ('>' :: 'c' ::
            ((decRepr isz).data ++ '\x27' :: rest)) =
          ((parseDec ((decRepr isz).data ++ '\x27' :: rest)).bind fun p =>
            (match p.2 with
              | '\x27' :: r3 =>
                some ((.scalar (.numK 'c') (if '>' = plat.char then '=' else '>')
                  p.1 "" "" : Dtype), r3)
              | _ => none)) from rfl]
         rw [parseDec_decRepr isz ('\x27' :: rest) (head_quote_not_digit rest)]
         rfl))

/-- Scalar round trip: a constructible scalar's construction repr (for
any flag combination) parses back, via `parseValue`, to an equivalent
descriptor. -/
theorem scalar_roundtrip (plat : Endianness) (k : SKind) (b : Char) (isz : Nat)
    (nm st : String) (ia short : Bool)
    (hC : Constructible plat (.scalar k b isz nm st) = true) :
    ∃ s : String, construction_repr plat (.scalar k b isz nm st) ia short = .ok s ∧
      1 ≤ s.data.length ∧
      ∃ d' : Dtype, equivCore d' (.scalar k b isz nm st) = true ∧
        d'.isalignedstruct = false ∧
        (∀ rest fuel, s.data.length + rest.length ≤ fuel →
          parseValue plat fuel (s.data ++ rest) = some (d', rest)) := by
  cases k with
  | boolK =>
    simp only [Constructible] at hC
    simp at hC
    obtain ⟨hb, hisz⟩ := hC
    subst hb
    subst hisz
    cases short with
    | true =>
      refine ⟨"\x27?\x27", by simp [construction_repr, byte_order_str_of], by decide,
        ⟨.scalar .boolK '|' 1 "" "", rfl, rfl, ?_⟩⟩
      intro rest fuel hf
      rw [show ("\x27?\x27" : String).data.length = 3 from rfl] at hf
      cases fuel with
      | zero => omega
      | succ f => rfl
    | false =>
      refine ⟨"\x27bool\x27", by simp [construction_repr, byte_order_str_of], by decide,
        ⟨.scalar .boolK '|' 1 "" "", rfl, rfl, ?_⟩⟩
      intro rest fuel hf
      rw [show ("\x27bool\x27" : String).data.length = 6 from rfl] at hf
      cases fuel with
      | zero => omega
      | succ f => rfl
  | objectK =>
    simp only [Constructible] at hC
    simp at hC
    obtain ⟨hb, hisz⟩ := hC
    subst hb
    subst hisz
    refine ⟨"\x27O\x27", by simp [construction_repr, byte_order_str_of], by decide,
      ⟨.scalar .objectK '|' PTR_SIZE "" "", rfl, rfl, ?_⟩⟩
    intro rest fuel hf
    rw [show ("\x27O\x27" : String).data.length = 3 from rfl] at hf
    cases fuel with
    | zero => omega
    | succ f => rfl
  | bytesK =>
    simp only [Constructible] at hC
    simp at hC
    subst hC
    by_cases h0 : isz = 0
    · subst h0
      refine ⟨"\x27S\x27", by simp [construction_repr], by decide,
        ⟨.scalar .bytesK '|' 0 "" "", rfl, rfl, ?_⟩⟩
      intro rest fuel hf
      rw [show ("\x27S\x27" : String).data.length = 3 from rfl] at hf
      cases fuel with
      | zero => omega
      | succ f =>
        show (match (optDigits ('\x27' :: rest)).2 with
          | '\x27' :: r2 =>
            some ((.scalar .bytesK '|' (optDigits ('\x27' :: rest)).1 "" "" : Dtype), r2)
          | _ => none) = _
        rw [optDigits_none ('\x27' :: rest) (head_quote_not_digit rest)]
        rfl
    · refine ⟨"\x27S" ++ decRepr isz ++ "\x27",
        by simp [construction_repr, h0], by simp [str_data_append],
        ⟨.scalar .bytesK '|' isz "" "", by simp [equivCore], rfl, ?_⟩⟩
      intro rest fuel hf
      have hd : ("\x27S" ++ decRepr isz ++ "\x27").data ++ rest =
          '\x27' :: 'S' :: ((decRepr isz).data ++ '\x27' :: rest) := by
        simp [str_data_append]
      have hl : ("\x27S" ++ decRepr isz ++ "\x27").data.length =
          (decRepr isz).data.length + 3 := by
        simp [str_data_append]
        try omega
      rw [hd]
      rw [hl] at hf
      cases fuel with
      | zero => omega
      | succ f =>
        show (match (optDigits ((decRepr isz).data ++ '\x27' :: rest)).2 with
          | '\x27' :: r2 =>
            some ((.scalar .bytesK '|'
              (optDigits ((decRepr isz).data ++ '\x27' :: rest)).1 "" "" : Dtype), r2)
          | _ => none) = _
        rw [optDigits_decRepr isz ('\x27' :: rest) (head_quote_not_digit rest)]
        rfl
  | voidK =>
    simp only [Constructible] at hC
    simp at hC
    subst hC
    by_cases h0 : isz = 0
    · subst h0
      refine ⟨"\x27V\x27", by simp [construction_repr], by decide,
        ⟨.scalar .voidK '|' 0 "" "", rfl, rfl, ?_⟩⟩
      intro rest fuel hf
      rw [show ("\x27V\x27" : String).data.length = 3 from rfl] at hf
      cases fuel with
      | zero => omega
      | succ f =>
        show (match (optDigits ('\x27' :: rest)).2 with
          | '\x27' :: r2 =>
            some ((.scalar .voidK '|' (optDigits ('\x27' :: rest)).1 "" "" : Dtype), r2)
          | _ => none) = _
        rw [optDigits_none ('\x27' :: rest) (head_quote_not_digit rest)]
        rfl
    · refine ⟨"\x27V" ++ decRepr isz ++ "\x27",
        by simp [construction_repr, h0], by simp [str_data_append],
        ⟨.scalar .voidK '|' isz "" "", by simp [equivCore], rfl, ?_⟩⟩
      intro rest fuel hf
      have hd : ("\x27V" ++ decRepr isz ++ "\x27").data ++ rest =
          '\x27' :: 'V' :: ((decRepr isz).data ++ '\x27' :: rest) := by
        simp [str_data_append]
      have hl : ("\x27V" ++ decRepr isz ++ "\x27").data.length =
          (decRepr isz).data.length + 3 := by
        simp [str_data_append]
        try omega
      rw [hd]
      rw [hl] at hf
      cases fuel with
      | zero => omega
      | succ f =>
        show (match (optDigits ((decRepr isz).data ++ '\x27' :: rest)).2 with
          | '\x27' :: r2 =>
            some ((.scalar .voidK '|'
              (optDigits ((decRepr isz).data ++ '\x27' :: rest)).1 "" "" : Dtype), r2)
          | _ => none) = _
        rw [optDigits_decRepr isz ('\x27' :: rest) (head_quote_not_digit rest)]
        rfl
  | unicodeK =>
    simp only [Constructible] at hC
    simp at hC
    obtain ⟨hb, hmod⟩ := hC
    have hdvd : (4 : Nat) ∣ isz := Nat.dvd_of_mod_eq_zero hmod
    cases plat <;> rcases hb with hb | hb
    · -- little, byteorder =
      subst hb
      by_cases h0 : isz = 0
      · subst h0
        refine ⟨"\x27" ++ byte_order_str_of .little '=' ++ "U\x27", rfl,
          by simp [byte_order_str_of, Endianness.char, str_data_append],
          ⟨.scalar .unicodeK '=' 0 "" "", by simp [equivCore], rfl, ?_⟩⟩
        intro rest fuel hf
        have hd : ("\x27" ++ byte_order_str_of .little '=' ++ "U\x27").data ++ rest =
            '\x27' :: '<' :: 'U' :: '\x27' :: rest := by
          simp [byte_order_str_of, Endianness.char, str_data_append]
        have hl : 1 ≤ ("\x27" ++ byte_order_str_of .little '=' ++
            "U\x27").data.length := by
          simp [byte_order_str_of, Endianness.char, str_data_append]
        rw [hd]
        cases fuel with
        | zero => omega
        | succ f => rfl
      · refine ⟨"\x27" ++ byte_order_str_of .little '=' ++ "U" ++
            decRepr (isz / 4) ++ "\x27",
          by simp [construction_repr, h0],
          by simp [byte_order_str_of, Endianness.char, str_data_append],
          ⟨.scalar .unicodeK '=' isz "" "", by simp [equivCore], rfl, ?_⟩⟩
        intro rest fuel hf
        have hd : ("\x27" ++ byte_order_str_of .little '=' ++ "U" ++
            decRepr (isz / 4) ++ "\x27").data ++ rest =
            '\x27' :: '<' :: 'U' :: ((decRepr (isz / 4)).data ++ '\x27' :: rest) := by
          simp [byte_order_str_of, Endianness.char, str_data_append]
        have hl : 1 ≤ ("\x27" ++ byte_order_str_of .little '=' ++ "U" ++
            decRepr (isz / 4) ++ "\x27").data.length := by
          simp [byte_order_str_of, Endianness.char, str_data_append]
        rw [hd]
        cases fuel with
        | zero => omega
        | succ f =>
          rw [show parseValue .little (f + 1)
              ('\x27' :: '<' :: 'U' :: ((decRepr (isz / 4)).data ++ '\x27' :: rest)) =
            (match (optDigits ((decRepr (isz / 4)).data ++ '\x27' :: rest)).2 with
              | '\x27' :: r3 =>
                some ((.scalar .unicodeK '='
                  (4 * (optDigits ((decRepr (isz / 4)).data ++ '\x27' :: rest)).1)
                  "" "" : Dtype), r3)
              | _ => none) from rfl]
          rw [optDigits_decRepr (isz / 4) ('\x27' :: rest) (head_quote_not_digit rest)]
          show some ((.scalar .unicodeK '=' (4 * (isz / 4)) "" "" : Dtype), rest) = _
          rw [Nat.mul_div_cancel' hdvd]
    · -- little, byteorder >
      rw [show (Endianness.little : Endianness).swap.char = '>' from rfl] at hb
      subst hb
      by_cases h0 : isz = 0
      · subst h0
        refine ⟨"\x27" ++ byte_order_str_of .little '>' ++ "U\x27", rfl,
          by simp [byte_order_str_of, Endianness.char, str_data_append],
          ⟨.scalar .unicodeK '>' 0 "" "", by simp [equivCore], rfl, ?_⟩⟩
        intro rest fuel hf
        have hd : ("\x27" ++ byte_order_str_of .little '>' ++ "U\x27").data ++ rest =
            '\x27' :: '>' :: 'U' :: '\x27' :: rest := by
          simp [byte_order_str_of, Endianness.char, str_data_append]
        have hl : 1 ≤ ("\x27" ++ byte_order_str_of .little '>' ++
            "U\x27").data.length := by
          simp [byte_order_str_of, Endianness.char, str_data_append]
        rw [hd]
        cases fuel with
        | zero => omega
        | succ f => rfl
      · refine ⟨"\x27" ++ byte_order_str_of .little '>' ++ "U" ++
            decRepr (isz / 4) ++ "\x27",
          by simp [construction_repr, h0],
          by simp [byte_order_str_of, Endianness.char, str_data_append],
          ⟨.scalar .unicodeK '>' isz "" "", by simp [equivCore], rfl, ?_⟩⟩
        intro rest fuel hf
        have hd : ("\x27" ++ byte_order_str_of .little '>' ++ "U" ++
            decRepr (isz / 4) ++ "\x27").data ++ rest =
            '\x27' :: '>' :: 'U' :: ((decRepr (isz / 4)).data ++ '\x27' :: rest) := by
          simp [byte_order_str_of, Endianness.char, str_data_append]
        have hl : 1 ≤ ("\x27" ++ byte_order_str_of .little '>' ++ "U" ++
            decRepr (isz / 4) ++ "\x27").data.length := by
          simp [byte_order_str_of, Endianness.char, str_data_append]
        rw [hd]
        cases fuel with
        | zero => omega
        | succ f =>
          rw [show parseValue .little (f + 1)
              ('\x27' :: '>' :: 'U' :: ((decRepr (isz / 4)).data ++ '\x27' :: rest)) =
            (match (optDigits ((decRepr (isz / 4)).data ++ '\x27' :: rest)).2 with
              | '\x27' :: r3 =>
                some ((.scalar .unicodeK '>'
                  (4 * (optDigits ((decRepr (isz / 4)).data ++ '\x27' :: rest)).1)
                  "" "" : Dtype), r3)
              | _ => none) from rfl]
          rw [optDigits_decRepr (isz / 4) ('\x27' :: rest) (head_quote_not_digit rest)]
          show some ((.scalar .unicodeK '>' (4 * (isz / 4)) "" "" : Dtype), rest) = _
          rw [Nat.mul_div_cancel' hdvd]
    · -- big, byteorder =
      subst hb
      by_cases h0 : isz = 0
      · subst h0
        refine ⟨"\x27" ++ byte_order_str_of .big '=' ++ "U\x27", rfl,
          by simp [byte_order_str_of, Endianness.char, str_data_append],
          ⟨.scalar .unicodeK '=' 0 "" "", by simp [equivCore], rfl, ?_⟩⟩
        intro rest fuel hf
        have hd : ("\x27" ++ byte_order_str_of .big '=' ++ "U\x27").data ++ rest =
            '\x27' :: '>' :: 'U' :: '\x27' :: rest := by
          simp [byte_order_str_of, Endianness.char, str_data_append]
        have hl : 1 ≤ ("\x27" ++ byte_order_str_of .big '=' ++
            "U\x27").data.length := by
          simp [byte_order_str_of, Endianness.char, str_data_append]
        rw [hd]
        cases fuel with
        | zero => omega
        | succ f => rfl
      · refine ⟨"\x27" ++ byte_order_str_of .big '=' ++ "U" ++
            decRepr (isz / 4) ++ "\x27",
          by simp [construction_repr, h0],
          by simp [byte_order_str_of, Endianness.char, str_data_append],
          ⟨.scalar .unicodeK '=' isz "" "", by simp [equivCore], rfl, ?_⟩⟩
        intro rest fuel hf
        have hd : ("\x27" ++ byte_order_str_of .big '=' ++ "U" ++
            decRepr (isz / 4) ++ "\x27").data ++ rest =
            '\x27' :: '>' :: 'U' :: ((decRepr (isz / 4)).data ++ '\x27' :: rest) := by
          simp [byte_order_str_of, Endianness.char, str_data_append]
        have hl : 1 ≤ ("\x27" ++ byte_order_str_of .big '=' ++ "U" ++
            decRepr (isz / 4) ++ "\x27").data.length := by
          simp [byte_order_str_of, Endianness.char, str_data_append]
        rw [hd]
        cases fuel with
        | zero => omega
        | succ f =>
          rw [show parseValue .big (f + 1)
              ('\x27' :: '>' :: 'U' :: ((decRepr (isz / 4)).data ++ '\x27' :: rest)) =
            (match (optDigits ((decRepr (isz / 4)).data ++ '\x27' :: rest)).2 with
              | '\x27' :: r3 =>
                some ((.scalar .unicodeK '='
                  (4 * (optDigits ((decRepr (isz / 4)).data ++ '\x27' :: rest)).1)
                  "" "" : Dtype), r3)
              | _ => none) from rfl]
          rw [optDigits_decRepr (isz / 4) ('\x27' :: rest) (head_quote_not_digit rest)]
          show some ((.scalar .unicodeK '=' (4 * (isz / 4)) "" "" : Dtype), rest) = _
          rw [Nat.mul_div_cancel' hdvd]
    · -- big, byteorder <
      rw [show (Endianness.big : Endianness).swap.char = '<' from rfl] at hb
      subst hb
      by_cases h0 : isz = 0
      · subst h0
        refine ⟨"\x27" ++ byte_order_str_of .big '<' ++ "U\x27", rfl,
          by simp [byte_order_str_of, Endianness.char, str_data_append],
          ⟨.scalar .unicodeK '<' 0 "" "", by simp [equivCore], rfl, ?_⟩⟩
        intro rest fuel hf
        have hd : ("\x27" ++ byte_order_str_of .big '<' ++ "U\x27").data ++ rest =
            '\x27' :: '<' :: 'U' :: '\x27' :: rest := by
          simp [byte_order_str_of, Endianness.char, str_data_append]
        have hl : 1 ≤ ("\x27" ++ byte_order_str_of .big '<' ++
            "U\x27").data.length := by
          simp [byte_order_str_of, Endianness.char, str_data_append]
        rw [hd]
        cases fuel with
        | zero => omega
        | succ f => rfl
      · refine ⟨"\x27" ++ byte_order_str_of .big '<' ++ "U" ++
            decRepr (isz / 4) ++ "\x27",
          by simp [construction_repr, h0],
          by simp [byte_order_str_of, Endianness.char, str_data_append],
          ⟨.scalar .unicodeK '<' isz "" "", by simp [equivCore], rfl, ?_⟩⟩
        intro rest fuel hf
        have hd : ("\x27" ++ byte_order_str_of .big '<' ++ "U" ++
            decRepr (isz / 4) ++ "\x27").data ++ rest =
            '\x27' :: '<' :: 'U' :: ((decRepr (isz / 4)).data ++ '\x27' :: rest) := by
          simp [byte_order_str_of, Endianness.char, str_data_append]
        have hl : 1 ≤ ("\x27" ++ byte_order_str_of .big '<' ++ "U" ++
            decRepr (isz / 4) ++ "\x27").data.length := by
          simp [byte_order_str_of, Endianness.char, str_data_append]
        rw [hd]
        cases fuel with
        | zero => omega
        | succ f =>
          rw [show parseValue .big (f + 1)
              ('\x27' :: '<' :: 'U' :: ((decRepr (isz / 4)).data ++ '\x27' :: rest)) =
            (match (optDigits ((decRepr (isz / 4)).data ++ '\x27' :: rest)).2 with
              | '\x27' :: r3 =>
                some ((.scalar .unicodeK '<'
                  (4 * (optDigits ((decRepr (isz / 4)).data ++ '\x27' :: rest)).1)
                  "" "" : Dtype), r3)
              | _ => none) from rfl]
          rw [optDigits_decRepr (isz / 4) ('\x27' :: rest) (head_quote_not_digit rest)]
          show some ((.scalar .unicodeK '<' (4 * (isz / 4)) "" "" : Dtype), rest) = _
          rw [Nat.mul_div_cancel' hdvd]
  | datetimeK =>
    simp only [Constructible, Bool.and_eq_true] at hC
    obtain ⟨⟨hor, hisz0⟩, hmn⟩ := hC
    have hb : b = '=' ∨ b = plat.swap.char := by
      rcases (Bool.or_eq_true _ _).mp hor with h | h
      · exact Or.inl (by simpa using h)
      · exact Or.inr (by simpa using h)
    have hisz : isz = 8 := by simpa using hisz0
    subst hisz
    simp only [metaNameOK, Bool.and_eq_true, List.all_eq_true] at hmn
    obtain ⟨hcont, hall⟩ := hmn
    have hnq : ∀ c ∈ pyTailSlice nm.data '[', c ≠ '\x27' := by
      intro c hc
      have := hall c hc
      simpa using this
    cases plat <;> rcases hb with hb | hb
    · -- little, byteorder =
      subst hb
      refine ⟨"\x27" ++ byte_order_str_of .little '=' ++ "M8" ++
          (⟨pyTailSlice nm.data '['⟩ : String) ++ "\x27", rfl,
        by simp [byte_order_str_of, Endianness.char, str_data_append],
        ⟨.scalar .datetimeK '=' 8 ⟨pyTailSlice nm.data '['⟩ "",
          ?_, rfl, ?_⟩⟩
      · have hid := pyTailSlice_idem nm.data hcont
        simp [equivCore, Dtype.pyname, hid]
      · intro rest fuel hf
        have hd : ("\x27" ++ byte_order_str_of .little '=' ++ "M8" ++
            (⟨pyTailSlice nm.data '['⟩ : String) ++ "\x27").data ++ rest =
            '\x27' :: '<' :: 'M' :: '8' ::
              (pyTailSlice nm.data '[' ++ '\x27' :: rest) := by
          simp [byte_order_str_of, Endianness.char, str_data_append]
        have hl : 1 ≤ ("\x27" ++ byte_order_str_of .little '=' ++ "M8" ++
            (⟨pyTailSlice nm.data '['⟩ : String) ++ "\x27").data.length := by
          simp [byte_order_str_of, Endianness.char, str_data_append]
        rw [hd]
        cases fuel with
        | zero => omega
        | succ f =>
          rw [show parseValue .little (f + 1)
              ('\x27' :: '<' :: 'M' :: '8' ::
                (pyTailSlice nm.data '[' ++ '\x27' :: rest)) =
            Option.map (fun p => ((.scalar .datetimeK '=' 8 (⟨p.1⟩ : String) "" : Dtype),
              p.2)) (readToQuote (pyTailSlice nm.data '[' ++ '\x27' :: rest)) from rfl]
          rw [readToQuote_append (pyTailSlice nm.data '[') rest hnq]
          rfl
    · -- little, byteorder >
      rw [show (Endianness.little : Endianness).swap.char = '>' from rfl] at hb
      subst hb
      refine ⟨"\x27" ++ byte_order_str_of .little '>' ++ "M8" ++
          (⟨pyTailSlice nm.data '['⟩ : String) ++ "\x27", rfl,
        by simp [byte_order_str_of, Endianness.char, str_data_append],
        ⟨.scalar .datetimeK '>' 8 ⟨pyTailSlice nm.data '['⟩ "",
          ?_, rfl, ?_⟩⟩
      · have hid := pyTailSlice_idem nm.data hcont
        simp [equivCore, Dtype.pyname, hid]
      · intro rest fuel hf
        have hd : ("\x27" ++ byte_order_str_of .little '>' ++ "M8" ++
            (⟨pyTailSlice nm.data '['⟩ : String) ++ "\x27").data ++ rest =
            '\x27' :: '>' :: 'M' :: '8' ::
              (pyTailSlice nm.data '[' ++ '\x27' :: rest) := by
          simp [byte_order_str_of, Endianness.char, str_data_append]
        have hl : 1 ≤ ("\x27" ++ byte_order_str_of .little '>' ++ "M8" ++
            (⟨pyTailSlice nm.data '['⟩ : String) ++ "\x27").data.length := by
          simp [byte_order_str_of, Endianness.char, str_data_append]
        rw [hd]
        cases fuel with
        | zero => omega
        | succ f =>
          rw [show parseValue .little (f + 1)
              ('\x27' :: '>' :: 'M' :: '8' ::
                (pyTailSlice nm.data '[' ++ '\x27' :: rest)) =
            Option.map (fun p => ((.scalar .datetimeK '>' 8 (⟨p.1⟩ : String) "" : Dtype),
              p.2)) (readToQuote (pyTailSlice nm.data '[' ++ '\x27' :: rest)) from rfl]
          rw [readToQuote_append (pyTailSlice nm.data '[') rest hnq]
          rfl
    · -- big, byteorder =
      subst hb
      refine ⟨"\x27" ++ byte_order_str_of .big '=' ++ "M8" ++
          (⟨pyTailSlice nm.data '['⟩ : String) ++ "\x27", rfl,
        by simp [byte_order_str_of, Endianness.char, str_data_append],
        ⟨.scalar .datetimeK '=' 8 ⟨pyTailSlice nm.data '['⟩ "",
          ?_, rfl, ?_⟩⟩
      · have hid := pyTailSlice_idem nm.data hcont
        simp [equivCore, Dtype.pyname, hid]
      · intro rest fuel hf
        have hd : ("\x27" ++ byte_order_str_of .big '=' ++ "M8" ++
            (⟨pyTailSlice nm.data '['⟩ : String) ++ "\x27").data ++ rest =
            '\x27' :: '>' :: 'M' :: '8' ::
              (pyTailSlice nm.data '[' ++ '\x27' :: rest) := by
          simp [byte_order_str_of, Endianness.char, str_data_append]
        have hl : 1 ≤ ("\x27" ++ byte_order_str_of .big '=' ++ "M8" ++
            (⟨pyTailSlice nm.data '['⟩ : String) ++ "\x27").data.length := by
          simp [byte_order_str_of, Endianness.char, str_data_append]
        rw [hd]
        cases fuel with
        | zero => omega
        | succ f =>
          rw [show parseValue .big (f + 1)
              ('\x27' :: '>' :: 'M' :: '8' ::
                (pyTailSlice nm.data '[' ++ '\x27' :: rest)) =
            Option.map (fun p => ((.scalar .datetimeK '=' 8 (⟨p.1⟩ : String) "" : Dtype),
              p.2)) (readToQuote (pyTailSlice nm.data '[' ++ '\x27' :: rest)) from rfl]
          rw [readToQuote_append (pyTailSlice nm.data '[') rest hnq]
          rfl
    · -- big, byteorder <
      rw [show (Endianness.big : Endianness).swap.char = '<' from rfl] at hb
      subst hb
      refine ⟨"\x27" ++ byte_order_str_of .big '<' ++ "M8" ++
          (⟨pyTailSlice nm.data '['⟩ : String) ++ "\x27", rfl,
        by simp [byte_order_str_of, Endianness.char, str_data_append],
        ⟨.scalar .datetimeK '<' 8 ⟨pyTailSlice nm.data '['⟩ "",
          ?_, rfl, ?_⟩⟩
      · have hid := pyTailSlice_idem nm.data hcont
        simp [equivCore, Dtype.pyname, hid]
      · intro rest fuel hf
        have hd : ("\x27" ++ byte_order_str_of .big '<' ++ "M8" ++
            (⟨pyTailSlice nm.data '['⟩ : String) ++ "\x27").data ++ rest =
            '\x27' :: '<' :: 'M' :: '8' ::
              (pyTailSlice nm.data '[' ++ '\x27' :: rest) := by
          simp [byte_order_str_of, Endianness.char, str_data_append]
        have hl : 1 ≤ ("\x27" ++ byte_order_str_of .big '<' ++ "M8" ++
            (⟨pyTailSlice nm.data '['⟩ : String) ++ "\x27").data.length := by
          simp [byte_order_str_of, Endianness.char, str_data_append]
        rw [hd]
        cases fuel with
        | zero => omega
        | succ f =>
          rw [show parseValue .big (f + 1)
              ('\x27' :: '<' :: 'M' :: '8' ::
                (pyTailSlice nm.data '[' ++ '\x27' :: rest)) =
            Option.map (fun p => ((.scalar .datetimeK '<' 8 (⟨p.1⟩ : String) "" : Dtype),
              p.2)) (readToQuote (pyTailSlice nm.data '[' ++ '\x27' :: rest)) from rfl]
          rw [readToQuote_append (pyTailSlice nm.data '[') rest hnq]
          rfl
  | timedeltaK =>
    simp only [Constructible, Bool.and_eq_true] at hC
    obtain ⟨⟨hor, hisz0⟩, hmn⟩ := hC
    have hb : b = '=' ∨ b = plat.swap.char := by
      rcases (Bool.or_eq_true _ _).mp hor with h | h
      · exact Or.inl (by simpa using h)
      · exact Or.inr (by simpa using h)
    have hisz : isz = 8 := by simpa using hisz0
    subst hisz
    simp only [metaNameOK, Bool.and_eq_true, List.all_eq_true] at hmn
    obtain ⟨hcont, hall⟩ := hmn
    have hnq : ∀ c ∈ pyTailSlice nm.data '[', c ≠ '\x27' := by
      intro c hc
      have := hall c hc
      simpa using this
    cases plat <;> rcases hb with hb | hb
    · -- little, byteorder =
      subst hb
      refine ⟨"\x27" ++ byte_order_str_of .little '=' ++ "m8" ++
          (⟨pyTailSlice nm.data '['⟩ : String) ++ "\x27", rfl,
        by simp [byte_order_str_of, Endianness.char, str_data_append],
        ⟨.scalar .timedeltaK '=' 8 ⟨pyTailSlice nm.data '['⟩ "",
          ?_, rfl, ?_⟩⟩
      · have hid := pyTailSlice_idem nm.data hcont
        simp [equivCore, Dtype.pyname, hid]
      · intro rest fuel hf
        have hd : ("\x27" ++ byte_order_str_of .little '=' ++ "m8" ++
            (⟨pyTailSlice nm.data '['⟩ : String) ++ "\x27").data ++ rest =
            '\x27' :: '<' :: 'm' :: '8' ::
              (pyTailSlice nm.data '[' ++ '\x27' :: rest) := by
          simp [byte_order_str_of, Endianness.char, str_data_append]
        have hl : 1 ≤ ("\x27" ++ byte_order_str_of .little '=' ++ "m8" ++
            (⟨pyTailSlice nm.data '['⟩ : String) ++ "\x27").data.length := by
          simp [byte_order_str_of, Endianness.char, str_data_append]
        rw [hd]
        cases fuel with
        | zero => omega
        | succ f =>
          rw [show parseValue .little (f + 1)
              ('\x27' :: '<' :: 'm' :: '8' ::
                (pyTailSlice nm.data '[' ++ '\x27' :: rest)) =
            Option.map (fun p => ((.scalar .timedeltaK '=' 8 (⟨p.1⟩ : String) "" : Dtype),
              p.2)) (readToQuote (pyTailSlice nm.data '[' ++ '\x27' :: rest)) from rfl]
          rw [readToQuote_append (pyTailSlice nm.data '[') rest hnq]
          rfl
    · -- little, byteorder >
      rw [show (Endianness.little : Endianness).swap.char = '>' from rfl] at hb
      subst hb
      refine ⟨"\x27" ++ byte_order_str_of .little '>' ++ "m8" ++
          (⟨pyTailSlice nm.data '['⟩ : String) ++ "\x27", rfl,
        by simp [byte_order_str_of, Endianness.char, str_data_append],
        ⟨.scalar .timedeltaK '>' 8 ⟨pyTailSlice nm.data '['⟩ "",
          ?_, rfl, ?_⟩⟩
      · have hid := pyTailSlice_idem nm.data hcont
        simp [equivCore, Dtype.pyname, hid]
      · intro rest fuel hf
        have hd : ("\x27" ++ byte_order_str_of .little '>' ++ "m8" ++
            (⟨pyTailSlice nm.data '['⟩ : String) ++ "\x27").data ++ rest =
            '\x27' :: '>' :: 'm' :: '8' ::
              (pyTailSlice nm.data '[' ++ '\x27' :: rest) := by
          simp [byte_order_str_of, Endianness.char, str_data_append]
        have hl : 1 ≤ ("\x27" ++ byte_order_str_of .little '>' ++ "m8" ++
            (⟨pyTailSlice nm.data '['⟩ : String) ++ "\x27").data.length := by
          simp [byte_order_str_of, Endianness.char, str_data_append]
        rw [hd]
        cases fuel with
        | zero => omega
        | succ f =>
          rw [show parseValue .little (f + 1)
              ('\x27' :: '>' :: 'm' :: '8' ::
                (pyTailSlice nm.data '[' ++ '\x27' :: rest)) =
            Option.map (fun p => ((.scalar .timedeltaK '>' 8 (⟨p.1⟩ : String) "" : Dtype),
              p.2)) (readToQuote (pyTailSlice nm.data '[' ++ '\x27' :: rest)) from rfl]
          rw [readToQuote_append (pyTailSlice nm.data '[') rest hnq]
          rfl
    · -- big, byteorder =
      subst hb
      refine ⟨"\x27" ++ byte_order_str_of .big '=' ++ "m8" ++
          (⟨pyTailSlice nm.data '['⟩ : String) ++ "\x27", rfl,
        by simp [byte_order_str_of, Endianness.char, str_data_append],
        ⟨.scalar .timedeltaK '=' 8 ⟨pyTailSlice nm.data '['⟩ "",
          ?_, rfl, ?_⟩⟩
      · have hid := pyTailSlice_idem nm.data hcont
        simp [equivCore, Dtype.pyname, hid]
      · intro rest fuel hf
        have hd : ("\x27" ++ byte_order_str_of .big '=' ++ "m8" ++
            (⟨pyTailSlice nm.data '['⟩ : String) ++ "\x27").data ++ rest =
            '\x27' :: '>' :: 'm' :: '8' ::
              (pyTailSlice nm.data '[' ++ '\x27' :: rest) := by
          simp [byte_order_str_of, Endianness.char, str_data_append]
        have hl : 1 ≤ ("\x27" ++ byte_order_str_of .big '=' ++ "m8" ++
            (⟨pyTailSlice nm.data '['⟩ : String) ++ "\x27").data.length := by
          simp [byte_order_str_of, Endianness.char, str_data_append]
        rw [hd]
        cases fuel with
        | zero => omega
        | succ f =>
          rw [show parseValue .big (f + 1)
              ('\x27' :: '>' :: 'm' :: '8' ::
                (pyTailSlice nm.data '[' ++ '\x27' :: rest)) =
            Option.map (fun p => ((.scalar .timedeltaK '=' 8 (⟨p.1⟩ : String) "" : Dtype),
              p.2)) (readToQuote (pyTailSlice nm.data '[' ++ '\x27' :: rest)) from rfl]
          rw [readToQuote_append (pyTailSlice nm.data '[') rest hnq]
          rfl
    · -- big, byteorder <
      rw [show (Endianness.big : Endianness).swap.char = '<' from rfl] at hb
      subst hb
      refine ⟨"\x27" ++ byte_order_str_of .big '<' ++ "m8" ++
          (⟨pyTailSlice nm.data '['⟩ : String) ++ "\x27", rfl,
        by simp [byte_order_str_of, Endianness.char, str_data_append],
        ⟨.scalar .timedeltaK '<' 8 ⟨pyTailSlice nm.data '['⟩ "",
          ?_, rfl, ?_⟩⟩
      · have hid := pyTailSlice_idem nm.data hcont
        simp [equivCore, Dtype.pyname, hid]
      · intro rest fuel hf
        have hd : ("\x27" ++ byte_order_str_of .big '<' ++ "m8" ++
            (⟨pyTailSlice nm.data '['⟩ : String) ++ "\x27").data ++ rest =
            '\x27' :: '<' :: 'm' :: '8' ::
              (pyTailSlice nm.data '[' ++ '\x27' :: rest) := by
          simp [byte_order_str_of, Endianness.char, str_data_append]
        have hl : 1 ≤ ("\x27" ++ byte_order_str_of .big '<' ++ "m8" ++
            (⟨pyTailSlice nm.data '['⟩ : String) ++ "\x27").data.length := by
          simp [byte_order_str_of, Endianness.char, str_data_append]
        rw [hd]
        cases fuel with
        | zero => omega
        | succ f =>
          rw [show parseValue .big (f + 1)
              ('\x27' :: '<' :: 'm' :: '8' ::
                (pyTailSlice nm.data '[' ++ '\x27' :: rest)) =
            Option.map (fun p => ((.scalar .timedeltaK '<' 8 (⟨p.1⟩ : String) "" : Dtype),
              p.2)) (readToQuote (pyTailSlice nm.data '[' ++ '\x27' :: rest)) from rfl]
          rw [readToQuote_append (pyTailSlice nm.data '[') rest hnq]
          rfl
  | numK kd =>
    simp only [Constructible] at hC
    simp at hC
    obtain ⟨hk, hb⟩ := hC
    have hk4 := (kindstrs_isSome_iff kd).mp hk
    cases short with
    | true =>
      cases plat <;> rcases hb with hb | hb
      · subst hb
        refine ⟨"\x27" ++ byte_order_str_of .little '=' ++ (⟨[kd]⟩ : String) ++
            decRepr isz ++ "\x27", by simp [construction_repr], ?_,
          ⟨.scalar (.numK kd) '=' isz "" "", by simp [equivCore], rfl, ?_⟩⟩
        · simp [byte_order_str_of, Endianness.char, str_data_append]
        · intro rest fuel hf
          have hd : ("\x27" ++ byte_order_str_of .little '=' ++ (⟨[kd]⟩ : String) ++
              decRepr isz ++ "\x27").data ++ rest =
              '\x27' :: '<' :: kd :: ((decRepr isz).data ++ '\x27' :: rest) := by
            simp [byte_order_str_of, Endianness.char, str_data_append]
          have hl : 1 ≤ ("\x27" ++ byte_order_str_of .little '=' ++ (⟨[kd]⟩ : String) ++
              decRepr isz ++ "\x27").data.length := by
            simp [byte_order_str_of, Endianness.char, str_data_append]
          rw [hd]
          cases fuel with
          | zero => omega
          | succ f =>
            rw [show parseValue .little (f + 1)
                ('\x27' :: '<' :: kd :: ((decRepr isz).data ++ '\x27' :: rest)) =
              parseScalarTail .little
                ('<' :: kd :: ((decRepr isz).data ++ '\x27' :: rest)) from rfl]
            rw [parseScalarTail_ordered_num .little '<' kd isz rest (by decide) hk4]
            rfl
      · rw [show (Endianness.little : Endianness).swap.char = '>' from rfl] at hb
        subst hb
        refine ⟨"\x27" ++ byte_order_str_of .little '>' ++ (⟨[kd]⟩ : String) ++
            decRepr isz ++ "\x27", by simp [construction_repr], ?_,
          ⟨.scalar (.numK kd) '>' isz "" "", by simp [equivCore], rfl, ?_⟩⟩
        · simp [byte_order_str_of, Endianness.char, str_data_append]
        · intro rest fuel hf
          have hd : ("\x27" ++ byte_order_str_of .little '>' ++ (⟨[kd]⟩ : String) ++
              decRepr isz ++ "\x27").data ++ rest =
              '\x27' :: '>' :: kd :: ((decRepr isz).data ++ '\x27' :: rest) := by
            simp [byte_order_str_of, Endianness.char, str_data_append]
          have hl : 1 ≤ ("\x27" ++ byte_order_str_of .little '>' ++ (⟨[kd]⟩ : String) ++
              decRepr isz ++ "\x27").data.length := by
            simp [byte_order_str_of, Endianness.char, str_data_append]
          rw [hd]
          cases fuel with
          | zero => omega
          | succ f =>
            rw [show parseValue .little (f + 1)
                ('\x27' :: '>' :: kd :: ((decRepr isz).data ++ '\x27' :: rest)) =
              parseScalarTail .little
                ('>' :: kd :: ((decRepr isz).data ++ '\x27' :: rest)) from rfl]
            rw [parseScalarTail_ordered_num .little '>' kd isz rest (by decide) hk4]
            rfl
      · subst hb
        refine ⟨"\x27" ++ byte_order_str_of .big '=' ++ (⟨[kd]⟩ : String) ++
            decRepr isz ++ "\x27", by simp [construction_repr], ?_,
          ⟨.scalar (.numK kd) '=' isz "" "", by simp [equivCore], rfl, ?_⟩⟩
        · simp [byte_order_str_of, Endianness.char, str_data_append]
        · intro rest fuel hf
          have hd : ("\x27" ++ byte_order_str_of .big '=' ++ (⟨[kd]⟩ : String) ++
              decRepr isz ++ "\x27").data ++ rest =
              '\x27' :: '>' :: kd :: ((decRepr isz).data ++ '\x27' :: rest) := by
            simp [byte_order_str_of, Endianness.char, str_data_append]
          have hl : 1 ≤ ("\x27" ++ byte_order_str_of .big '=' ++ (⟨[kd]⟩ : String) ++
              decRepr isz ++ "\x27").data.length := by
            simp [byte_order_str_of, Endianness.char, str_data_append]
          rw [hd]
          cases fuel with
          | zero => omega
          | succ f =>
            rw [show parseValue .big (f + 1)
                ('\x27' :: '>' :: kd :: ((decRepr isz).data ++ '\x27' :: rest)) =
              parseScalarTail .big
                ('>' :: kd :: ((decRepr isz).data ++ '\x27' :: rest)) from rfl]
            rw [parseScalarTail_ordered_num .big '>' kd isz rest (by decide) hk4]
            rfl
      · rw [show (Endianness.big : Endianness).swap.char = '<' from rfl] at hb
        subst hb
        refine ⟨"\x27" ++ byte_order_str_of .big '<' ++ (⟨[kd]⟩ : String) ++
            decRepr isz ++ "\x27", by simp [construction_repr], ?_,
          ⟨.scalar (.numK kd) '<' isz "" "", by simp [equivCore], rfl, ?_⟩⟩
        · simp [byte_order_str_of, Endianness.char, str_data_append]
        · intro rest fuel hf
          have hd : ("\x27" ++ byte_order_str_of .big '<' ++ (⟨[kd]⟩ : String) ++
              decRepr isz ++ "\x27").data ++ rest =
              '\x27' :: '<' :: kd :: ((decRepr isz).data ++ '\x27' :: rest) := by
            simp [byte_order_str_of, Endianness.char, str_data_append]
          have hl : 1 ≤ ("\x27" ++ byte_order_str_of .big '<' ++ (⟨[kd]⟩ : String) ++
              decRepr isz ++ "\x27").data.length := by
            simp [byte_order_str_of, Endianness.char, str_data_append]
          rw [hd]
          cases fuel with
          | zero => omega
          | succ f =>
            rw [show parseValue .big (f + 1)
                ('\x27' :: '<' :: kd :: ((decRepr isz).data ++ '\x27' :: rest)) =
              parseScalarTail .big
                ('<' :: kd :: ((decRepr isz).data ++ '\x27' :: rest)) from rfl]
            rw [parseScalarTail_ordered_num .big '<' kd isz rest (by decide) hk4]
            rfl
    | false =>
      rcases hb with hb | hb
      · subst hb
        rcases hk4 with hkd | hkd | hkd | hkd
        · subst hkd
          refine ⟨"\x27uint" ++ decRepr (8 * isz) ++ "\x27",
            by simp [construction_repr, kindstrs], by simp [str_data_append],
            ⟨.scalar (.numK 'u') '=' isz "" "", by simp [equivCore], rfl, ?_⟩⟩
          intro rest fuel hf
          have hd : ("\x27uint" ++ decRepr (8 * isz) ++ "\x27").data ++ rest =
              '\x27' :: 'u' :: 'i' :: 'n' :: 't' :: ((decRepr (8 * isz)).data ++ '\x27' :: rest) := by
            simp [str_data_append]
          have hl : 1 ≤ ("\x27uint" ++ decRepr (8 * isz) ++ "\x27").data.length := by
            simp [str_data_append]
          rw [hd]
          cases fuel with
          | zero => omega
          | succ f =>
            rw [show parseValue plat (f + 1)
                ('\x27' :: 'u' :: 'i' :: 'n' :: 't' :: ((decRepr (8 * isz)).data ++ '\x27' :: rest)) =
              ((parseDec ((decRepr (8 * isz)).data ++ '\x27' :: rest)).bind fun p =>
                (match p.2 with
                  | '\x27' :: r2 =>
                    some ((.scalar (.numK 'u') '=' (p.1 / 8) "" "" : Dtype), r2)
                  | _ => none)) from rfl]
            rw [parseDec_decRepr (8 * isz) ('\x27' :: rest) (head_quote_not_digit rest)]
            show some ((.scalar (.numK 'u') '=' (8 * isz / 8) "" "" : Dtype), rest) = _
            rw [Nat.mul_div_cancel_left isz (by norm_num : (0 : Nat) < 8)]
        · subst hkd
          refine ⟨"\x27int" ++ decRepr (8 * isz) ++ "\x27",
            by simp [construction_repr, kindstrs], by simp [str_data_append],
            ⟨.scalar (.numK 'i') '=' isz "" "", by simp [equivCore], rfl, ?_⟩⟩
          intro rest fuel hf
          have hd : ("\x27int" ++ decRepr (8 * isz) ++ "\x27").data ++ rest =
              '\x27' :: 'i' :: 'n' :: 't' :: ((decRepr (8 * isz)).data ++ '\x27' :: rest) := by
            simp [str_data_append]
          have hl : 1 ≤ ("\x27int" ++ decRepr (8 * isz) ++ "\x27").data.length := by
            simp [str_data_append]
          rw [hd]
          cases fuel with
          | zero => omega
          | succ f =>
            rw [show parseValue plat (f + 1)
                ('\x27' :: 'i' :: 'n' :: 't' :: ((decRepr (8 * isz)).data ++ '\x27' :: rest)) =
              ((parseDec ((decRepr (8 * isz)).data ++ '\x27' :: rest)).bind fun p =>
                (match p.2 with
                  | '\x27' :: r2 =>
                    some ((.scalar (.numK 'i') '=' (p.1 / 8) "" "" : Dtype), r2)
                  | _ => none)) from rfl]
            rw [parseDec_decRepr (8 * isz) ('\x27' :: rest) (head_quote_not_digit rest)]
            show some ((.scalar (.numK 'i') '=' (8 * isz / 8) "" "" : Dtype), rest) = _
            rw [Nat.mul_div_cancel_left isz (by norm_num : (0 : Nat) < 8)]
        · subst hkd
          refine ⟨"\x27float" ++ decRepr (8 * isz) ++ "\x27",
            by simp [construction_repr, kindstrs], by simp [str_data_append],
            ⟨.scalar (.numK 'f') '=' isz "" "", by simp [equivCore], rfl, ?_⟩⟩
          intro rest fuel hf
          have hd : ("\x27float" ++ decRepr (8 * isz) ++ "\x27").data ++ rest =
              '\x27' :: 'f' :: 'l' :: 'o' :: 'a' :: 't' :: ((decRepr (8 * isz)).data ++ '\x27' :: rest) := by
            simp [str_data_append]
          have hl : 1 ≤ ("\x27float" ++ decRepr (8 * isz) ++ "\x27").data.length := by
            simp [str_data_append]
          rw [hd]
          cases fuel with
          | zero => omega
          | succ f =>
            rw [show parseValue plat (f + 1)
                ('\x27' :: 'f' :: 'l' :: 'o' :: 'a' :: 't' :: ((decRepr (8 * isz)).data ++ '\x27' :: rest)) =
              ((parseDec ((decRepr (8 * isz)).data ++ '\x27' :: rest)).bind fun p =>
                (match p.2 with
                  | '\x27' :: r2 =>
                    some ((.scalar (.numK 'f') '=' (p.1 / 8) "" "" : Dtype), r2)
                  | _ => none)) from rfl]
            rw [parseDec_decRepr (8 * isz) ('\x27' :: rest) (head_quote_not_digit rest)]
            show some ((.scalar (.numK 'f') '=' (8 * isz / 8) "" "" : Dtype), rest) = _
            rw [Nat.mul_div_cancel_left isz (by norm_num : (0 : Nat) < 8)]
        · subst hkd
          refine ⟨"\x27complex" ++ decRepr (8 * isz) ++ "\x27",
            by simp [construction_repr, kindstrs], by simp [str_data_append],
            ⟨.scalar (.numK 'c') '=' isz "" "", by simp [equivCore], rfl, ?_⟩⟩
          intro rest fuel hf
          have hd : ("\x27complex" ++ decRepr (8 * isz) ++ "\x27").data ++ rest =
              '\x27' :: 'c' :: 'o' :: 'm' :: 'p' :: 'l' :: 'e' :: 'x' :: ((decRepr (8 * isz)).data ++ '\x27' :: rest) := by
            simp [str_data_append]
          have hl : 1 ≤ ("\x27complex" ++ decRepr (8 * isz) ++ "\x27").data.length := by
            simp [str_data_append]
          rw [hd]
          cases fuel with
          | zero => omega
          | succ f =>
            rw [show parseValue plat (f + 1)
                ('\x27' :: 'c' :: 'o' :: 'm' :: 'p' :: 'l' :: 'e' :: 'x' :: ((decRepr (8 * isz)).data ++ '\x27' :: rest)) =
              ((parseDec ((decRepr (8 * isz)).data ++ '\x27' :: rest)).bind fun p =>
                (match p.2 with
                  | '\x27' :: r2 =>
                    some ((.scalar (.numK 'c') '=' (p.1 / 8) "" "" : Dtype), r2)
                  | _ => none)) from rfl]
            rw [parseDec_decRepr (8 * isz) ('\x27' :: rest) (head_quote_not_digit rest)]
            show some ((.scalar (.numK 'c') '=' (8 * isz / 8) "" "" : Dtype), rest) = _
            rw [Nat.mul_div_cancel_left isz (by norm_num : (0 : Nat) < 8)]
      · cases plat
        · rw [show (Endianness.little : Endianness).swap.char = '>' from rfl] at hb
          subst hb
          refine ⟨"\x27" ++ byte_order_str_of .little '>' ++ (⟨[kd]⟩ : String) ++
              decRepr isz ++ "\x27", by simp [construction_repr], ?_,
            ⟨.scalar (.numK kd) '>' isz "" "", by simp [equivCore], rfl, ?_⟩⟩
          · simp [byte_order_str_of, Endianness.char, str_data_append]
          · intro rest fuel hf
            have hd : ("\x27" ++ byte_order_str_of .little '>' ++ (⟨[kd]⟩ : String) ++
                decRepr isz ++ "\x27").data ++ rest =
                '\x27' :: '>' :: kd :: ((decRepr isz).data ++ '\x27' :: rest) := by
              simp [byte_order_str_of, Endianness.char, str_data_append]
            have hl : 1 ≤ ("\x27" ++ byte_order_str_of .little '>' ++ (⟨[kd]⟩ : String) ++
                decRepr isz ++ "\x27").data.length := by
              simp [byte_order_str_of, Endianness.char, str_data_append]
            rw [hd]
            cases fuel with
            | zero => omega
            | succ f =>
              rw [show parseValue .little (f + 1)
                  ('\x27' :: '>' :: kd :: ((decRepr isz).data ++ '\x27' :: rest)) =
                parseScalarTail .little
                  ('>' :: kd :: ((decRepr isz).data ++ '\x27' :: rest)) from rfl]
              rw [parseScalarTail_ordered_num .little '>' kd isz rest (by decide) hk4]
              rfl
        · rw [show (Endianness.big : Endianness).swap.char = '<' from rfl] at hb
          subst hb
          refine ⟨"\x27" ++ byte_order_str_of .big '<' ++ (⟨[kd]⟩ : String) ++
              decRepr isz ++ "\x27", by simp [construction_repr], ?_,
            ⟨.scalar (.numK kd) '<' isz "" "", by simp [equivCore], rfl, ?_⟩⟩
          · simp [byte_order_str_of, Endianness.char, str_data_append]
          · intro rest fuel hf
            have hd : ("\x27" ++ byte_order_str_of .big '<' ++ (⟨[kd]⟩ : String) ++
                decRepr isz ++ "\x27").data ++ rest =
                '\x27' :: '<' :: kd :: ((decRepr isz).data ++ '\x27' :: rest) := by
              simp [byte_order_str_of, Endianness.char, str_data_append]
            have hl : 1 ≤ ("\x27" ++ byte_order_str_of .big '<' ++ (⟨[kd]⟩ : String) ++
                decRepr isz ++ "\x27").data.length := by
              simp [byte_order_str_of, Endianness.char, str_data_append]
            rw [hd]
            cases fuel with
            | zero => omega
            | succ f =>
              rw [show parseValue .big (f + 1)
                  ('\x27' :: '<' :: kd :: ((decRepr isz).data ++ '\x27' :: rest)) =
                parseScalarTail .big
                  ('<' :: kd :: ((decRepr isz).data ++ '\x27' :: rest)) from rfl]
              rw [parseScalarTail_ordered_num .big '<' kd isz rest (by decide) hk4]
              rfl
  | otherK tn ib =>
    simp only [Constructible] at hC
    simp at hC

/-- Sameness of itemsize follows from core equivalence. -/
theorem equivCore_itemsize (d1 d2 : Dtype) (h : equivCore d1 d2 = true) :
    d1.itemsize = d2.itemsize := by
  cases d1 <;> cases d2 <;>
    simp only [equivCore, Bool.and_eq_true, beq_iff_eq] at h <;>
    simp only [Dtype.itemsize] <;>
    first
      | exact absurd h (by decide)
      | exact h.1.2
      | exact h.2

/-- Setting the aligned flag does not affect core equivalence. -/
theorem equivCore_setAligned (d1 d2 : Dtype) :
    equivCore (setAligned d1) d2 = equivCore d1 d2 := by
  cases d1 <;> cases d2 <;> rfl

/-- A successful scalar construction repr (for a non-`otherK` kind)
starts with a quote character. -/
theorem scalar_repr_head (plat : Endianness) (k : SKind) (b : Char) (isz : Nat)
    (nm st : String) (ia short : Bool) (s : String)
    (h : construction_repr plat (.scalar k b isz nm st) ia short = .ok s)
    (hk : ∀ tn ib, k ≠ SKind.otherK tn ib) :
    ∃ rs, s.data = '\x27' :: rs := by
  cases k with
  | otherK tn ib => exact absurd rfl (hk tn ib)
  | boolK =>
    simp only [construction_repr] at h
    split at h <;> (injection h with h; subst h; exact ⟨_, rfl⟩)
  | objectK =>
    simp only [construction_repr] at h
    injection h with h; subst h; exact ⟨_, rfl⟩
  | bytesK =>
    simp only [construction_repr] at h
    split at h <;> (injection h with h; subst h; exact ⟨_, rfl⟩)
  | unicodeK =>
    simp only [construction_repr] at h
    split at h <;> (injection h with h; subst h; exact ⟨_, rfl⟩)
  | voidK =>
    simp only [construction_repr] at h
    split at h <;> (injection h with h; subst h; exact ⟨_, rfl⟩)
  | datetimeK =>
    simp only [construction_repr] at h
    injection h with h; subst h; exact ⟨_, rfl⟩
  | timedeltaK =>
    simp only [construction_repr] at h
    injection h with h; subst h; exact ⟨_, rfl⟩
  | numK kd =>
    simp only [construction_repr] at h
    split at h
    · injection h with h; subst h; exact ⟨_, rfl⟩
    · split at h
      · injection h with h; subst h; exact ⟨_, rfl⟩
      · exact (Except.noConfusion h)

/-- Pairwise core equivalence of a dtype list against the field dtypes
in declaration order. -/
def dtypesMatch : List Dtype → Fields → Bool
  | [], .nil => true
  | d :: ds, .cons _ fd _ _ rest => equivCore d fd && dtypesMatch ds rest
  | _, _ => false

/-- Zipping the names, offsets and titles of a field list with
pairwise-equivalent dtypes reproduces an equivalent field list. -/
theorem zipFields_equiv (ds : List Dtype) (fl : Fields)
    (h : dtypesMatch ds fl = true) :
    equivFields (zipFields fl.names ds fl.offsets fl.titles) fl = true := by
  match ds, fl with
  | [], .nil => rfl
  | d :: ds, .cons nm fd off tt rest =>
    simp only [dtypesMatch, Bool.and_eq_true] at h
    have ih := zipFields_equiv ds rest h.2
    simp [Fields.names, Fields.offsets, Fields.titles, zipFields, equivFields,
      h.1, ih]
  | [], .cons nm fd off tt rest => exact absurd h (by simp [dtypesMatch])
  | d :: ds, .nil => exact absurd h (by simp [dtypesMatch])
termination_by structural fl

/-- When no field has a title, the all-`None` title list the parser
substitutes equals the stored titles. -/
theorem titles_all_none (fl : Fields)
    (h : fl.titles.any (fun t => t.isSome) = false) :
    fl.names.map (fun _ => (none : Option String)) = fl.titles := by
  match fl with
  | .nil => rfl
  | .cons nm fd off tt rest =>
    simp only [Fields.titles, List.any_cons, Bool.or_eq_false_iff] at h
    have ih := titles_all_none rest h.2
    cases tt with
    | some t0 => exact absurd h.1 (by simp)
    | none => simp only [Fields.names, Fields.titles, List.map_cons, ih]
termination_by structural fl

/-- Heads of a cons with a non-digit head are non-digits. -/
theorem head_cons_not_digit (c : Char) (r : List Char) (h : c.isDigit = false) :
    ∀ x, ((c :: r).head? = some x) → x.isDigit = false := by
  intro x hx
  simp only [List.head?_cons, Option.some.injEq] at hx
  subst hx
  exact h

/-- The item head of a list-form entry is at least two characters. -/
theorem list_item_head_len (t : Option String) (nm : String) :
    2 ≤ (list_item_head t nm).data.length := by
  cases t <;> simp [list_item_head, pyStrRepr, str_data_append]

/-- The identifier contract unpacked: nonempty, alphabetic head, all
identifier characters. -/
theorem identOK_data (s : String) (h : identOK s = true) :
    ∃ c cs, s.data = c :: cs ∧ c.isAlpha = true ∧
      (∀ x ∈ s.data, identChar x = true) := by
  unfold identOK at h
  cases hs : s.data with
  | nil => rw [hs] at h; exact absurd h (by decide)
  | cons c cs =>
    rw [hs] at h
    simp only [Bool.and_eq_true, List.all_eq_true] at h
    refine ⟨c, cs, rfl, h.1, ?_⟩
    exact h.2

/-- `parseNamePart` inverts the list-item head rendering. -/
theorem parseNamePart_adeq (t : Option String) (nm : String) (tail : List Char) :
    ∃ r : List Char, (list_item_head t nm).data ++ tail = '(' :: r ∧
      parseNamePart r = some ((t, nm), ',' :: ' ' :: tail) := by
  cases t with
  | none =>
    refine ⟨'\x27' :: (escList nm.data ++ '\x27' :: (',' :: ' ' :: tail)), ?_, ?_⟩
    · simp [list_item_head, pyStrRepr, str_data_append]
    · rw [show parseNamePart ('\x27' :: (escList nm.data ++ '\x27' :: (',' :: ' ' :: tail))) =
        (parseName ('\x27' :: (escList nm.data ++ '\x27' :: (',' :: ' ' :: tail)))).map
          (fun pn => ((none, pn.1), pn.2)) from rfl]
      rw [parseName_pyStrRepr2]
      rfl
  | some tt =>
    refine ⟨'(' :: ('\x27' :: (escList tt.data ++ '\x27' ::
        (',' :: ' ' :: ('\x27' :: (escList nm.data ++ '\x27' ::
          (')' :: ',' :: ' ' :: tail)))))), ?_, ?_⟩
    · simp [list_item_head, pyStrRepr, str_data_append]
    · rw [show parseNamePart ('(' :: ('\x27' :: (escList tt.data ++ '\x27' ::
          (',' :: ' ' :: ('\x27' :: (escList nm.data ++ '\x27' ::
            (')' :: ',' :: ' ' :: tail))))))) =
        ((parseName ('\x27' :: (escList tt.data ++ '\x27' ::
            (',' :: ' ' :: ('\x27' :: (escList nm.data ++ '\x27' ::
              (')' :: ',' :: ' ' :: tail))))))).bind fun pt =>
          (expectChars (", ").data pt.2).bind fun r2 =>
          (parseName r2).bind fun pn =>
          (match pn.2 with
            | ')' :: r4 => some ((some pt.1, pn.1), r4)
            | _ => none)) from rfl]
      rw [parseName_pyStrRepr2]
      rw [Option.some_bind]
      rw [show (expectChars (", ").data (',' :: ' ' :: ('\x27' :: (escList nm.data ++
        '\x27' :: (')' :: ',' :: ' ' :: tail))))) = some ('\x27' :: (escList nm.data ++
        '\x27' :: (')' :: ',' :: ' ' :: tail))) from rfl]
      rw [Option.some_bind]
      rw [parseName_pyStrRepr2]
      rfl

/-- One-step reduction of `parseValue` at a parenthesis head. -/
theorem parseValue_paren (plat : Endianness) (fu : Nat) (c : Char) (r : List Char) :
    parseValue plat (fu + 1) ('(' :: c :: r) =
      (if c.isAlpha then
        (skipIdent (c :: r)).bind fun r1 =>
        (expectChars (", ").data r1).bind fun r2 =>
        (parseValue plat fu r2).bind fun pv =>
        (match pv.2 with
          | ')' :: r4 => some (pv.1, r4)
          | _ => none)
      else
        (parseValue plat fu (c :: r)).bind fun pb =>
        (expectChars (", ").data pb.2).bind fun r3 =>
        (parseShapeTuple fu r3).bind fun ps =>
        (match ps.2 with
          | ')' :: r5 =>
            some ((.subarray pb.1 ps.1 (pb.1.itemsize * ps.1.prod) : Dtype), r5)
          | _ => none)) := rfl

/-- One-step reduction of `parseValue` at a bracket head. -/
theorem parseValue_bracket (plat : Endianness) (fu : Nat) (r : List Char) :
    parseValue plat (fu + 1) ('[' :: r) =
      ((parseListItems plat fu 0 r).bind fun p =>
        (match p.2 with
          | ']' :: r3 => some ((.struct p.1.1 p.1.2 false true "" "" : Dtype), r3)
          | _ => none)) := rfl

/-- One-step reduction of `parseValue` at a brace head. -/
theorem parseValue_brace (plat : Endianness) (fu : Nat) (r : List Char) :
    parseValue plat (fu + 1) ('\x7b' :: r) = parseDictTail plat fu r := rfl

/-- One-step reduction of `parseListItems` at an item opening. -/
theorem parseListItems_paren (plat : Endianness) (fu ofs : Nat) (r : List Char) :
    parseListItems plat (fu + 1) ofs ('(' :: r) =
      ((parseNamePart r).bind fun ptn =>
      (expectChars (", ").data ptn.2).bind fun r2 =>
      (parseValue plat fu r2).bind fun pv =>
      (match pv.2 with
        | ')' :: r4 => some ((pv.1, r4) : Dtype × List Char)
        | ',' :: ' ' :: r4 =>
          (parseShapeTuple fu r4).bind fun ps =>
          (match ps.2 with
            | ')' :: r6 =>
              some ((.subarray pv.1 ps.1 (pv.1.itemsize * ps.1.prod) : Dtype), r6)
            | _ => none)
        | _ => none).bind fun pf =>
      (match pf.2 with
        | ',' :: ' ' :: r8 =>
          (parseListItems plat fu (ofs + pf.1.itemsize) r8).map
            fun (q : (Fields × Nat) × List Char) =>
              ((Fields.cons ptn.1.2 pf.1 ofs ptn.1.1 q.1.1, q.1.2), q.2)
        | _ =>
          some ((Fields.cons ptn.1.2 pf.1 ofs ptn.1.1 .nil, ofs + pf.1.itemsize),
            pf.2))) := rfl

/-- One-step reduction of `parseValueList` at a value head. -/
theorem parseValueList_step (plat : Endianness) (fu : Nat) (c : Char) (r : List Char)
    (hc : c = '\x27' ∨ c = '[' ∨ c = '\x7b' ∨ c = '(') :
    parseValueList plat (fu + 1) (c :: r) =
      ((parseValue plat fu (c :: r)).bind fun pv =>
      match pv.2 with
      | ',' :: r2 => (parseValueList plat fu r2).map fun q => (pv.1 :: q.1, q.2)
      | _ => some ([pv.1], pv.2)) := by
  rcases hc with h | h | h | h <;> subst h <;> rfl

/-- One-step reduction of `parseDictTail`. -/
theorem parseDictTail_step (plat : Endianness) (fu : Nat) (l : List Char) :
    parseDictTail plat (fu + 1) l =
      ((expectChars ("\x27names\x27:[").data l).bind fun r1 =>
      (parseNameList (fu + 1) r1).bind fun pn =>
      (expectChars ("], \x27formats\x27:[").data pn.2).bind fun r3 =>
      (parseValueList plat fu r3).bind fun pf =>
      (expectChars ("], \x27offsets\x27:[").data pf.2).bind fun r5 =>
      (parseDecList (fu + 1) r5).bind fun po =>
      (match expectChars ("], \x27titles\x27:[").data po.2 with
        | some r7 =>
          (parseOptNameList (fu + 1) r7).bind fun pt =>
          (expectChars ("], \x27itemsize\x27:").data pt.2).map fun r9 => (pt.1, r9)
        | none =>
          (expectChars ("], \x27itemsize\x27:").data po.2).map fun r7 =>
          (pn.1.map (fun _ => (none : Option String)), r7)).bind fun ptt =>
      (parseDec ptt.2).bind fun pisz =>
      (match pisz.2 with
        | '\x7d' :: rC => some ((false, rC) : Bool × List Char)
        | rB => (expectChars (", \x27aligned\x27:True\x7d").data rB).map
            fun rC => (true, rC)).bind fun pal =>
      some ((.struct (zipFields pn.1 pf.1 po.1 ptt.1) pisz.1 pal.1 true "" "" : Dtype),
        pal.2)) := rfl

/-- Parsing through the `(module.name, sub)` type wrapping: the wrapped
rendering parses back to whatever the inner rendering parses to. -/
theorem type_wrap_parse (plat : Endianness) (ty : Bool) (m t sub : String) (d' : Dtype)
    (hid : ty = true ∨ (identOK m = true ∧ identOK t = true))
    (hinner : ∀ rest fuel, sub.data.length + rest.length ≤ fuel →
      parseValue plat fuel (sub.data ++ rest) = some (d', rest)) :
    ∀ rest fuel, (type_wrap ty m t sub).data.length + rest.length ≤ fuel →
      parseValue plat fuel ((type_wrap ty m t sub).data ++ rest) = some (d', rest) := by
  cases ty with
  | true =>
    intro rest fuel hf
    rw [show type_wrap true m t sub = sub from rfl] at hf ⊢
    exact hinner rest fuel hf
  | false =>
    rcases hid with hid | ⟨hm, ht⟩
    · exact absurd hid (by decide)
    obtain ⟨mc, mcs, hmd, hmAlpha, hmAll⟩ := identOK_data m hm
    obtain ⟨tc, tcs, htd, htAlpha, htAll⟩ := identOK_data t ht
    intro rest fuel hf
    have hw : type_wrap false m t sub = "(" ++ m ++ "." ++ t ++ ", " ++ sub ++ ")" := rfl
    have hdec : (type_wrap false m t sub).data ++ rest =
        '(' :: mc :: ((mcs ++ '.' :: t.data) ++
          ',' :: ' ' :: (sub.data ++ ')' :: rest)) := by
      rw [hw]
      simp [str_data_append, hmd]
    have hlen : (type_wrap false m t sub).data.length =
        1 + m.data.length + 1 + t.data.length + 2 + sub.data.length + 1 := by
      rw [hw]
      simp [str_data_append]
      omega
    rw [hdec]
    have hmlen : 1 ≤ m.data.length := by rw [hmd]; simp
    have htlen : 1 ≤ t.data.length := by rw [htd]; simp
    cases fuel with
    | zero => omega
    | succ fu =>
      rw [parseValue_paren, if_pos hmAlpha]
      rw [show (mc :: ((mcs ++ '.' :: t.data) ++
          ',' :: ' ' :: (sub.data ++ ')' :: rest))) =
        ((mc :: mcs ++ '.' :: t.data) ++
          (',' :: ' ' :: (sub.data ++ ')' :: rest))) from by simp]
      rw [skipIdent_append (mc :: mcs ++ '.' :: t.data)
        (',' :: ' ' :: (sub.data ++ ')' :: rest))
        (by
          intro x hx
          rcases List.mem_append.mp hx with hx | hx
          · exact hmAll x (by rw [hmd]; exact hx)
          · rcases List.mem_cons.mp hx with hx | hx
            · subst hx; decide
            · exact htAll x hx)
        (by simp)
        (by
          intro c0 hc0
          simp only [List.head?_cons, Option.some.injEq] at hc0
          subst hc0
          decide)]
      rw [Option.some_bind]
      rw [show (',' :: ' ' :: (sub.data ++ ')' :: rest)) =
        ((", ").data ++ (sub.data ++ ')' :: rest)) from rfl]
      rw [expectChars_append, Option.some_bind]
      rw [hinner (')' :: rest) fu
        (by rw [hlen] at hf; simp only [List.length_cons]; omega)]
      rfl

mutual
/-- Round trip of one rendered constructor value: a constructible
descriptor construction repr (include-align false) parses back, via
`parseValue`, to a core-equivalent descriptor with a clear aligned
flag. -/
theorem value_roundtrip (plat : Endianness) (d : Dtype) (short : Bool)
    (hC : Constructible plat d = true) :
    ∃ s : String, construction_repr plat d false short = .ok s ∧
      (∃ c rs, s.data = c :: rs ∧
        (c = '\x27' ∨ c = '[' ∨ c = '\x7b' ∨ c = '(')) ∧
      ∃ d2 : Dtype, equivCore d2 d = true ∧ d2.isalignedstruct = false ∧
        (∀ rest fuel, s.data.length + rest.length ≤ fuel →
          parseValue plat fuel (s.data ++ rest) = some (d2, rest)) := by
  match d with
  | .scalar k b isz nm st =>
    have hko : ∀ tn ib, k ≠ SKind.otherK tn ib := by
      intro tn ib hk
      subst hk
      simp [Constructible] at hC
    obtain ⟨s, h, hlen1, d2, he, ha, hp⟩ :=
      scalar_roundtrip plat k b isz nm st false short hC
    obtain ⟨rs, hrs⟩ := scalar_repr_head plat k b isz nm st false short s h hko
    exact ⟨s, h, ⟨'\x27', rs, hrs, Or.inl rfl⟩, d2, he, ha, hp⟩
  | .subarray base shape isz =>
    simp only [Constructible, Bool.and_eq_true] at hC
    obtain ⟨⟨⟨⟨hb0, hCb⟩, hne⟩, hpos⟩, hisz0⟩ := hC
    have hisz : isz = base.itemsize * shape.prod := by simpa using hisz0
    obtain ⟨bs, hb, ⟨c, rs, hcd, hcor⟩, b2, hbe, hba, hbp⟩ :=
      value_roundtrip plat base true hCb
    have hcAlpha : c.isAlpha = false := by
      rcases hcor with h | h | h | h <;> subst h <;> decide
    refine ⟨"(" ++ bs ++ ", " ++ tupleRepr shape ++ ")", ?_, ?_,
      .subarray b2 shape (b2.itemsize * shape.prod), ?_, rfl, ?_⟩
    · simp only [construction_repr]
      rw [hb]
      rfl
    · refine ⟨'(', bs.data ++ ',' :: ' ' :: ((tupleRepr shape).data ++ [')']), ?_,
        Or.inr (Or.inr (Or.inr rfl))⟩
      simp [str_data_append]
    · simp [equivCore, hbe, equivCore_itemsize b2 base hbe, hisz]
    · intro rest fuel hf
      have hslen : ("(" ++ bs ++ ", " ++ tupleRepr shape ++ ")").data.length =
          1 + bs.data.length + 2 + (tupleRepr shape).data.length + 1 := by
        simp [str_data_append] <;> omega
      have hdec : ("(" ++ bs ++ ", " ++ tupleRepr shape ++ ")").data ++ rest =
          '(' :: c :: (rs ++ (',' :: ' ' :: ((tupleRepr shape).data ++ ')' :: rest))) := by
        simp [str_data_append, hcd]
      rw [hslen] at hf
      rw [hdec]
      cases fuel with
      | zero => omega
      | succ fu =>
        rw [parseValue_paren, if_neg (by simp [hcAlpha])]
        rw [show (c :: (rs ++ (',' :: ' ' :: ((tupleRepr shape).data ++ ')' :: rest)))) =
          (bs.data ++ (',' :: ' ' :: ((tupleRepr shape).data ++ ')' :: rest))) from by
            rw [hcd, List.cons_append]]
        rw [hbp (',' :: ' ' :: ((tupleRepr shape).data ++ ')' :: rest)) fu
          (by simp only [List.length_cons, List.length_append]; omega)]
        show ((expectChars (", ").data
            (',' :: ' ' :: ((tupleRepr shape).data ++ ')' :: rest))).bind fun r3 =>
          (parseShapeTuple fu r3).bind fun ps =>
          (match ps.2 with
            | ')' :: r5 =>
              some ((.subarray b2 ps.1 (b2.itemsize * ps.1.prod) : Dtype), r5)
            | _ => none)) = _
        rw [show (',' :: ' ' :: ((tupleRepr shape).data ++ ')' :: rest)) =
          ((", ").data ++ ((tupleRepr shape).data ++ ')' :: rest)) from rfl]
        rw [expectChars_append, Option.some_bind]
        rw [parseShapeTuple_adeq shape fu (')' :: rest)
          (by simp only [List.length_cons, List.length_append]; omega)]
        rfl
  | .struct fl isz al ty m t =>
    simp only [Constructible, Bool.and_eq_true] at hC
    obtain ⟨hCf, hid0⟩ := hC
    have hid : ty = true ∨ (identOK m = true ∧ identOK t = true) := by
      rcases (Bool.or_eq_true _ _).mp hid0 with h | h
      · exact Or.inl h
      · exact Or.inr ((Bool.and_eq_true _ _).mp h)
    cases hpk : is_packed fl isz with
    | true =>
      obtain ⟨items, hitems, hlenI, flp, hfe, hlp⟩ := list_items_roundtrip plat fl hCf
      have hloop : is_packed_loop 0 fl = some isz := by
        unfold is_packed at hpk
        cases hx : is_packed_loop 0 fl with
        | none => rw [hx] at hpk; simp at hpk
        | some tot =>
          rw [hx] at hpk
          have htot : tot = isz := by simpa using hpk
          rw [htot]
      have hinner : ∀ rest fuel,
          ("[" ++ joinSep ", " items ++ "]").data.length + rest.length ≤ fuel →
          parseValue plat fuel (("[" ++ joinSep ", " items ++ "]").data ++ rest) =
            some ((.struct flp isz false true "" "" : Dtype), rest) := by
        intro rest fuel hf
        have hslen : ("[" ++ joinSep ", " items ++ "]").data.length =
            (joinSep ", " items).data.length + 2 := by
          simp [str_data_append] <;> omega
        have hdec : ("[" ++ joinSep ", " items ++ "]").data ++ rest =
            '[' :: ((joinSep ", " items).data ++ ']' :: rest) := by
          simp [str_data_append]
        rw [hslen] at hf
        rw [hdec]
        cases fuel with
        | zero => omega
        | succ fu =>
          rw [parseValue_bracket]
          rw [hlp 0 isz rest fu hloop (by omega)]
          rfl
      refine ⟨type_wrap ty m t ("[" ++ joinSep ", " items ++ "]"), ?_, ?_,
        .struct flp isz false true "" "", ?_, rfl, ?_⟩
      · simp only [construction_repr]
        rw [show (!(false && al) && is_packed fl isz) = is_packed fl isz from by simp]
        rw [hpk, if_pos rfl]
        rw [hitems]
        rfl
      · cases ty with
        | true =>
          rw [show type_wrap true m t ("[" ++ joinSep ", " items ++ "]") =
            "[" ++ joinSep ", " items ++ "]" from rfl]
          refine ⟨'[', (joinSep ", " items).data ++ [']'], ?_, Or.inr (Or.inl rfl)⟩
          simp [str_data_append]
        | false =>
          rcases hid with h | ⟨hm, ht⟩
          · exact absurd h (by decide)
          refine ⟨'(', m.data ++ '.' :: (t.data ++ ',' :: ' ' ::
            (("[" ++ joinSep ", " items ++ "]").data ++ [')'])), ?_,
            Or.inr (Or.inr (Or.inr rfl))⟩
          rw [show type_wrap false m t ("[" ++ joinSep ", " items ++ "]") =
            "(" ++ m ++ "." ++ t ++ ", " ++ ("[" ++ joinSep ", " items ++ "]") ++ ")"
            from rfl]
          simp [str_data_append]
      · simp [equivCore, hfe]
      · exact type_wrap_parse plat ty m t _ _ hid hinner
    | false =>
      cases hT : fl.titles.any (fun t0 => t0.isSome) with
      | false =>
        obtain ⟨formats, hff, hflen, ds, hds, hfp⟩ := formats_roundtrip plat fl hCf
        have s1 : ("\x7b\x27names\x27:[").data = '\x7b' :: ("\x27names\x27:[").data := rfl
        have s2 : ("], \x27formats\x27:[").data = ']' :: (", \x27formats\x27:[").data := rfl
        have s3 : ("], \x27offsets\x27:[").data = ']' :: (", \x27offsets\x27:[").data := rfl
        have s4 : ("], \x27titles\x27:[").data = ']' :: (", \x27titles\x27:[").data := rfl
        have s5 : ("], \x27itemsize\x27:").data = ']' :: (", \x27itemsize\x27:").data := rfl
        have s6 : ("\x7d").data = ['\x7d'] := rfl
        have l1 : ("\x27names\x27:[").data.length = 9 := rfl
        have l2 : (", \x27formats\x27:[").data.length = 13 := rfl
        have l3 : (", \x27offsets\x27:[").data.length = 13 := rfl
        have l4 : (", \x27titles\x27:[").data.length = 12 := rfl
        have l5 : (", \x27itemsize\x27:").data.length = 13 := rfl
        have lN : 1 ≤ (decRepr isz).data.length := decRepr_len isz
        have hdec : ∀ R : List Char,
            (dict_str_build fl isz al false formats).data ++ R =
              '\x7b' :: (("\x27names\x27:[").data ++ ((joinSep "," (fl.names.map pyStrRepr)).data ++ (']' :: ((", \x27formats\x27:[").data ++ ((joinSep "," formats).data ++ (']' :: ((", \x27offsets\x27:[").data ++ ((joinSep "," (fl.offsets.map decRepr)).data ++ (']' :: ((", \x27itemsize\x27:").data ++ ((decRepr isz).data ++ ('\x7d' :: R)))))))))))) := by
          intro R
          simp [dict_str_build, hT, str_data_append, s1, s2, s3, s4, s5, s6]
        have hlen := congrArg List.length (hdec [])
        simp only [List.append_nil, List.length_append, List.length_cons,
          l1, l2, l3, l4, l5] at hlen
        have hinner : ∀ rest fuel,
            (dict_str_build fl isz al false formats).data.length + rest.length ≤ fuel →
            parseValue plat fuel ((dict_str_build fl isz al false formats).data ++ rest) =
              some ((.struct (zipFields fl.names ds fl.offsets fl.titles) isz false
                true "" "" : Dtype), rest) := by
          intro rest fuel hf
          rw [hdec rest]
          cases fuel with
          | zero => omega
          | succ fu =>
            cases fu with
            | zero => simp only [List.length_cons, List.length_append] at hf; omega
            | succ g =>
              rw [parseValue_brace, parseDictTail_step]
              rw [expectChars_append, Option.some_bind]
              rw [parseNameList_adeq fl.names (g + 1) ((", \x27formats\x27:[").data ++ ((joinSep "," formats).data ++ (']' :: ((", \x27offsets\x27:[").data ++ ((joinSep "," (fl.offsets.map decRepr)).data ++ (']' :: ((", \x27itemsize\x27:").data ++ ((decRepr isz).data ++ ('\x7d' :: rest)))))))))
                (by
                  simp only [List.length_append, List.length_cons, l2, l3, l4, l5, lN] at hf ⊢
                  omega)]
              rw [Option.some_bind]
              rw [show expectChars ("], \x27formats\x27:[").data (']' :: ((", \x27formats\x27:[").data ++ ((joinSep "," formats).data ++ (']' :: ((", \x27offsets\x27:[").data ++ ((joinSep "," (fl.offsets.map decRepr)).data ++ (']' :: ((", \x27itemsize\x27:").data ++ ((decRepr isz).data ++ ('\x7d' :: rest)))))))))) =
                some ((joinSep "," formats).data ++ (']' :: ((", \x27offsets\x27:[").data ++ ((joinSep "," (fl.offsets.map decRepr)).data ++ (']' :: ((", \x27itemsize\x27:").data ++ ((decRepr isz).data ++ ('\x7d' :: rest)))))))) from by
                  have h := expectChars_append ("], \x27formats\x27:[").data ((joinSep "," formats).data ++ (']' :: ((", \x27offsets\x27:[").data ++ ((joinSep "," (fl.offsets.map decRepr)).data ++ (']' :: ((", \x27itemsize\x27:").data ++ ((decRepr isz).data ++ ('\x7d' :: rest))))))))
                  rwa [s2, List.cons_append] at h]
              rw [Option.some_bind]
              rw [hfp ((", \x27offsets\x27:[").data ++ ((joinSep "," (fl.offsets.map decRepr)).data ++ (']' :: ((", \x27itemsize\x27:").data ++ ((decRepr isz).data ++ ('\x7d' :: rest)))))) g
                (by
                  simp only [List.length_append, List.length_cons, l3, l4, l5, lN] at hf ⊢
                  omega)]
              rw [Option.some_bind]
              rw [show expectChars ("], \x27offsets\x27:[").data (']' :: ((", \x27offsets\x27:[").data ++ ((joinSep "," (fl.offsets.map decRepr)).data ++ (']' :: ((", \x27itemsize\x27:").data ++ ((decRepr isz).data ++ ('\x7d' :: rest))))))) =
                some ((joinSep "," (fl.offsets.map decRepr)).data ++ (']' :: ((", \x27itemsize\x27:").data ++ ((decRepr isz).data ++ ('\x7d' :: rest))))) from by
                  have h := expectChars_append ("], \x27offsets\x27:[").data ((joinSep "," (fl.offsets.map decRepr)).data ++ (']' :: ((", \x27itemsize\x27:").data ++ ((decRepr isz).data ++ ('\x7d' :: rest)))))
                  rwa [s3, List.cons_append] at h]
              rw [Option.some_bind]
              rw [parseDecList_adeq fl.offsets (g + 1) ((", \x27itemsize\x27:").data ++ ((decRepr isz).data ++ ('\x7d' :: rest)))
                (by
                  simp only [List.length_append, List.length_cons, l4, l5, lN] at hf ⊢
                  omega)]
              rw [Option.some_bind]
              rw [show expectChars ("], \x27titles\x27:[").data (']' :: ((", \x27itemsize\x27:").data ++ ((decRepr isz).data ++ ('\x7d' :: rest)))) = none from rfl]
              split
              · rename_i r7 hr7
                exact absurd hr7 (by simp)
              · rw [show expectChars ("], \x27itemsize\x27:").data (']' :: ((", \x27itemsize\x27:").data ++ ((decRepr isz).data ++ ('\x7d' :: rest)))) =
                  some ((decRepr isz).data ++ ('\x7d' :: rest)) from by
                    have h := expectChars_append ("], \x27itemsize\x27:").data ((decRepr isz).data ++ ('\x7d' :: rest))
                    rwa [s5, List.cons_append] at h]
                rw [Option.map_some']
                rw [Option.some_bind]
                rw [parseDec_decRepr isz ('\x7d' :: rest)
                  (head_cons_not_digit '\x7d' rest (by decide))]
                rw [titles_all_none fl hT]
                rfl
        refine ⟨type_wrap ty m t (dict_str_build fl isz al false formats), ?_, ?_,
          .struct (zipFields fl.names ds fl.offsets fl.titles) isz false true "" "",
          ?_, rfl, ?_⟩
        · simp only [construction_repr]
          rw [show (!(false && al) && is_packed fl isz) = is_packed fl isz from by simp]
          rw [hpk, if_neg (by simp)]
          rw [hff]
          rfl
        · cases ty with
          | true =>
            rw [show type_wrap true m t (dict_str_build fl isz al false formats) =
              dict_str_build fl isz al false formats from rfl]
            refine ⟨'\x7b', (("\x27names\x27:[").data ++ ((joinSep "," (fl.names.map pyStrRepr)).data ++ (']' :: ((", \x27formats\x27:[").data ++ ((joinSep "," formats).data ++ (']' :: ((", \x27offsets\x27:[").data ++ ((joinSep "," (fl.offsets.map decRepr)).data ++ (']' :: ((", \x27itemsize\x27:").data ++ ((decRepr isz).data ++ ('\x7d' :: ([] : List Char))))))))))))), ?_,
              Or.inr (Or.inr (Or.inl rfl))⟩
            have h := hdec []
            rw [List.append_nil] at h
            exact h
          | false =>
            rcases hid with h | ⟨hm, ht⟩
            · exact absurd h (by decide)
            refine ⟨'(', m.data ++ '.' :: (t.data ++ ',' :: ' ' ::
              ((dict_str_build fl isz al false formats).data ++ [')'])), ?_,
              Or.inr (Or.inr (Or.inr rfl))⟩
            rw [show type_wrap false m t (dict_str_build fl isz al false formats) =
              "(" ++ m ++ "." ++ t ++ ", " ++ dict_str_build fl isz al false formats ++ ")"
              from rfl]
            simp [str_data_append]
        · simp [equivCore, zipFields_equiv ds fl hds]
        · exact type_wrap_parse plat ty m t _ _ hid hinner
      | true =>
        obtain ⟨formats, hff, hflen, ds, hds, hfp⟩ := formats_roundtrip plat fl hCf
        have s1 : ("\x7b\x27names\x27:[").data = '\x7b' :: ("\x27names\x27:[").data := rfl
        have s2 : ("], \x27formats\x27:[").data = ']' :: (", \x27formats\x27:[").data := rfl
        have s3 : ("], \x27offsets\x27:[").data = ']' :: (", \x27offsets\x27:[").data := rfl
        have s4 : ("], \x27titles\x27:[").data = ']' :: (", \x27titles\x27:[").data := rfl
        have s5 : ("], \x27itemsize\x27:").data = ']' :: (", \x27itemsize\x27:").data := rfl
        have s6 : ("\x7d").data = ['\x7d'] := rfl
        have l1 : ("\x27names\x27:[").data.length = 9 := rfl
        have l2 : (", \x27formats\x27:[").data.length = 13 := rfl
        have l3 : (", \x27offsets\x27:[").data.length = 13 := rfl
        have l4 : (", \x27titles\x27:[").data.length = 12 := rfl
        have l5 : (", \x27itemsize\x27:").data.length = 13 := rfl
        have lN : 1 ≤ (decRepr isz).data.length := decRepr_len isz
        have hdec : ∀ R : List Char,
            (dict_str_build fl isz al false formats).data ++ R =
              '\x7b' :: (("\x27names\x27:[").data ++ ((joinSep "," (fl.names.map pyStrRepr)).data ++ (']' :: ((", \x27formats\x27:[").data ++ ((joinSep "," formats).data ++ (']' :: ((", \x27offsets\x27:[").data ++ ((joinSep "," (fl.offsets.map decRepr)).data ++ (']' :: ((", \x27titles\x27:[").data ++ ((joinSep "," (fl.titles.map pyOptStrRepr)).data ++ (']' :: ((", \x27itemsize\x27:").data ++ ((decRepr isz).data ++ ('\x7d' :: R))))))))))))))) := by
          intro R
          simp [dict_str_build, hT, str_data_append, s1, s2, s3, s4, s5, s6]
        have hlen := congrArg List.length (hdec [])
        simp only [List.append_nil, List.length_append, List.length_cons,
          l1, l2, l3, l4, l5] at hlen
        have hinner : ∀ rest fuel,
            (dict_str_build fl isz al false formats).data.length + rest.length ≤ fuel →
            parseValue plat fuel ((dict_str_build fl isz al false formats).data ++ rest) =
              some ((.struct (zipFields fl.names ds fl.offsets fl.titles) isz false
                true "" "" : Dtype), rest) := by
          intro rest fuel hf
          rw [hdec rest]
          cases fuel with
          | zero => omega
          | succ fu =>
            cases fu with
            | zero => simp only [List.length_cons, List.length_append] at hf; omega
            | succ g =>
              rw [parseValue_brace, parseDictTail_step]
              rw [expectChars_append, Option.some_bind]
              rw [parseNameList_adeq fl.names (g + 1) ((", \x27formats\x27:[").data ++ ((joinSep "," formats).data ++ (']' :: ((", \x27offsets\x27:[").data ++ ((joinSep "," (fl.offsets.map decRepr)).data ++ (']' :: ((", \x27titles\x27:[").data ++ ((joinSep "," (fl.titles.map pyOptStrRepr)).data ++ (']' :: ((", \x27itemsize\x27:").data ++ ((decRepr isz).data ++ ('\x7d' :: rest))))))))))))
                (by
                  simp only [List.length_append, List.length_cons, l2, l3, l4, l5, lN] at hf ⊢
                  omega)]
              rw [Option.some_bind]
              rw [show expectChars ("], \x27formats\x27:[").data (']' :: ((", \x27formats\x27:[").data ++ ((joinSep "," formats).data ++ (']' :: ((", \x27offsets\x27:[").data ++ ((joinSep "," (fl.offsets.map decRepr)).data ++ (']' :: ((", \x27titles\x27:[").data ++ ((joinSep "," (fl.titles.map pyOptStrRepr)).data ++ (']' :: ((", \x27itemsize\x27:").data ++ ((decRepr isz).data ++ ('\x7d' :: rest))))))))))))) =
                some ((joinSep "," formats).data ++ (']' :: ((", \x27offsets\x27:[").data ++ ((joinSep "," (fl.offsets.map decRepr)).data ++ (']' :: ((", \x27titles\x27:[").data ++ ((joinSep "," (fl.titles.map pyOptStrRepr)).data ++ (']' :: ((", \x27itemsize\x27:").data ++ ((decRepr isz).data ++ ('\x7d' :: rest))))))))))) from by
                  have h := expectChars_append ("], \x27formats\x27:[").data ((joinSep "," formats).data ++ (']' :: ((", \x27offsets\x27:[").data ++ ((joinSep "," (fl.offsets.map decRepr)).data ++ (']' :: ((", \x27titles\x27:[").data ++ ((joinSep "," (fl.titles.map pyOptStrRepr)).data ++ (']' :: ((", \x27itemsize\x27:").data ++ ((decRepr isz).data ++ ('\x7d' :: rest)))))))))))
                  rwa [s2, List.cons_append] at h]
              rw [Option.some_bind]
              rw [hfp ((", \x27offsets\x27:[").data ++ ((joinSep "," (fl.offsets.map decRepr)).data ++ (']' :: ((", \x27titles\x27:[").data ++ ((joinSep "," (fl.titles.map pyOptStrRepr)).data ++ (']' :: ((", \x27itemsize\x27:").data ++ ((decRepr isz).data ++ ('\x7d' :: rest))))))))) g
                (by
                  simp only [List.length_append, List.length_cons, l3, l4, l5, lN] at hf ⊢
                  omega)]
              rw [Option.some_bind]
              rw [show expectChars ("], \x27offsets\x27:[").data (']' :: ((", \x27offsets\x27:[").data ++ ((joinSep "," (fl.offsets.map decRepr)).data ++ (']' :: ((", \x27titles\x27:[").data ++ ((joinSep "," (fl.titles.map pyOptStrRepr)).data ++ (']' :: ((", \x27itemsize\x27:").data ++ ((decRepr isz).data ++ ('\x7d' :: rest)))))))))) =
                some ((joinSep "," (fl.offsets.map decRepr)).data ++ (']' :: ((", \x27titles\x27:[").data ++ ((joinSep "," (fl.titles.map pyOptStrRepr)).data ++ (']' :: ((", \x27itemsize\x27:").data ++ ((decRepr isz).data ++ ('\x7d' :: rest)))))))) from by
                  have h := expectChars_append ("], \x27offsets\x27:[").data ((joinSep "," (fl.offsets.map decRepr)).data ++ (']' :: ((", \x27titles\x27:[").data ++ ((joinSep "," (fl.titles.map pyOptStrRepr)).data ++ (']' :: ((", \x27itemsize\x27:").data ++ ((decRepr isz).data ++ ('\x7d' :: rest))))))))
                  rwa [s3, List.cons_append] at h]
              rw [Option.some_bind]
              rw [parseDecList_adeq fl.offsets (g + 1) ((", \x27titles\x27:[").data ++ ((joinSep "," (fl.titles.map pyOptStrRepr)).data ++ (']' :: ((", \x27itemsize\x27:").data ++ ((decRepr isz).data ++ ('\x7d' :: rest))))))
                (by
                  simp only [List.length_append, List.length_cons, l4, l5, lN] at hf ⊢
                  omega)]
              rw [Option.some_bind]
              rw [show expectChars ("], \x27titles\x27:[").data (']' :: ((", \x27titles\x27:[").data ++ ((joinSep "," (fl.titles.map pyOptStrRepr)).data ++ (']' :: ((", \x27itemsize\x27:").data ++ ((decRepr isz).data ++ ('\x7d' :: rest))))))) =
                some ((joinSep "," (fl.titles.map pyOptStrRepr)).data ++ (']' :: ((", \x27itemsize\x27:").data ++ ((decRepr isz).data ++ ('\x7d' :: rest))))) from by
                  have h := expectChars_append ("], \x27titles\x27:[").data ((joinSep "," (fl.titles.map pyOptStrRepr)).data ++ (']' :: ((", \x27itemsize\x27:").data ++ ((decRepr isz).data ++ ('\x7d' :: rest)))))
                  rwa [s4, List.cons_append] at h]
              split
              · rename_i r7 hr7
                injection hr7 with hr7
                subst hr7
                rw [parseOptNameList_adeq fl.titles (g + 1) ((", \x27itemsize\x27:").data ++ ((decRepr isz).data ++ ('\x7d' :: rest)))
                  (by
                    simp only [List.length_append, List.length_cons, l4, l5, lN] at hf ⊢
                    omega)]
                rw [Option.some_bind]
                rw [show expectChars ("], \x27itemsize\x27:").data (']' :: ((", \x27itemsize\x27:").data ++ ((decRepr isz).data ++ ('\x7d' :: rest)))) =
                  some ((decRepr isz).data ++ ('\x7d' :: rest)) from by
                    have h := expectChars_append ("], \x27itemsize\x27:").data ((decRepr isz).data ++ ('\x7d' :: rest))
                    rwa [s5, List.cons_append] at h]
                rw [Option.map_some']
                rw [Option.some_bind]
                rw [parseDec_decRepr isz ('\x7d' :: rest)
                  (head_cons_not_digit '\x7d' rest (by decide))]
                rfl
              · rename_i hr7
                exact absurd hr7 (by simp)
        refine ⟨type_wrap ty m t (dict_str_build fl isz al false formats), ?_, ?_,
          .struct (zipFields fl.names ds fl.offsets fl.titles) isz false true "" "",
          ?_, rfl, ?_⟩
        · simp only [construction_repr]
          rw [show (!(false && al) && is_packed fl isz) = is_packed fl isz from by simp]
          rw [hpk, if_neg (by simp)]
          rw [hff]
          rfl
        · cases ty with
          | true =>
            rw [show type_wrap true m t (dict_str_build fl isz al false formats) =
              dict_str_build fl isz al false formats from rfl]
            refine ⟨'\x7b', (("\x27names\x27:[").data ++ ((joinSep "," (fl.names.map pyStrRepr)).data ++ (']' :: ((", \x27formats\x27:[").data ++ ((joinSep "," formats).data ++ (']' :: ((", \x27offsets\x27:[").data ++ ((joinSep "," (fl.offsets.map decRepr)).data ++ (']' :: ((", \x27titles\x27:[").data ++ ((joinSep "," (fl.titles.map pyOptStrRepr)).data ++ (']' :: ((", \x27itemsize\x27:").data ++ ((decRepr isz).data ++ ('\x7d' :: ([] : List Char)))))))))))))))), ?_,
              Or.inr (Or.inr (Or.inl rfl))⟩
            have h := hdec []
            rw [List.append_nil] at h
            exact h
          | false =>
            rcases hid with h | ⟨hm, ht⟩
            · exact absurd h (by decide)
            refine ⟨'(', m.data ++ '.' :: (t.data ++ ',' :: ' ' ::
              ((dict_str_build fl isz al false formats).data ++ [')'])), ?_,
              Or.inr (Or.inr (Or.inr rfl))⟩
            rw [show type_wrap false m t (dict_str_build fl isz al false formats) =
              "(" ++ m ++ "." ++ t ++ ", " ++ dict_str_build fl isz al false formats ++ ")"
              from rfl]
            simp [str_data_append]
        · simp [equivCore, zipFields_equiv ds fl hds]
        · exact type_wrap_parse plat ty m t _ _ hid hinner
termination_by structural d

/-- Round trip of the dict-form `formats` entries: each field renders
with the short flag and the comma-joined renderings parse back as a
value list pairwise equivalent to the field dtypes. -/
theorem formats_roundtrip (plat : Endianness) (fl : Fields)
    (hC : ConstructibleFields plat fl = true) :
    ∃ formats : List String, fields_formats plat fl = .ok formats ∧
      formats.length = fl.names.length ∧
      ∃ ds : List Dtype, dtypesMatch ds fl = true ∧
        ∀ rest fuel,
          (joinSep "," formats).data.length + rest.length + 2 ≤ fuel →
          parseValueList plat fuel ((joinSep "," formats).data ++ ']' :: rest) =
            some (ds, ']' :: rest) := by
  match fl with
  | .nil =>
    refine ⟨[], rfl, rfl, [], rfl, ?_⟩
    intro rest fuel hf
    rw [show ((joinSep "," ([] : List String)).data ++ ']' :: rest) =
      ']' :: rest from rfl]
    cases fuel with
    | zero => rfl
    | succ fu => rfl
  | .cons nm fd off tt rest_f =>
    simp only [ConstructibleFields, Bool.and_eq_true] at hC
    obtain ⟨hCd, hCr⟩ := hC
    obtain ⟨formats2, hff2, hflen2, ds2, hds2, hfp2⟩ := formats_roundtrip plat rest_f hCr
    obtain ⟨s1, h1, ⟨c, rs, hcd, hcor⟩, d1, he1, ha1, hp1⟩ :=
      value_roundtrip plat fd true hCd
    refine ⟨s1 :: formats2, ?_, ?_, d1 :: ds2, ?_, ?_⟩
    · simp only [fields_formats]
      rw [h1, ok_bind, hff2, ok_bind]
    · simp [Fields.names, hflen2]
    · simp [dtypesMatch, hds2, he1]
    · intro rest fuel hf
      cases formats2 with
      | nil =>
        have hrf : rest_f = .nil := by
          cases rest_f with
          | nil => rfl
          | cons a bb cc dd ee => simp [Fields.names] at hflen2
        subst hrf
        have hds0 : ds2 = [] := by
          cases ds2 with
          | nil => rfl
          | cons x xs => simp [dtypesMatch] at hds2
        subst hds0
        rw [show (joinSep "," [s1]) = s1 from rfl] at hf ⊢
        rw [hcd] at hf ⊢
        rw [List.cons_append]
        simp only [List.length_cons] at hf
        cases fuel with
        | zero => omega
        | succ fu =>
          rw [parseValueList_step plat fu c (rs ++ ']' :: rest) hcor]
          rw [show (c :: (rs ++ ']' :: rest)) = ((c :: rs) ++ ']' :: rest) from by
            rw [List.cons_append]]
          rw [← hcd]
          rw [hp1 (']' :: rest) fu (by
            rw [hcd]
            simp only [List.length_cons]
            omega)]
          rfl
      | cons f2 fs2 =>
        rw [joinSep_cons2] at hf ⊢
        have hJlen : ((s1 ++ "," ++ joinSep "," (f2 :: fs2)).data).length =
            s1.data.length + 1 + (joinSep "," (f2 :: fs2)).data.length := by
          simp [str_data_append] <;> omega
        rw [hJlen] at hf
        have hdec : (s1 ++ "," ++ joinSep "," (f2 :: fs2)).data ++ ']' :: rest =
            c :: (rs ++ (',' :: ((joinSep "," (f2 :: fs2)).data ++ ']' :: rest))) := by
          simp [str_data_append, hcd]
        rw [hdec]
        cases fuel with
        | zero => omega
        | succ fu =>
          rw [parseValueList_step plat fu c
            (rs ++ (',' :: ((joinSep "," (f2 :: fs2)).data ++ ']' :: rest))) hcor]
          rw [show (c :: (rs ++ (',' :: ((joinSep "," (f2 :: fs2)).data ++
              ']' :: rest)))) =
            ((c :: rs) ++ (',' :: ((joinSep "," (f2 :: fs2)).data ++ ']' :: rest)))
            from by rw [List.cons_append]]
          rw [← hcd]
          rw [hp1 (',' :: ((joinSep "," (f2 :: fs2)).data ++ ']' :: rest)) fu (by
            simp only [List.length_cons, List.length_append]
            omega)]
          show ((parseValueList plat fu
            ((joinSep "," (f2 :: fs2)).data ++ ']' :: rest)).map
              fun q => (d1 :: q.1, q.2)) = _
          rw [hfp2 rest fu (by omega)]
          rfl
termination_by structural fl

/-- Round trip of the list-form items: a packed constructible field
list renders to items whose comma-space-joined form parses back, via
`parseListItems`, to an equivalent field list with the accumulated
total offset. -/
theorem list_items_roundtrip (plat : Endianness) (fl : Fields)
    (hC : ConstructibleFields plat fl = true) :
    ∃ items : List String, fields_list_items plat fl = .ok items ∧
      items.length = fl.names.length ∧
      ∃ flr : Fields, equivFields flr fl = true ∧
        ∀ ofs e rest fuel, is_packed_loop ofs fl = some e →
          (joinSep ", " items).data.length + rest.length + 1 ≤ fuel →
          parseListItems plat fuel ofs ((joinSep ", " items).data ++ ']' :: rest) =
            some ((flr, e), ']' :: rest) := by
  match fl with
  | .nil =>
    refine ⟨[], rfl, rfl, .nil, rfl, ?_⟩
    intro ofs e rest fuel hloop hf
    rw [show is_packed_loop ofs Fields.nil = some ofs from rfl] at hloop
    injection hloop with he2
    rw [show ((joinSep ", " ([] : List String)).data ++ ']' :: rest) =
      ']' :: rest from rfl]
    rw [← he2]
    cases fuel with
    | zero => rfl
    | succ fu => rfl
  | .cons nm fd off tt rest_f =>
    simp only [ConstructibleFields, Bool.and_eq_true] at hC
    obtain ⟨hCd, hCr⟩ := hC
    obtain ⟨items2, hit2, hlen2, flr, hfer, hlp2⟩ := list_items_roundtrip plat rest_f hCr
    cases fd with
    | subarray base shape szz =>
      simp only [Constructible, Bool.and_eq_true] at hCd
      obtain ⟨⟨⟨⟨hb0, hCb⟩, hne⟩, hpos⟩, hsz0⟩ := hCd
      have hsz : szz = base.itemsize * shape.prod := by simpa using hsz0
      obtain ⟨bs, hb, ⟨c, rs, hcd, hcor⟩, b2, hbe, hba, hbp⟩ :=
        value_roundtrip plat base true hCb
      refine ⟨(list_item_head tt nm ++ (bs ++ ", " ++ tupleRepr shape) ++ ")") :: items2,
        ?_, ?_, .cons nm (Dtype.subarray b2 shape (b2.itemsize * shape.prod)) off tt flr, ?_, ?_⟩
      · simp only [fields_list_items]
        rw [hb, ok_bind, ok_bind, hit2, ok_bind]
      · simp [Fields.names, hlen2]
      · simp [equivFields, hfer, equivCore, hbe, equivCore_itemsize b2 base hbe, hsz]
      · intro ofs e rest fuel hloop hf
        rw [show is_packed_loop ofs (.cons nm (.subarray base shape szz) off tt rest_f) =
          (if off ≠ ofs then none
           else is_packed_loop (ofs + (Dtype.subarray base shape szz).itemsize) rest_f) from rfl] at hloop
        split at hloop
        · exact absurd hloop (by simp)
        · rename_i hoe0
          have hoe : off = ofs := not_not.mp hoe0
          have hdsz : (Dtype.subarray b2 shape (b2.itemsize * shape.prod)).itemsize =
              (Dtype.subarray base shape szz).itemsize := by
            rw [show (Dtype.subarray b2 shape (b2.itemsize * shape.prod)).itemsize =
              b2.itemsize * shape.prod from rfl]
            rw [show (Dtype.subarray base shape szz).itemsize = szz from rfl]
            rw [equivCore_itemsize b2 base hbe, hsz]
          cases items2 with
          | nil =>
            have hrf : rest_f = .nil := by
              cases rest_f with
              | nil => rfl
              | cons a2 bb cc dd ee => simp [Fields.names] at hlen2
            subst hrf
            have hflr : flr = .nil := by
              cases flr with
              | nil => rfl
              | cons a2 bb cc dd ee => simp [equivFields] at hfer
            subst hflr
            rw [show is_packed_loop (ofs + (Dtype.subarray base shape szz).itemsize) Fields.nil =
              some (ofs + (Dtype.subarray base shape szz).itemsize) from rfl] at hloop
            injection hloop with he2
            rw [show joinSep ", " [list_item_head tt nm ++ (bs ++ ", " ++ tupleRepr shape) ++ ")"] =
              (list_item_head tt nm ++ (bs ++ ", " ++ tupleRepr shape) ++ ")") from rfl] at hf ⊢
            obtain ⟨r0, hr0, hnp⟩ := parseNamePart_adeq tt nm
              (bs.data ++ ',' :: ' ' :: ((tupleRepr shape).data ++ ')' :: ']' :: rest))
            have hdec : (list_item_head tt nm ++ (bs ++ ", " ++ tupleRepr shape) ++ ")").data ++ ']' :: rest = '(' :: r0 := by
              rw [← hr0]
              simp [str_data_append]
            have hlih := list_item_head_len tt nm
            have hslen : (list_item_head tt nm ++ (bs ++ ", " ++ tupleRepr shape) ++ ")").data.length =
                (list_item_head tt nm).data.length + bs.data.length + 2 +
                  (tupleRepr shape).data.length + 1 := by
              simp [str_data_append] <;> omega
            rw [hslen] at hf
            rw [hdec]
            cases fuel with
            | zero => omega
            | succ fu =>
              rw [parseListItems_paren, hnp, Option.some_bind]
              rw [show (',' :: ' ' :: (bs.data ++ ',' :: ' ' :: ((tupleRepr shape).data ++ ')' :: ']' :: rest))) =
                ((", ").data ++ (bs.data ++ ',' :: ' ' :: ((tupleRepr shape).data ++ ')' :: ']' :: rest))) from rfl]
              rw [expectChars_append, Option.some_bind]
              rw [hbp (',' :: ' ' :: ((tupleRepr shape).data ++ ')' :: ']' :: rest)) fu (by
                simp only [List.length_cons, List.length_append]
                omega)]
              show (((parseShapeTuple fu ((tupleRepr shape).data ++ ')' :: ']' :: rest)).bind
                  fun ps =>
                  (match ps.2 with
                    | ')' :: r6 =>
                      some ((.subarray b2 ps.1 (b2.itemsize * ps.1.prod) : Dtype), r6)
                    | _ => none)).bind fun pf =>
                (match pf.2 with
                  | ',' :: ' ' :: r8 =>
                    (parseListItems plat fu (ofs + pf.1.itemsize) r8).map
                      fun q => ((Fields.cons nm pf.1 ofs tt q.1.1, q.1.2), q.2)
                  | _ =>
                    some ((Fields.cons nm pf.1 ofs tt Fields.nil,
                      ofs + pf.1.itemsize), pf.2))) = _
              rw [parseShapeTuple_adeq shape fu (')' :: ']' :: rest) (by
                simp only [List.length_cons, List.length_append]
                omega)]
              show some ((Fields.cons nm (Dtype.subarray b2 shape (b2.itemsize * shape.prod)) ofs tt Fields.nil,
                ofs + (Dtype.subarray b2 shape (b2.itemsize * shape.prod)).itemsize), ']' :: rest) = _
              rw [hoe, hdsz, he2]
          | cons it2 its2 =>
            rw [joinSep_cons2] at hf ⊢
            obtain ⟨r0, hr0, hnp⟩ := parseNamePart_adeq tt nm
              (bs.data ++ ',' :: ' ' :: ((tupleRepr shape).data ++ ')' :: ',' :: ' ' :: ((joinSep ", " (it2 :: its2)).data ++ ']' :: rest)))
            have hdec : ((list_item_head tt nm ++ (bs ++ ", " ++ tupleRepr shape) ++ ")") ++ ", " ++ joinSep ", " (it2 :: its2)).data ++ ']' :: rest = '(' :: r0 := by
              rw [← hr0]
              simp [str_data_append]
            have hlih := list_item_head_len tt nm
            have hJlen : (((list_item_head tt nm ++ (bs ++ ", " ++ tupleRepr shape) ++ ")") ++ ", " ++
                joinSep ", " (it2 :: its2)).data).length =
                (list_item_head tt nm).data.length + bs.data.length + 2 +
                  (tupleRepr shape).data.length + 3 + (joinSep ", " (it2 :: its2)).data.length := by
              simp [str_data_append] <;> omega
            rw [hJlen] at hf
            rw [hdec]
            cases fuel with
            | zero => omega
            | succ fu =>
              rw [parseListItems_paren, hnp, Option.some_bind]
              rw [show (',' :: ' ' :: (bs.data ++ ',' :: ' ' :: ((tupleRepr shape).data ++ ')' :: ',' :: ' ' :: ((joinSep ", " (it2 :: its2)).data ++ ']' :: rest)))) =
                ((", ").data ++ (bs.data ++ ',' :: ' ' :: ((tupleRepr shape).data ++ ')' :: ',' :: ' ' :: ((joinSep ", " (it2 :: its2)).data ++ ']' :: rest)))) from rfl]
              rw [expectChars_append, Option.some_bind]
              rw [hbp (',' :: ' ' :: ((tupleRepr shape).data ++ ')' :: ',' :: ' ' :: ((joinSep ", " (it2 :: its2)).data ++ ']' :: rest))) fu (by
                simp only [List.length_cons, List.length_append]
                omega)]
              show (((parseShapeTuple fu ((tupleRepr shape).data ++ ')' :: ',' :: ' ' :: ((joinSep ", " (it2 :: its2)).data ++ ']' :: rest))).bind
                  fun ps =>
                  (match ps.2 with
                    | ')' :: r6 =>
                      some ((.subarray b2 ps.1 (b2.itemsize * ps.1.prod) : Dtype), r6)
                    | _ => none)).bind fun pf =>
                (match pf.2 with
                  | ',' :: ' ' :: r8 =>
                    (parseListItems plat fu (ofs + pf.1.itemsize) r8).map
                      fun q => ((Fields.cons nm pf.1 ofs tt q.1.1, q.1.2), q.2)
                  | _ =>
                    some ((Fields.cons nm pf.1 ofs tt Fields.nil,
                      ofs + pf.1.itemsize), pf.2))) = _
              rw [parseShapeTuple_adeq shape fu (')' :: ',' :: ' ' :: ((joinSep ", " (it2 :: its2)).data ++ ']' :: rest)) (by
                simp only [List.length_cons, List.length_append]
                omega)]
              show ((parseListItems plat fu (ofs + (Dtype.subarray b2 shape (b2.itemsize * shape.prod)).itemsize)
                  ((joinSep ", " (it2 :: its2)).data ++ ']' :: rest)).map
                fun q => ((Fields.cons nm (Dtype.subarray b2 shape (b2.itemsize * shape.prod)) ofs tt q.1.1, q.1.2), q.2)) = _
              rw [hdsz]
              rw [hlp2 (ofs + (Dtype.subarray base shape szz).itemsize) e rest fu hloop (by omega)]
              rw [hoe]
              rfl
    | scalar k2 b2 i2 nm2 st2 =>
      obtain ⟨s1, h1, ⟨c, rs, hcd, hcor⟩, d1, he1, ha1, hp1⟩ :=
        value_roundtrip plat (.scalar k2 b2 i2 nm2 st2) true hCd
      refine ⟨(list_item_head tt nm ++ s1 ++ ")") :: items2, ?_, ?_,
        .cons nm d1 off tt flr, ?_, ?_⟩
      · simp only [fields_list_items]
        rw [h1, ok_bind, hit2, ok_bind]
      · simp [Fields.names, hlen2]
      · simp [equivFields, he1, hfer]
      · intro ofs e rest fuel hloop hf
        rw [show is_packed_loop ofs (.cons nm (.scalar k2 b2 i2 nm2 st2) off tt rest_f) =
          (if off ≠ ofs then none
           else is_packed_loop (ofs + (Dtype.scalar k2 b2 i2 nm2 st2).itemsize) rest_f) from rfl] at hloop
        split at hloop
        · exact absurd hloop (by simp)
        · rename_i hoe0
          have hoe : off = ofs := not_not.mp hoe0
          have hdsz : d1.itemsize = (Dtype.scalar k2 b2 i2 nm2 st2).itemsize := equivCore_itemsize d1 _ he1
          cases items2 with
          | nil =>
            have hrf : rest_f = .nil := by
              cases rest_f with
              | nil => rfl
              | cons a2 bb cc dd ee => simp [Fields.names] at hlen2
            subst hrf
            have hflr : flr = .nil := by
              cases flr with
              | nil => rfl
              | cons a2 bb cc dd ee => simp [equivFields] at hfer
            subst hflr
            rw [show is_packed_loop (ofs + (Dtype.scalar k2 b2 i2 nm2 st2).itemsize) Fields.nil =
              some (ofs + (Dtype.scalar k2 b2 i2 nm2 st2).itemsize) from rfl] at hloop
            injection hloop with he2
            obtain ⟨r0, hr0, hnp⟩ := parseNamePart_adeq tt nm
              (s1.data ++ ')' :: ']' :: rest)
            rw [show joinSep ", " [list_item_head tt nm ++ s1 ++ ")"] =
              list_item_head tt nm ++ s1 ++ ")" from rfl] at hf ⊢
            have hdec : (list_item_head tt nm ++ s1 ++ ")").data ++ ']' :: rest =
                '(' :: r0 := by
              rw [← hr0]
              simp [str_data_append]
            have hlih := list_item_head_len tt nm
            have hslen : (list_item_head tt nm ++ s1 ++ ")").data.length =
                (list_item_head tt nm).data.length + s1.data.length + 1 := by
              simp [str_data_append] <;> omega
            rw [hslen] at hf
            rw [hdec]
            cases fuel with
            | zero => omega
            | succ fu =>
              rw [parseListItems_paren, hnp, Option.some_bind]
              rw [show (',' :: ' ' :: (s1.data ++ ')' :: ']' :: rest)) =
                ((", ").data ++ (s1.data ++ ')' :: ']' :: rest)) from rfl]
              rw [expectChars_append, Option.some_bind]
              rw [hp1 (')' :: ']' :: rest) fu (by
                simp only [List.length_cons]
                omega)]
              show some ((Fields.cons nm d1 ofs tt Fields.nil, ofs + d1.itemsize),
                ']' :: rest) = _
              rw [hoe, hdsz, he2]
          | cons it2 its2 =>
            rw [joinSep_cons2] at hf ⊢
            obtain ⟨r0, hr0, hnp⟩ := parseNamePart_adeq tt nm
              (s1.data ++ ')' :: ',' :: ' ' :: ((joinSep ", " (it2 :: its2)).data ++ ']' :: rest))
            have hdec : ((list_item_head tt nm ++ s1 ++ ")") ++ ", " ++
                joinSep ", " (it2 :: its2)).data ++ ']' :: rest = '(' :: r0 := by
              rw [← hr0]
              simp [str_data_append]
            have hlih := list_item_head_len tt nm
            have hJlen : (((list_item_head tt nm ++ s1 ++ ")") ++ ", " ++
                joinSep ", " (it2 :: its2)).data).length =
                (list_item_head tt nm).data.length + s1.data.length + 3 +
                  (joinSep ", " (it2 :: its2)).data.length := by
              simp [str_data_append] <;> omega
            rw [hJlen] at hf
            rw [hdec]
            cases fuel with
            | zero => omega
            | succ fu =>
              rw [parseListItems_paren, hnp, Option.some_bind]
              rw [show (',' :: ' ' :: (s1.data ++ ')' :: ',' :: ' ' ::
                  ((joinSep ", " (it2 :: its2)).data ++ ']' :: rest))) =
                ((", ").data ++ (s1.data ++ ')' :: ',' :: ' ' ::
                  ((joinSep ", " (it2 :: its2)).data ++ ']' :: rest))) from rfl]
              rw [expectChars_append, Option.some_bind]
              rw [hp1 (')' :: ',' :: ' ' :: ((joinSep ", " (it2 :: its2)).data ++ ']' :: rest)) fu (by
                simp only [List.length_cons, List.length_append]
                omega)]
              show ((parseListItems plat fu (ofs + d1.itemsize)
                  ((joinSep ", " (it2 :: its2)).data ++ ']' :: rest)).map
                fun q => ((Fields.cons nm d1 ofs tt q.1.1, q.1.2), q.2)) = _
              rw [hdsz]
              rw [hlp2 (ofs + (Dtype.scalar k2 b2 i2 nm2 st2).itemsize) e rest fu hloop (by omega)]
              rw [hoe]
              rfl
    | struct fl2 i22 al2 ty2 m2 t2 =>
      obtain ⟨s1, h1, ⟨c, rs, hcd, hcor⟩, d1, he1, ha1, hp1⟩ :=
        value_roundtrip plat (.struct fl2 i22 al2 ty2 m2 t2) true hCd
      refine ⟨(list_item_head tt nm ++ s1 ++ ")") :: items2, ?_, ?_,
        .cons nm d1 off tt flr, ?_, ?_⟩
      · simp only [fields_list_items]
        rw [h1, ok_bind, hit2, ok_bind]
      · simp [Fields.names, hlen2]
      · simp [equivFields, he1, hfer]
      · intro ofs e rest fuel hloop hf
        rw [show is_packed_loop ofs (.cons nm (.struct fl2 i22 al2 ty2 m2 t2) off tt rest_f) =
          (if off ≠ ofs then none
           else is_packed_loop (ofs + (Dtype.struct fl2 i22 al2 ty2 m2 t2).itemsize) rest_f) from rfl] at hloop
        split at hloop
        · exact absurd hloop (by simp)
        · rename_i hoe0
          have hoe : off = ofs := not_not.mp hoe0
          have hdsz : d1.itemsize = (Dtype.struct fl2 i22 al2 ty2 m2 t2).itemsize := equivCore_itemsize d1 _ he1
          cases items2 with
          | nil =>
            have hrf : rest_f = .nil := by
              cases rest_f with
              | nil => rfl
              | cons a2 bb cc dd ee => simp [Fields.names] at hlen2
            subst hrf
            have hflr : flr = .nil := by
              cases flr with
              | nil => rfl
              | cons a2 bb cc dd ee => simp [equivFields] at hfer
            subst hflr
            rw [show is_packed_loop (ofs + (Dtype.struct fl2 i22 al2 ty2 m2 t2).itemsize) Fields.nil =
              some (ofs + (Dtype.struct fl2 i22 al2 ty2 m2 t2).itemsize) from rfl] at hloop
            injection hloop with he2
            obtain ⟨r0, hr0, hnp⟩ := parseNamePart_adeq tt nm
              (s1.data ++ ')' :: ']' :: rest)
            rw [show joinSep ", " [list_item_head tt nm ++ s1 ++ ")"] =
              list_item_head tt nm ++ s1 ++ ")" from rfl] at hf ⊢
            have hdec : (list_item_head tt nm ++ s1 ++ ")").data ++ ']' :: rest =
                '(' :: r0 := by
              rw [← hr0]
              simp [str_data_append]
            have hlih := list_item_head_len tt nm
            have hslen : (list_item_head tt nm ++ s1 ++ ")").data.length =
                (list_item_head tt nm).data.length + s1.data.length + 1 := by
              simp [str_data_append] <;> omega
            rw [hslen] at hf
            rw [hdec]
            cases fuel with
            | zero => omega
            | succ fu =>
              rw [parseListItems_paren, hnp, Option.some_bind]
              rw [show (',' :: ' ' :: (s1.data ++ ')' :: ']' :: rest)) =
                ((", ").data ++ (s1.data ++ ')' :: ']' :: rest)) from rfl]
              rw [expectChars_append, Option.some_bind]
              rw [hp1 (')' :: ']' :: rest) fu (by
                simp only [List.length_cons]
                omega)]
              show some ((Fields.cons nm d1 ofs tt Fields.nil, ofs + d1.itemsize),
                ']' :: rest) = _
              rw [hoe, hdsz, he2]
          | cons it2 its2 =>
            rw [joinSep_cons2] at hf ⊢
            obtain ⟨r0, hr0, hnp⟩ := parseNamePart_adeq tt nm
              (s1.data ++ ')' :: ',' :: ' ' :: ((joinSep ", " (it2 :: its2)).data ++ ']' :: rest))
            have hdec : ((list_item_head tt nm ++ s1 ++ ")") ++ ", " ++
                joinSep ", " (it2 :: its2)).data ++ ']' :: rest = '(' :: r0 := by
              rw [← hr0]
              simp [str_data_append]
            have hlih := list_item_head_len tt nm
            have hJlen : (((list_item_head tt nm ++ s1 ++ ")") ++ ", " ++
                joinSep ", " (it2 :: its2)).data).length =
                (list_item_head tt nm).data.length + s1.data.length + 3 +
                  (joinSep ", " (it2 :: its2)).data.length := by
              simp [str_data_append] <;> omega
            rw [hJlen] at hf
            rw [hdec]
            cases fuel with
            | zero => omega
            | succ fu =>
              rw [parseListItems_paren, hnp, Option.some_bind]
              rw [show (',' :: ' ' :: (s1.data ++ ')' :: ',' :: ' ' ::
                  ((joinSep ", " (it2 :: its2)).data ++ ']' :: rest))) =
                ((", ").data ++ (s1.data ++ ')' :: ',' :: ' ' ::
                  ((joinSep ", " (it2 :: its2)).data ++ ']' :: rest))) from rfl]
              rw [expectChars_append, Option.some_bind]
              rw [hp1 (')' :: ',' :: ' ' :: ((joinSep ", " (it2 :: its2)).data ++ ']' :: rest)) fu (by
                simp only [List.length_cons, List.length_append]
                omega)]
              show ((parseListItems plat fu (ofs + d1.itemsize)
                  ((joinSep ", " (it2 :: its2)).data ++ ']' :: rest)).map
                fun q => ((Fields.cons nm d1 ofs tt q.1.1, q.1.2), q.2)) = _
              rw [hdsz]
              rw [hlp2 (ofs + (Dtype.struct fl2 i22 al2 ty2 m2 t2).itemsize) e rest fu hloop (by omega)]
              rw [hoe]
              rfl
termination_by structural fl
end

/-- The constructor applied to `dtype(<s0>)` yields whatever `parseValue`
yields on `s0`. -/
theorem construct_dtype_wrap (plat : Endianness) (s0 : String) (d2 : Dtype)
    (hp : ∀ rest fuel, s0.data.length + rest.length ≤ fuel →
      parseValue plat fuel (s0.data ++ rest) = some (d2, rest)) :
    construct plat ("dtype(" ++ s0 ++ ")") = d2 := by
  rw [show construct plat ("dtype(" ++ s0 ++ ")") =
    (parseTop plat (2 * ("dtype(" ++ s0 ++ ")").data.length + 2)
      ("dtype(" ++ s0 ++ ")").data).getD (.scalar .voidK '|' 0 "" "") from rfl]
  have hlen : ("dtype(" ++ s0 ++ ")").data.length = s0.data.length + 7 := by
    simp [str_data_append] <;> omega
  have hdec : ("dtype(" ++ s0 ++ ")").data = ("dtype(").data ++ (s0.data ++ [')']) := by
    simp [str_data_append]
  rw [hlen, hdec]
  rw [show parseTop plat (2 * (s0.data.length + 7) + 2)
      (("dtype(").data ++ (s0.data ++ [')'])) =
    ((expectChars ("dtype(").data (("dtype(").data ++ (s0.data ++ [')']))).bind fun r =>
    (parseValue plat (2 * (s0.data.length + 7) + 2) r).bind fun pv =>
    match pv.2 with
    | [')'] => some pv.1
    | _ =>
      (expectChars (", align=True)").data pv.2).bind fun r3 =>
      (match r3 with
        | [] => some (setAligned pv.1)
        | _ => none)) from rfl]
  rw [expectChars_append, Option.some_bind]
  rw [hp [')'] (2 * (s0.data.length + 7) + 2)
    (by simp only [List.length_cons, List.length_nil]; omega)]
  rfl

/-- The constructor applied to `dtype(<s0>, align=True)` yields the
parsed value with the aligned flag set. -/
theorem construct_dtype_wrap_align (plat : Endianness) (s0 : String) (d2 : Dtype)
    (hp : ∀ rest fuel, s0.data.length + rest.length ≤ fuel →
      parseValue plat fuel (s0.data ++ rest) = some (d2, rest)) :
    construct plat ("dtype(" ++ s0 ++ ", align=True" ++ ")") = setAligned d2 := by
  rw [show construct plat ("dtype(" ++ s0 ++ ", align=True" ++ ")") =
    (parseTop plat (2 * ("dtype(" ++ s0 ++ ", align=True" ++ ")").data.length + 2)
      ("dtype(" ++ s0 ++ ", align=True" ++ ")").data).getD
        (.scalar .voidK '|' 0 "" "") from rfl]
  have hlen : ("dtype(" ++ s0 ++ ", align=True" ++ ")").data.length =
      s0.data.length + 19 := by
    simp [str_data_append] <;> omega
  have hdec : ("dtype(" ++ s0 ++ ", align=True" ++ ")").data =
      ("dtype(").data ++ (s0.data ++ (", align=True)").data) := by
    simp [str_data_append]
  rw [hlen, hdec]
  rw [show parseTop plat (2 * (s0.data.length + 19) + 2)
      (("dtype(").data ++ (s0.data ++ (", align=True)").data)) =
    ((expectChars ("dtype(").data
        (("dtype(").data ++ (s0.data ++ (", align=True)").data))).bind fun r =>
    (parseValue plat (2 * (s0.data.length + 19) + 2) r).bind fun pv =>
    match pv.2 with
    | [')'] => some pv.1
    | _ =>
      (expectChars (", align=True)").data pv.2).bind fun r3 =>
      (match r3 with
        | [] => some (setAligned pv.1)
        | _ => none)) from rfl]
  rw [expectChars_append, Option.some_bind]
  rw [hp (", align=True)").data (2 * (s0.data.length + 19) + 2)
    (by
      have h13 : ((", align=True)").data).length = 13 := rfl
      rw [h13]
      omega)]
  rfl

/-- C1 (amended): for every constructible descriptor, the canonical
repr string parses back — through the spec-modelled external
constructor — to a descriptor with the same kind, itemsize, byte
order, field layout, recursive substructure, and top-level alignment
flag.  (The aligned flags of NESTED structured fields are not part of
the repr and cannot be reproduced; see the counterexample.) -/
theorem repr_parse_roundtrip (plat : Endianness) (d : Dtype)
    (hC : Constructible plat d = true) :
    ∃ s : String, dtype_repr plat d = .ok s ∧
      equivTop (construct plat s) d = true := by
  match d with
  | .scalar k b isz nm st =>
    obtain ⟨s0, h0, hhead, d2, he, ha, hp⟩ :=
      value_roundtrip plat (.scalar k b isz nm st) false hC
    refine ⟨"dtype(" ++ s0 ++ ")", ?_, ?_⟩
    · rw [show dtype_repr plat (.scalar k b isz nm st) =
        (construction_repr plat (.scalar k b isz nm st) false false >>= fun sub =>
          .ok ("dtype(" ++ sub ++ ")")) from rfl]
      rw [h0]
      rfl
    · rw [construct_dtype_wrap plat s0 d2 hp]
      simp only [equivTop]
      rw [ha, show (Dtype.scalar k b isz nm st).isalignedstruct = false from rfl]
      simp [he]
  | .subarray base shape isz =>
    obtain ⟨s0, h0, hhead, d2, he, ha, hp⟩ :=
      value_roundtrip plat (.subarray base shape isz) false hC
    refine ⟨"dtype(" ++ s0 ++ ")", ?_, ?_⟩
    · rw [show dtype_repr plat (.subarray base shape isz) =
        (construction_repr plat (.subarray base shape isz) false false >>= fun sub =>
          .ok ("dtype(" ++ sub ++ ")")) from rfl]
      rw [h0]
      rfl
    · rw [construct_dtype_wrap plat s0 d2 hp]
      simp only [equivTop]
      rw [ha, show (Dtype.subarray base shape isz).isalignedstruct = false from rfl]
      simp [he]
  | .struct fl isz al ty m t =>
    obtain ⟨s0, h0, hhead, d2, he, ha, hp⟩ :=
      value_roundtrip plat (.struct fl isz al ty m t) false hC
    have hs0 : struct_str plat (.struct fl isz al ty m t) false = .ok s0 := by
      rw [show struct_str plat (.struct fl isz al ty m t) false =
        construction_repr plat (.struct fl isz al ty m t) false false from rfl]
      exact h0
    cases al with
    | false =>
      refine ⟨"dtype(" ++ s0 ++ ")", ?_, ?_⟩
      · rw [show dtype_repr plat (.struct fl isz false ty m t) =
          (struct_str plat (.struct fl isz false ty m t) false >>= fun sub =>
            .ok ("dtype(" ++ sub ++ "" ++ ")")) from rfl]
        rw [hs0, ok_bind, str_append_empty]
      · rw [construct_dtype_wrap plat s0 d2 hp]
        simp only [equivTop]
        rw [ha, show (Dtype.struct fl isz false ty m t).isalignedstruct = false from rfl]
        simp [he]
    | true =>
      cases d2 with
      | scalar k2 b2 i2 nm2 st2 => simp [equivCore] at he
      | subarray b2 sh2 i2 => simp [equivCore] at he
      | struct fl2 i2 al2 ty2 m2 t2 =>
        refine ⟨"dtype(" ++ s0 ++ ", align=True" ++ ")", ?_, ?_⟩
        · rw [show dtype_repr plat (.struct fl isz true ty m t) =
            (struct_str plat (.struct fl isz true ty m t) false >>= fun sub =>
              .ok ("dtype(" ++ sub ++ ", align=True" ++ ")")) from rfl]
          rw [hs0]
          rfl
        · rw [construct_dtype_wrap_align plat s0 _ hp]
          rw [show setAligned (.struct fl2 i2 al2 ty2 m2 t2) =
            (.struct fl2 i2 true ty2 m2 t2 : Dtype) from rfl]
          simp only [equivCore] at he
          simp only [equivTop, equivCore]
          rw [show (Dtype.struct fl2 i2 true ty2 m2 t2).isalignedstruct = true from rfl,
            show (Dtype.struct fl isz true ty m t).isalignedstruct = true from rfl]
          simp [he]

/-- Witness for the C1 amended theorem at the packed, aligned,
single-field record descriptor: constructibility is decided and the
round trip is obtained by applying the theorem. -/
theorem repr_parse_roundtrip_witness :
    Constructible .little exPackedAligned = true ∧
    ∃ s : String, dtype_repr .little exPackedAligned = .ok s ∧
      equivTop (construct .little s) exPackedAligned = true :=
  ⟨by decide, repr_parse_roundtrip .little exPackedAligned (by decide)⟩

/-- C1 counterexample: two distinct constructible descriptors that
differ only in the aligned flag of a nested structured field have
identical canonical reprs, so no constructor output can be identical
to both — the original round-trip claim (an identical descriptor,
including every alignment flag) is false. -/
theorem repr_roundtrip_not_identical :
    ∃ d1 d2 : Dtype,
      Constructible .little d1 = true ∧ Constructible .little d2 = true ∧
      d1 ≠ d2 ∧ dtype_repr .little d1 = dtype_repr .little d2 := by
  refine ⟨.struct (.cons "a" (.struct (.cons "f0" exI4 0 none .nil) 4 true true "" "")
      0 none .nil) 4 false true "" "",
    .struct (.cons "a" (.struct (.cons "f0" exI4 0 none .nil) 4 false true "" "")
      0 none .nil) 4 false true "" "",
    by decide, by decide, by decide, by decide⟩
